import Mathlib

/-!
# Window stacking and layers

A shallow embedding of the stacking and layer code of `win/win.h` and `win/stacking.h`.

Window pointers are natural numbers, `nullptr` is `0`; the window object behind a pointer is
given by the heap function of the workspace.  Containers (`std::vector`, `std::deque`) are lists,
front first.
-/

namespace KWin.win

/-! ## Data model -/

/-- Modelled from the spec: the enum `layer` of `win/types.h` is not part of the sources. The
constructors are the nine layers of the data model in ascending order, followed by `unmanaged`,
which `belong_to_layer` returns for internal and lock-screen windows. -/
inductive layer where
  | desktop
  | below
  | normal
  | dock
  | above
  | notification
  | active
  | critical_notification
  | on_screen_display
  | unmanaged
  deriving DecidableEq, Repr

/-- The position of a layer in the enum, `layer::first` is `0`. -/
def enum_index : layer → Nat
  | layer.desktop => 0
  | layer.below => 1
  | layer.normal => 2
  | layer.dock => 3
  | layer.above => 4
  | layer.notification => 5
  | layer.active => 6
  | layer.critical_notification => 7
  | layer.on_screen_display => 8
  | layer.unmanaged => 9

/-- The number of layers, `enum_index(layer::count)`. -/
def layer_count : Nat := 10

/-- All layers from `layer::first` upwards. -/
def all_layers : List layer :=
  [layer.desktop, layer.below, layer.normal, layer.dock, layer.above, layer.notification,
    layer.active, layer.critical_notification, layer.on_screen_display, layer.unmanaged]

/-- The window types `windowType()` can return, as far as the stacking code tells them apart. -/
inductive NET where
  | Normal
  | Desktop
  | Dock
  | Toolbar
  | Splash
  | Notification
  | CriticalNotification
  | OnScreenDisplay
  | Dialog
  deriving DecidableEq, Repr

/-- A null pointer. -/
def nullptr : Nat := 0

/-- The window object behind a pointer: what the stacking and layer code reads from it. The
fields `on_desktop`, `on_current_desktop`, `on_all_desktops`, `get_desktop`, `wants_tab_focus`,
`get_layer` and `get_top_lead` hold the results of the helper queries of the same name, which are
not part of the sources. -/
structure window where
  /-- Result of `control` / `control()` being non-null. -/
  control : Bool
  isInternal : Bool
  isLockScreen : Bool
  windowType : NET
  belongsToDesktop : Bool
  layer_for_dock : layer
  keep_below : Bool
  keep_above : Bool
  fullscreen : Bool
  /-- Result of `screen()`. -/
  screen : Nat
  /-- Result of `transient->leads()`. -/
  leads : List Nat
  /-- The field `topo.central_output`, `0` when there is none. -/
  central_output : Nat
  isShown : Bool
  wants_tab_focus : Bool
  on_desktop : Nat → Bool
  on_current_desktop : Bool
  on_all_desktops : Bool
  get_desktop : Nat
  get_layer : layer
  get_top_lead : Nat
  /-- Result of `get_transient_family`. -/
  get_transient_family : List Nat
  /-- Whether `dynamic_cast<x11_window*>` succeeds. -/
  is_x11 : Bool
  /-- Whether the x11 window has a `group`. -/
  group : Bool
  /-- Result of `belongsToSameApplication(other, checks)` with the default checks. -/
  belongsToSameApplication : Nat → Bool

/-- A plain managed window: normal type, no flags, no leads, shown on desktop 1. -/
def plain_window : window where
  control := true
  isInternal := false
  isLockScreen := false
  windowType := NET.Normal
  belongsToDesktop := false
  layer_for_dock := layer.dock
  keep_below := false
  keep_above := false
  fullscreen := false
  screen := 0
  leads := []
  central_output := 1
  isShown := true
  wants_tab_focus := true
  on_desktop := fun d => d == 1
  on_current_desktop := true
  on_all_desktops := false
  get_desktop := 1
  get_layer := layer.normal
  get_top_lead := 0
  get_transient_family := []
  is_x11 := false
  group := false
  belongsToSameApplication := fun _ => false

/-- The workspace as the layer classifier of `win/win.h` sees it. -/
structure workspace where
  /-- The window object behind each pointer. -/
  win : Nat → window
  showingDesktop : Bool
  /-- Result of `mostRecentlyActivatedClient()`, `0` when there is none. -/
  mostRecentlyActivatedClient : Nat

/-- Modelled from the spec: the type predicates of `win/net.h` are not part of the sources; a
window is a desktop-type (dock-type, ...) window when its window type is that type. -/
def is_desktop (w : window) : Bool := w.windowType == NET.Desktop

/-- Modelled from the spec: dock-type window, `win/net.h` is not part of the sources. -/
def is_dock (w : window) : Bool := w.windowType == NET.Dock

/-- Modelled from the spec: splash screen, `win/net.h` is not part of the sources. -/
def is_splash (w : window) : Bool := w.windowType == NET.Splash

/-- Modelled from the spec: toolbar window, `win/net.h` is not part of the sources. -/
def is_toolbar (w : window) : Bool := w.windowType == NET.Toolbar

/-- Modelled from the spec: notification type, `win/net.h` is not part of the sources. -/
def is_notification (w : window) : Bool := w.windowType == NET.Notification

/-- Modelled from the spec: critical-notification type, `win/net.h` is not part of the
sources. -/
def is_critical_notification (w : window) : Bool := w.windowType == NET.CriticalNotification

/-- Modelled from the spec: on-screen-display type, `win/net.h` is not part of the sources. -/
def is_on_screen_display (w : window) : Bool := w.windowType == NET.OnScreenDisplay

/-- Modelled from the spec: `contains` of `utils/algorithm.h` is not part of the sources; whether
the container holds the value. -/
def contains (container : List Nat) (value : Nat) : Bool := decide (value ∈ container)

/-! ## The layer classifier (`win/win.h`) -/

/-- The function `is_active_fullscreen` of `win/win.h`. -/
def is_active_fullscreen (ws : workspace) (win : Nat) : Bool :=
  if !(ws.win win).fullscreen then
    false
  else
    let ac := ws.mostRecentlyActivatedClient
    ac != nullptr
      && (ac == win || (ws.win ac).screen != (ws.win win).screen
        || contains (ws.win ac).leads win)

/-- The function `belong_to_layer` of `win/win.h`. -/
def belong_to_layer (ws : workspace) (win : Nat) : layer :=
  if (ws.win win).isInternal then
    layer.unmanaged
  else if (ws.win win).isLockScreen then
    layer.unmanaged
  else if is_desktop (ws.win win) then
    (if ws.showingDesktop then layer.above else layer.desktop)
  else if is_splash (ws.win win) then
    layer.normal
  else if is_dock (ws.win win) then
    (if ws.showingDesktop then layer.notification else (ws.win win).layer_for_dock)
  else if is_on_screen_display (ws.win win) then
    layer.on_screen_display
  else if is_notification (ws.win win) then
    layer.notification
  else if is_critical_notification (ws.win win) then
    layer.critical_notification
  else if ws.showingDesktop && (ws.win win).belongsToDesktop then
    layer.above
  else if (ws.win win).keep_below then
    layer.below
  else if is_active_fullscreen ws win then
    layer.active
  else if (ws.win win).keep_above then
    layer.above
  else
    layer.normal

/-- The function `is_special_window` of `win/win.h`. -/
def is_special_window (w : window) : Bool :=
  is_desktop w || is_dock w || is_splash w || is_toolbar w
    || is_notification w || is_critical_notification w || is_on_screen_display w

/-! ### The reference table of the layer rules -/

/-- The type rules of the reference table, in priority order: condition and resulting layer. -/
def type_rules (ws : workspace) (win : Nat) : List (Bool × layer) :=
  [((ws.win win).isInternal || (ws.win win).isLockScreen, layer.unmanaged),
    (is_desktop (ws.win win), if ws.showingDesktop then layer.above else layer.desktop),
    (is_splash (ws.win win), layer.normal),
    (is_dock (ws.win win),
      if ws.showingDesktop then layer.notification else (ws.win win).layer_for_dock),
    (is_on_screen_display (ws.win win), layer.on_screen_display),
    (is_notification (ws.win win), layer.notification),
    (is_critical_notification (ws.win win), layer.critical_notification)]

/-- The rules of the reference table that follow the type rules. -/
def flag_rules (ws : workspace) (win : Nat) : List (Bool × layer) :=
  [(ws.showingDesktop && (ws.win win).belongsToDesktop, layer.above),
    ((ws.win win).keep_below, layer.below),
    (is_active_fullscreen ws win, layer.active),
    ((ws.win win).keep_above, layer.above)]

/-- First match wins; `normal` when no rule matches. -/
def first_match : List (Bool × layer) → layer
  | [] => layer.normal
  | (c, r) :: rest => if c then r else first_match rest

/-- The reference table: the layer of the first rule that matches. -/
def layer_table (ws : workspace) (win : Nat) : layer :=
  first_match (type_rules ws win ++ flag_rules ws win)

/-- Whether one of the type rules matches. -/
def type_rule_matches (ws : workspace) (win : Nat) : Bool :=
  (type_rules ws win).any (fun r => r.1)

/-! ## The stacking order (`win/stacking.h`) -/

/-- The space as the stacking code sees it: the window objects, the unconstrained order
`stacking.order.pre_stack`, the constrained order `stacking.order.stack` (both bottom first),
`stacking.most_recently_raised`, the current virtual desktop and the separate-screen-focus
option. -/
structure space where
  /-- The window object behind each pointer. -/
  win : Nat → window
  pre_stack : List Nat
  stack : List Nat
  most_recently_raised : Nat
  /-- Result of `virtual_desktop_manager->current()`. -/
  current_desktop : Nat
  isSeparateScreenFocus : Bool

/-- Modelled from the spec: `transient->lead()` is not part of the sources; the first of the
window's leads, `nullptr` when it has none. -/
def lead (w : window) : Nat := w.leads.headD nullptr

/-- Modelled from the spec: `move_to_back` of `utils/algorithm.h` is not part of the sources;
remove the value from the container and reinsert it at the back. Returns whether the value was in
the container, which is left as it is when not. -/
def move_to_back (container : List Nat) (arg : Nat) : Bool × List Nat :=
  if contains container arg then (true, container.filter (fun x => x != arg) ++ [arg])
  else (false, container)

/-- Modelled from the spec: `move_to_front` of `utils/algorithm.h` is not part of the sources;
remove the value from the container and reinsert it at the front. Returns whether the value was
in the container, which is left as it is when not. -/
def move_to_front (container : List Nat) (arg : Nat) : Bool × List Nat :=
  if contains container arg then (true, arg :: container.filter (fun x => x != arg))
  else (false, container)

/-- Modelled from the spec: `remove_all` of `utils/algorithm.h` is not part of the sources;
remove every occurrence of the value. -/
def remove_all (container : List Nat) (arg : Nat) : List Nat :=
  container.filter (fun x => x != arg)

/-- The steps `find(pre_stack, under)` and `insert(it, window)` of `restack`: insert the window
before the first occurrence of `under`, at the end when there is none. -/
def insert_before_find : List Nat → Nat → Nat → List Nat
  | [], _, window => [window]
  | x :: rest, under, window =>
    if x = under then window :: x :: rest else x :: insert_before_find rest under window

/-- The function `belong_to_same_client` of `win/win.h`, with the default checks. -/
def belong_to_same_client (heap : Nat → window) (win1 win2 : Nat) : Bool :=
  (heap win1).belongsToSameApplication win2

/-! ### `sort_windows_by_layer` -/

/-- The layer the loop body of `sort_windows_by_layer` puts a window in, given the map
`lead_layers` built so far. -/
def bucket_layer (heap : Nat → window) (lead_layers : Nat × Nat → Option layer) (win : Nat) :
    layer :=
  let lay := (heap win).get_layer
  match lead_layers ((heap win).central_output, (heap win).get_top_lead) with
  | some found =>
    if found = layer.active ∧ enum_index lay > enum_index layer.below then layer.active else lay
  | none => lay

/-- The local state of `sort_windows_by_layer`: the map `lead_layers` and the array `layers` of
deques, indexed by `enum_index`. -/
structure sort_state where
  lead_layers : Nat × Nat → Option layer
  layers : Nat → List Nat

/-- One iteration of the first loop of `sort_windows_by_layer`. -/
def sort_step (heap : Nat → window) (st : sort_state) (win : Nat) : sort_state :=
  let lay := bucket_layer heap st.lead_layers win
  { lead_layers :=
      Function.update st.lead_layers ((heap win).central_output, (heap win).get_top_lead)
        (some lay)
    layers := Function.update st.layers (enum_index lay) (st.layers (enum_index lay) ++ [win]) }

/-- The function `sort_windows_by_layer` of `win/stacking.h`. -/
def sort_windows_by_layer (heap : Nat → window) (list : List Nat) : List Nat :=
  let st := list.foldl (sort_step heap) { lead_layers := fun _ => none, layers := fun _ => [] }
  (List.range layer_count).flatMap st.layers

/-- The layers the loop of `sort_windows_by_layer` assigns to the windows of a list, position by
position, starting from the map `lead_layers`. -/
def buckets (heap : Nat → window) : (Nat × Nat → Option layer) → List Nat → List layer
  | _, [] => []
  | lead_layers, win :: rest =>
    bucket_layer heap lead_layers win ::
      buckets heap
        (Function.update lead_layers ((heap win).central_output, (heap win).get_top_lead)
          (some (bucket_layer heap lead_layers win)))
        rest

/-- The map `lead_layers` after the loop of `sort_windows_by_layer` has gone through a list. -/
def lead_layers_after (heap : Nat → window) :
    (Nat × Nat → Option layer) → List Nat → (Nat × Nat → Option layer)
  | lead_layers, [] => lead_layers
  | lead_layers, win :: rest =>
    lead_layers_after heap
      (Function.update lead_layers ((heap win).central_output, (heap win).get_top_lead)
        (some (bucket_layer heap lead_layers win)))
      rest

/-- The windows of a list, each with the layer `sort_windows_by_layer` puts it in. -/
def bucketed (heap : Nat → window) (list : List Nat) : List (Nat × layer) :=
  list.zip (buckets heap (fun _ => none) list)

/-- Tagged windows grouped by the layers of `ks` in turn, keeping the order inside a group. -/
def group_by (ks : List layer) (tagged : List (Nat × layer)) : List (Nat × layer) :=
  ks.flatMap (fun k => tagged.filter (fun e => e.2 = k))

/-- The bucketed windows grouped by layer, low to high. -/
def grouped (heap : Nat → window) (list : List Nat) : List (Nat × layer) :=
  group_by all_layers (bucketed heap list)

/-- The windows of a list grouped by their own layer `get_layer`, for the layers of `ks` in
turn. -/
def group_windows (heap : Nat → window) (ks : List layer) (list : List Nat) : List Nat :=
  ks.flatMap (fun k => list.filter (fun w => (heap w).get_layer = k))

/-- The `(output, top lead)` key of a window in `sort_windows_by_layer`. -/
def lead_key (heap : Nat → window) (win : Nat) : Nat × Nat :=
  ((heap win).central_output, (heap win).get_top_lead)

/-- The order of windows by the index of their own layer `get_layer`. -/
def layer_le (heap : Nat → window) (a b : Nat) : Prop :=
  enum_index (heap a).get_layer ≤ enum_index (heap b).get_layer

instance layer_le_decidable (heap : Nat → window) : DecidableRel (layer_le heap) :=
  fun a b => Nat.decLe (enum_index (heap a).get_layer) (enum_index (heap b).get_layer)

/-- Modelled from the spec: `update_order` of the stacking order is not part of the sources;
recompute `stack` from `pre_stack` by grouping into the layers and flattening low to high. It runs
when the outermost `blocker` of the stacking order is released. -/
def update_order (sp : space) : space :=
  { sp with stack := sort_windows_by_layer sp.win sp.pre_stack }

/-! ### `top_client_on_desktop` -/

/-- The loop of `top_client_on_desktop` over the windows from the top down. -/
def top_client_loop (heap : Nat → window) (desktop output : Nat) (only_normal : Bool) :
    List Nat → Nat
  | [] => nullptr
  | c :: rest =>
    if c != nullptr && (heap c).on_desktop desktop && (heap c).isShown then
      if output != nullptr && (heap c).central_output != output then
        top_client_loop heap desktop output only_normal rest
      else if !only_normal then
        c
      else if (heap c).wants_tab_focus && !is_special_window (heap c) then
        c
      else
        top_client_loop heap desktop output only_normal rest
    else
      top_client_loop heap desktop output only_normal rest

/-- The function `top_client_on_desktop` of `win/stacking.h`. -/
def top_client_on_desktop (sp : space) (desktop output : Nat) (unconstrained only_normal : Bool) :
    Nat :=
  let list := if unconstrained then sp.pre_stack else sp.stack
  top_client_loop sp.win desktop output only_normal list.reverse

/-- What `top_client_on_desktop` with `only_normal` accepts: a non-null window on the desktop
that is shown, on the output when one is given, wants tab focus and is not special. -/
def normal_client (heap : Nat → window) (desktop output : Nat) (c : Nat) : Prop :=
  c ≠ nullptr ∧ (heap c).on_desktop desktop = true ∧ (heap c).isShown = true
    ∧ (output ≠ nullptr → (heap c).central_output = output)
    ∧ (heap c).wants_tab_focus = true ∧ is_special_window (heap c) = false

/-! ### Raising, lowering and restacking -/

/-- The function `ensure_stacking_order_in_list` of `win/stacking.h`, on the constrained order
`order.stack`; `cast win` tells whether `dynamic_cast<R*>(win)` gives a non-null pointer. -/
def ensure_stacking_order_in_list (cast : Nat → Bool) (stack list : List Nat) : List Nat :=
  if list.length = 0 then
    []
  else if list.length < 2 then
    [if cast (list.headD nullptr) then list.headD nullptr else nullptr]
  else
    stack.foldl (fun result win => if cast win then (move_to_back result win).2 else result)
      (list.filter cast)

/-- A cast to the window type of the space succeeds for every non-null pointer. -/
def window_cast (win : Nat) : Bool := win != nullptr

/-- A cast to the x11 window type succeeds for the non-null pointers to x11 windows. -/
def x11_cast (heap : Nat → window) (win : Nat) : Bool := win != nullptr && (heap win).is_x11

/-- The lambda `do_lower` of `lower_window`. -/
def do_lower (sp : space) (win : Nat) : space :=
  if !(move_to_front sp.pre_stack win).1 then { sp with pre_stack := win :: sp.pre_stack }
  else { sp with pre_stack := (move_to_front sp.pre_stack win).2 }

/-- The lambda `cleanup` of `lower_window`. -/
def cleanup (sp : space) (win : Nat) : space :=
  if win = sp.most_recently_raised then { sp with most_recently_raised := nullptr } else sp

/-- The function `lower_window` of `win/stacking.h`. The assertions `window->control` and
`gwin->control` are preconditions; the blocker held to the end of the function recomputes the
constrained order when it is released. -/
def lower_window (sp : space) (window : Nat) : space :=
  let sp1 := do_lower sp window
  let sp2 :=
    if (sp.win window).is_x11 && lead (sp.win window) != nullptr && (sp.win window).group then
      let wins := ensure_stacking_order_in_list (x11_cast sp.win) sp1.stack
        (sp.win window).get_transient_family
      wins.reverse.foldl
        (fun s gwin => if gwin = window then s else cleanup (do_lower s gwin) gwin) sp1
    else sp1
  update_order (cleanup sp2 window)

/-- The lambda `do_raise` of `raise_window`. -/
def do_raise (sp : space) (window : Nat) : space :=
  if !(move_to_back sp.pre_stack window).1 then
    sp
  else if !is_special_window (sp.win window) then
    { sp with pre_stack := (move_to_back sp.pre_stack window).2, most_recently_raised := window }
  else
    { sp with pre_stack := (move_to_back sp.pre_stack window).2 }

/-- The inner loop `while (lead)` of `raise_window`: append the windows on the chain of leads to
`leads`, unless already there. The loop gets `fuel` iterations; `none` when they do not suffice. -/
def lead_chain (heap : Nat → window) : Nat → Nat → List Nat → Option (List Nat)
  | 0, l, leads => if l = nullptr then some leads else none
  | fuel + 1, l, leads =>
    if l = nullptr then some leads
    else lead_chain heap fuel (lead (heap l)) (if contains leads l then leads else leads ++ [l])

/-- The windows on the chain of leads that starts at `l`: `l` itself, its lead `lead()`, the
lead of that one, and so on, up to the first null pointer. -/
inductive on_lead_chain (heap : Nat → window) : Nat → Nat → Prop
  | start (l : Nat) : l ≠ nullptr → on_lead_chain heap l l
  | next (l x : Nat) : on_lead_chain heap l x → lead (heap x) ≠ nullptr →
      on_lead_chain heap l (lead (heap x))

/-- The outer loop `for (auto lead : window->transient->leads())` of `raise_window`. -/
def collect_leads (heap : Nat → window) (fuel : Nat) : List Nat → List Nat → Option (List Nat)
  | [], leads => some leads
  | l :: rest, leads =>
    match lead_chain heap fuel l leads with
    | none => none
    | some leads2 => collect_leads heap fuel rest leads2

/-- The loop `for (auto lead : stacked_leads)` of `raise_window`. -/
def raise_leads (sp : space) (stacked_leads : List Nat) : space :=
  stacked_leads.foldl (fun s l => if !(s.win l).control then s else do_raise s l) sp

/-- The function `raise_window` of `win/stacking.h`; `none` when a chain of leads is not
exhausted within `fuel` steps. The assertion `window->control` is a precondition; the blocker held
to the end of the function recomputes the constrained order when it is released. -/
def raise_window (fuel : Nat) (sp : space) (window : Nat) : Option space :=
  if window = nullptr then some sp
  else if lead (sp.win window) != nullptr then
    match collect_leads sp.win fuel (sp.win window).leads [] with
    | none => none
    | some leads =>
      some (update_order
        (do_raise (raise_leads sp (ensure_stacking_order_in_list window_cast sp.stack leads))
          window))
  else some (update_order (do_raise sp window))

/-- The desktop `raise_or_lower_client` passes to `top_client_on_desktop` for a window. -/
def topmost_desktop (sp : space) (window : Nat) : Nat :=
  if (sp.win window).on_all_desktops then sp.current_desktop else (sp.win window).get_desktop

/-- The output `raise_or_lower_client` passes to `top_client_on_desktop` for a window. -/
def topmost_output (sp : space) (window : Nat) : Nat :=
  if sp.isSeparateScreenFocus then (sp.win window).central_output else nullptr

/-- The window `raise_or_lower_client` takes as the topmost one. -/
def topmost_client (sp : space) (window : Nat) : Nat :=
  if sp.most_recently_raised != nullptr && contains sp.stack sp.most_recently_raised
      && (sp.win sp.most_recently_raised).isShown && (sp.win window).on_current_desktop then
    sp.most_recently_raised
  else
    top_client_on_desktop sp (topmost_desktop sp window) (topmost_output sp window) false true

/-- The function `raise_or_lower_client` of `win/stacking.h`. -/
def raise_or_lower_client (fuel : Nat) (sp : space) (window : Nat) : Option space :=
  if window = nullptr then some sp
  else if window = topmost_client sp window then some (lower_window sp window)
  else raise_window fuel sp window

/-- The window `restack` puts the window under: `under` itself, or, when not forced and the
window does not belong to the application of `under`, the topmost window of `pre_stack` that has
a control, is in the layer of the window and belongs to the application of `under`. -/
def restack_under (sp : space) (window under : Nat) (force : Bool) : Nat :=
  if !force && !belong_to_same_client sp.win under window then
    match sp.pre_stack.reverse.find? (fun other =>
      (sp.win other).control && (sp.win other).get_layer == (sp.win window).get_layer
        && belong_to_same_client sp.win under other) with
    | some other => other
    | none => under
  else under

/-- The function `restack` of `win/stacking.h`, without the focus chain. The assertions that
`under` is non-null and contained in `pre_stack` are preconditions. -/
def restack (sp : space) (window under : Nat) (force : Bool) : space :=
  update_order
    { sp with
      pre_stack :=
        insert_before_find (remove_all sp.pre_stack window) (restack_under sp window under force)
          window }

/-- A workspace with a fullscreen window `1` and a plain window `2` on the same screen, window
`2` being the most recently activated client. -/
def fullscreen_example : workspace where
  win := fun p => if p = 1 then { plain_window with fullscreen := true } else plain_window
  showingDesktop := false
  mostRecentlyActivatedClient := 2

/-- A workspace whose windows are all fullscreen with both keep-below and keep-above set, window
`2` being the most recently activated client. -/
def flags_example : workspace where
  win := fun _ =>
    { plain_window with keep_below := true, keep_above := true, fullscreen := true }
  showingDesktop := false
  mostRecentlyActivatedClient := 2

/-- A space with the plain windows `1`, `2` and the dock `3` above them, all shown on desktop
`1`; window `2` was raised last. -/
def dock_example : space where
  win := fun p =>
    if p = 3 then
      { plain_window with windowType := NET.Dock, get_layer := layer.dock, get_top_lead := 3 }
    else { plain_window with get_top_lead := p }
  pre_stack := [1, 2, 3]
  stack := [1, 2, 3]
  most_recently_raised := 2
  current_desktop := 1
  isSeparateScreenFocus := false

/-- A workspace with a plain window `1` and its transient `2`, which has keep-below set. -/
def transient_example : workspace where
  win := fun p =>
    if p = 2 then
      { plain_window with
        keep_below := true, leads := [1], get_layer := layer.below, get_top_lead := 1 }
    else { plain_window with get_top_lead := p }
  showingDesktop := false
  mostRecentlyActivatedClient := 1

/-- A window group: the fullscreen window `1` in layer `active` and its transients `2` and `3`
in layer `normal`, all on the same output. -/
def group_example : Nat → window := fun p =>
  if p = 1 then
    { plain_window with fullscreen := true, get_layer := layer.active, get_top_lead := 1 }
  else { plain_window with leads := [1], get_top_lead := 1 }

/-- The space of `dock_example` with window `2` belonging to the application of window `1`. -/
def restack_example : space :=
  { dock_example with
    win := fun p =>
      if p = 1 then
        { plain_window with get_top_lead := 1, belongsToSameApplication := fun q => q == 2 }
      else dock_example.win p }

/-- A space of five windows shown on desktop `1`: window `1` has the lead `2`, window `2` has
the leads `3` and `4`, the windows `3`, `4` and `5` have no lead. -/
def leads_example : space where
  win := fun p =>
    if p = 1 then { plain_window with leads := [2], get_top_lead := 3 }
    else if p = 2 then { plain_window with leads := [3, 4], get_top_lead := 3 }
    else { plain_window with get_top_lead := p }
  pre_stack := [4, 3, 2, 5, 1]
  stack := [4, 3, 2, 5, 1]
  most_recently_raised := 1
  current_desktop := 1
  isSeparateScreenFocus := false

/-- A rank on the windows of `leads_example` that goes down along the leads. -/
def leads_example_rank (p : Nat) : Nat :=
  if p = 1 then 2 else if p = 2 then 1 else 0

/-- The space of `dock_example` with the dock at the bottom of `pre_stack`: the plain windows
`1` and `2` are the last raised ones, window `2` on top. -/
def toggle_example : space :=
  { dock_example with pre_stack := [3, 1, 2] }

/-- A space with a panel `1` that windows can cover, a dock in layer `normal`, and a plain
window `2` above it. -/
def panel_example : space where
  win := fun p =>
    if p = 1 then
      { plain_window with
        windowType := NET.Dock, layer_for_dock := layer.normal, get_top_lead := 1 }
    else { plain_window with get_top_lead := p }
  pre_stack := [1, 2]
  stack := [1, 2]
  most_recently_raised := 2
  current_desktop := 1
  isSeparateScreenFocus := false

/-- A space with three plain windows in layer `normal`: the windows `1` and `2` belong to one
application, window `3` to another one. -/
def application_example : space where
  win := fun p =>
    if p = 1 ∨ p = 2 then
      { plain_window with
        get_top_lead := p, belongsToSameApplication := fun q => q == 1 || q == 2 }
    else { plain_window with get_top_lead := p, belongsToSameApplication := fun q => q == p }
  pre_stack := [1, 2, 3]
  stack := [1, 2, 3]
  most_recently_raised := 3
  current_desktop := 1
  isSeparateScreenFocus := false

/-! ## The EGL backend (`egl_wayland_backend.cpp`) -/

/-- The Qt class `QRegion`, as the set of its pixels; `QRegion()` is the empty set. -/
abbrev QRegion := Finset (Int × Int)

/-- The region `QRegion(0, 0, w, h)`. -/
def screen_region (size : Nat × Nat) : QRegion :=
  (Finset.range size.1 ×ˢ Finset.range size.2).image (fun p => ((p.1 : Int), (p.2 : Int)))

/-- What the backend gets from outside: the size `screens()->size()`, the buffer age
`eglQuerySurface` reports after the n-th buffer swap, and the number of entries above which the
damage history drops its oldest entry. -/
structure egl_platform where
  screens_size : Nat × Nat
  buffer_age_after : Nat → Int
  history_limit : Nat

/-- The state of `EglWaylandBackend`: the member `m_bufferAge`, the last damage, the damage
history (newest first) and the flags `supportsBufferAge()` and `blocksForRetrace()` of its base
class, and the number of calls of `eglSwapBuffers` so far. -/
structure EglWaylandBackend where
  m_bufferAge : Int
  lastDamage : QRegion
  damageHistory : List QRegion
  supportsBufferAge : Bool
  blocksForRetrace : Bool
  swapped : Nat

/-- Modelled from the spec: `OpenGLBackend::accumulatedDamageHistory` is not part of the
sources; the union of the damage history entries younger than the buffer age, and the full screen
region for the buffer age 0, whose content is undefined, and for an age the history cannot
answer. -/
def accumulatedDamageHistory (env : egl_platform) (history : List QRegion) (bufferAge : Int) :
    QRegion :=
  if 0 < bufferAge ∧ bufferAge ≤ history.length then
    (history.take (bufferAge - 1).toNat).foldl (fun region entry => region ∪ entry) ∅
  else screen_region env.screens_size

/-- Modelled from the spec: `OpenGLBackend::addToDamageHistory` is not part of the sources; the
region becomes the newest entry of the bounded history, which drops its oldest entry when it holds
more than the limit. -/
def addToDamageHistory (env : egl_platform) (region : QRegion) (history : List QRegion) :
    List QRegion :=
  region :: (if history.length > env.history_limit then history.dropLast else history)

/-- The function `EglWaylandBackend::present`. -/
def EglWaylandBackend.present (env : egl_platform) (b : EglWaylandBackend) :
    EglWaylandBackend :=
  if b.supportsBufferAge then
    { b with
      swapped := b.swapped + 1
      m_bufferAge := env.buffer_age_after (b.swapped + 1)
      lastDamage := ∅ }
  else
    { b with swapped := b.swapped + 1, lastDamage := ∅ }

/-- The function `EglWaylandBackend::screenGeometryChanged`. -/
def EglWaylandBackend.screenGeometryChanged (b : EglWaylandBackend) : EglWaylandBackend :=
  { b with m_bufferAge := 0 }

/-- The function `EglWaylandBackend::prepareRenderingFrame`: the returned repaint region and the
state after the call. -/
def EglWaylandBackend.prepareRenderingFrame (env : egl_platform) (b : EglWaylandBackend) :
    QRegion × EglWaylandBackend :=
  let b1 := if b.lastDamage ≠ ∅ then b.present env else b
  let repaint : QRegion :=
    if b1.supportsBufferAge then accumulatedDamageHistory env b1.damageHistory b1.m_bufferAge
    else ∅
  (repaint, b1)

/-- The function `EglWaylandBackend::endRenderingFrame`. -/
def EglWaylandBackend.endRenderingFrame (env : egl_platform) (b : EglWaylandBackend)
    (renderedRegion damagedRegion : QRegion) : EglWaylandBackend :=
  if damagedRegion = ∅ then
    { b with lastDamage := ∅, m_bufferAge := 1 }
  else
    let b1 := { b with lastDamage := renderedRegion }
    let b2 := if !b1.blocksForRetrace then b1.present env else b1
    if b2.supportsBufferAge then
      { b2 with damageHistory := addToDamageHistory env damagedRegion b2.damageHistory }
    else b2

/-- A platform with a screen of two by two pixels that reports the buffer age 2 after every
swap. -/
def small_platform : egl_platform where
  screens_size := (2, 2)
  buffer_age_after := fun _ => 2
  history_limit := 10

/-- A backend as constructed, without support for the buffer age: nothing presented yet. -/
def fresh_backend : EglWaylandBackend where
  m_bufferAge := 0
  lastDamage := ∅
  damageHistory := []
  supportsBufferAge := false
  blocksForRetrace := true
  swapped := 0

/-! ## Moving and resizing (`win/move.h`) -/

/-- The Qt class `QPoint`. -/
structure QPoint where
  x : Int
  y : Int
  deriving DecidableEq, Repr

/-- The Qt class `QSize`. -/
structure QSize where
  width : Int
  height : Int
  deriving DecidableEq, Repr

/-- The Qt class `QRect`, which stores the coordinates of its left, top, right and bottom edge,
all inclusive: a rectangle at `(x, y)` of width `w` has the right edge `x + w - 1`. -/
structure QRect where
  x1 : Int
  y1 : Int
  x2 : Int
  y2 : Int
  deriving DecidableEq, Repr

/-- The constructor `QRect(x, y, width, height)`. -/
def QRect.of_xywh (x y w h : Int) : QRect := ⟨x, y, x + w - 1, y + h - 1⟩

/-- The constructor `QRect(topLeft, bottomRight)`. -/
def QRect.of_points (topLeft bottomRight : QPoint) : QRect :=
  ⟨topLeft.x, topLeft.y, bottomRight.x, bottomRight.y⟩

def QRect.left (r : QRect) : Int := r.x1

def QRect.top (r : QRect) : Int := r.y1

def QRect.right (r : QRect) : Int := r.x2

def QRect.bottom (r : QRect) : Int := r.y2

def QRect.x (r : QRect) : Int := r.x1

def QRect.y (r : QRect) : Int := r.y1

def QRect.width (r : QRect) : Int := r.x2 - r.x1 + 1

def QRect.height (r : QRect) : Int := r.y2 - r.y1 + 1

def QRect.size (r : QRect) : QSize := ⟨r.width, r.height⟩

def QRect.topLeft (r : QRect) : QPoint := ⟨r.x1, r.y1⟩

def QRect.bottomRight (r : QRect) : QPoint := ⟨r.x2, r.y2⟩

/-- The operator `QPoint - QPoint`. -/
def QPoint.sub (p q : QPoint) : QPoint := ⟨p.x - q.x, p.y - q.y⟩

/-- The operator `QPoint + QPoint`. -/
def QPoint.add (p q : QPoint) : QPoint := ⟨p.x + q.x, p.y + q.y⟩

/-- Modelled from the spec: the enum `position` of `win/types.h` is not part of the sources; the
contact point of a move or resize, one of 9 positions: `center` for a move, the 4 edges and the 4
corners for a resize. -/
inductive position where
  | center
  | left
  | top
  | right
  | bottom
  | top_left
  | top_right
  | bottom_left
  | bottom_right
  deriving DecidableEq, Repr

/-- Modelled from the spec: the enum `size_mode` of `win/types.h` is not part of the sources;
the fixed dimension modes are used for the single-edge drags. -/
inductive size_mode where
  | any
  | fixed_width
  | fixed_height
  | max
  deriving DecidableEq, Repr

/-- The move/resize state `control()->move_resize()` of a window. -/
structure move_resize_op where
  enabled : Bool
  contact : position
  initial_geometry : QRect
  geometry : QRect
  start_screen : Nat
  unrestricted : Bool
  offset : QPoint
  inverted_offset : QPoint
  button_down : Bool

/-- The lambda `calculateMoveResizeGeom` of `move_resize`: the new `move_resize().geometry` and
the new value of `sizeMode`; `none` where the code aborts. -/
def calculateMoveResizeGeom (mode : position) (topleft bottomright : QPoint) (orig : QRect)
    (sizeMode : size_mode) : Option (QRect × size_mode) :=
  match mode with
  | position.top_left => some (QRect.of_points topleft orig.bottomRight, sizeMode)
  | position.bottom_right => some (QRect.of_points orig.topLeft bottomright, sizeMode)
  | position.bottom_left =>
    some (QRect.of_points ⟨topleft.x, orig.y⟩ ⟨orig.right, bottomright.y⟩, sizeMode)
  | position.top_right =>
    some (QRect.of_points ⟨orig.x, topleft.y⟩ ⟨bottomright.x, orig.bottom⟩, sizeMode)
  | position.top =>
    some (QRect.of_points ⟨orig.left, topleft.y⟩ orig.bottomRight, size_mode.fixed_height)
  | position.bottom =>
    some (QRect.of_points orig.topLeft ⟨orig.right, bottomright.y⟩, size_mode.fixed_height)
  | position.left =>
    some (QRect.of_points ⟨topleft.x, orig.top⟩ orig.bottomRight, size_mode.fixed_width)
  | position.right =>
    some (QRect.of_points orig.topLeft ⟨bottomright.x, orig.bottom⟩, size_mode.fixed_width)
  | position.center => none

/-- The geometry the resize branch of `move_resize` computes first, before snapping and size
hints, for the pointer at the global position: `topleft` is the global position minus `offset`,
`bottomright` the global position plus `inverted_offset`, `orig` the initial geometry. -/
def resize_candidate (mov_res : move_resize_op) (globalPos : QPoint) :
    Option (QRect × size_mode) :=
  calculateMoveResizeGeom mov_res.contact (globalPos.sub mov_res.offset)
    (globalPos.add mov_res.inverted_offset) mov_res.initial_geometry size_mode.any

/-- Whether a contact touches the left edge. -/
def position.touches_left : position → Bool
  | position.left | position.top_left | position.bottom_left => true
  | _ => false

/-- Whether a contact touches the right edge. -/
def position.touches_right : position → Bool
  | position.right | position.top_right | position.bottom_right => true
  | _ => false

/-- Whether a contact touches the top edge. -/
def position.touches_top : position → Bool
  | position.top | position.top_left | position.top_right => true
  | _ => false

/-- Whether a contact touches the bottom edge. -/
def position.touches_bottom : position → Bool
  | position.bottom | position.bottom_left | position.bottom_right => true
  | _ => false

/-- A resize at the top left corner that started with the geometry `(0, 0, 100, 100)` and the
pointer at `(3, 4)` inside the window. -/
def top_left_drag : move_resize_op where
  enabled := true
  contact := position.top_left
  initial_geometry := QRect.of_xywh 0 0 100 100
  geometry := QRect.of_xywh 0 0 100 100
  start_screen := 0
  unrestricted := false
  offset := ⟨3, 4⟩
  inverted_offset := ⟨96, 95⟩
  button_down := true

/-! ### More of `QRect` and `QPoint` -/

/-- The default constructor `QRect()`: the null rectangle. -/
def QRect.null : QRect := ⟨0, 0, -1, -1⟩

def QRect.isNull (r : QRect) : Bool := r.x2 == r.x1 - 1 && r.y2 == r.y1 - 1

def QRect.isEmpty (r : QRect) : Bool := decide (r.x1 > r.x2) || decide (r.y1 > r.y2)

def QRect.isValid (r : QRect) : Bool := decide (r.x1 ≤ r.x2) && decide (r.y1 ≤ r.y2)

/-- The centre `QRect::center()`; the division of C++ truncates. -/
def QRect.center (r : QRect) : QPoint := ⟨(r.x1 + r.x2).tdiv 2, (r.y1 + r.y2).tdiv 2⟩

def QRect.moveLeft (r : QRect) (pos : Int) : QRect := { r with x2 := r.x2 + (pos - r.x1), x1 := pos }

def QRect.moveTop (r : QRect) (pos : Int) : QRect := { r with y2 := r.y2 + (pos - r.y1), y1 := pos }

def QRect.moveRight (r : QRect) (pos : Int) : QRect :=
  { r with x1 := r.x1 + (pos - r.x2), x2 := pos }

def QRect.moveBottom (r : QRect) (pos : Int) : QRect :=
  { r with y1 := r.y1 + (pos - r.y2), y2 := pos }

def QRect.setLeft (r : QRect) (pos : Int) : QRect := { r with x1 := pos }

def QRect.setTop (r : QRect) (pos : Int) : QRect := { r with y1 := pos }

def QRect.setX (r : QRect) (pos : Int) : QRect := { r with x1 := pos }

def QRect.setY (r : QRect) (pos : Int) : QRect := { r with y1 := pos }

def QRect.setWidth (r : QRect) (w : Int) : QRect := { r with x2 := r.x1 + w - 1 }

def QRect.setHeight (r : QRect) (h : Int) : QRect := { r with y2 := r.y1 + h - 1 }

def QRect.setSize (r : QRect) (s : QSize) : QRect :=
  { r with x2 := s.width + r.x1 - 1, y2 := s.height + r.y1 - 1 }

def QRect.translated (r : QRect) (p : QPoint) : QRect :=
  ⟨r.x1 + p.x, r.y1 + p.y, r.x2 + p.x, r.y2 + p.y⟩

def QRect.adjusted (r : QRect) (dx1 dy1 dx2 dy2 : Int) : QRect :=
  ⟨r.x1 + dx1, r.y1 + dy1, r.x2 + dx2, r.y2 + dy2⟩

/-- The function `QRect::contains(QPoint)`, which normalises the rectangle first. -/
def QRect.contains (r : QRect) (p : QPoint) : Bool :=
  let l := if r.x2 < r.x1 - 1 then r.x2 else r.x1
  let rr := if r.x2 < r.x1 - 1 then r.x1 else r.x2
  let t := if r.y2 < r.y1 - 1 then r.y2 else r.y1
  let b := if r.y2 < r.y1 - 1 then r.y1 else r.y2
  !(decide (p.x < l) || decide (p.x > rr)) && !(decide (p.y < t) || decide (p.y > b))

/-- The function `QRect::intersects`. -/
def QRect.intersects (a b : QRect) : Bool :=
  if a.isNull || b.isNull then false
  else
    let l1 := if a.x2 - a.x1 + 1 < 0 then a.x2 else a.x1
    let r1 := if a.x2 - a.x1 + 1 < 0 then a.x1 else a.x2
    let l2 := if b.x2 - b.x1 + 1 < 0 then b.x2 else b.x1
    let r2 := if b.x2 - b.x1 + 1 < 0 then b.x1 else b.x2
    if l1 > r2 || l2 > r1 then false
    else
      let t1 := if a.y2 - a.y1 + 1 < 0 then a.y2 else a.y1
      let b1 := if a.y2 - a.y1 + 1 < 0 then a.y1 else a.y2
      let t2 := if b.y2 - b.y1 + 1 < 0 then b.y2 else b.y1
      let b2 := if b.y2 - b.y1 + 1 < 0 then b.y1 else b.y2
      !(decide (t1 > b2) || decide (t2 > b1))

def QRect.setRight (r : QRect) (pos : Int) : QRect := { r with x2 := pos }

def QRect.setBottom (r : QRect) (pos : Int) : QRect := { r with y2 := pos }

def QRect.moveTopLeft (r : QRect) (p : QPoint) : QRect := (r.moveLeft p.x).moveTop p.y

/-- The function `QRect::moveCenter`; the division of C++ truncates. -/
def QRect.moveCenter (r : QRect) (p : QPoint) : QRect :=
  let w := r.x2 - r.x1
  let h := r.y2 - r.y1
  ⟨p.x - w.tdiv 2, p.y - h.tdiv 2, p.x - w.tdiv 2 + w, p.y - h.tdiv 2 + h⟩

/-- The operator `QRect & QRect`: the intersection, null when there is none. -/
def QRect.intersected (a b : QRect) : QRect :=
  if a.isNull || b.isNull then QRect.null
  else
    let l1 := if a.x2 - a.x1 + 1 < 0 then a.x2 else a.x1
    let r1 := if a.x2 - a.x1 + 1 < 0 then a.x1 else a.x2
    let l2 := if b.x2 - b.x1 + 1 < 0 then b.x2 else b.x1
    let r2 := if b.x2 - b.x1 + 1 < 0 then b.x1 else b.x2
    if l1 > r2 || l2 > r1 then QRect.null
    else
      let t1 := if a.y2 - a.y1 + 1 < 0 then a.y2 else a.y1
      let b1 := if a.y2 - a.y1 + 1 < 0 then a.y1 else a.y2
      let t2 := if b.y2 - b.y1 + 1 < 0 then b.y2 else b.y1
      let b2 := if b.y2 - b.y1 + 1 < 0 then b.y1 else b.y2
      if t1 > b2 || t2 > b1 then QRect.null
      else ⟨max l1 l2, max t1 t2, min r1 r2, min b1 b2⟩

/-- The function `QPoint::manhattanLength`. -/
def QPoint.manhattanLength (p : QPoint) : Int := |p.x| + |p.y|

/-- The function `check_offscreen_position` of `win/move.h`. -/
def check_offscreen_position (geom screenArea : QRect) : QRect :=
  let geom1 :=
    if geom.left > screenArea.right then
      geom.moveLeft (screenArea.right - screenArea.width.tdiv 4)
    else if geom.right < screenArea.left then
      geom.moveRight (screenArea.left + screenArea.width.tdiv 4)
    else geom
  if geom1.top > screenArea.bottom then
    geom1.moveTop (screenArea.bottom - screenArea.height.tdiv 4)
  else if geom1.bottom < screenArea.top then
    geom1.moveBottom (screenArea.top + screenArea.width.tdiv 4)
  else geom1

/-! ### Quick tiling -/

/-- Modelled from the spec: the flags enum `quicktiles` of `win/types.h` is not part of the
sources; the set of the screen edges a window is tiled to: `none` is the empty set, `maximize`
the set of all four, `horizontal` is left and right, `vertical` is top and bottom. -/
structure quicktiles where
  to_left : Bool
  to_right : Bool
  to_top : Bool
  to_bottom : Bool
  deriving DecidableEq, Repr

def quicktiles.none : quicktiles := ⟨false, false, false, false⟩

def quicktiles.left : quicktiles := ⟨true, false, false, false⟩

def quicktiles.right : quicktiles := ⟨false, true, false, false⟩

def quicktiles.top : quicktiles := ⟨false, false, true, false⟩

def quicktiles.bottom : quicktiles := ⟨false, false, false, true⟩

def quicktiles.horizontal : quicktiles := ⟨true, true, false, false⟩

def quicktiles.vertical : quicktiles := ⟨false, false, true, true⟩

def quicktiles.maximize : quicktiles := ⟨true, true, true, true⟩

/-- The operator `&` on the flags. -/
def quicktiles.and (a b : quicktiles) : quicktiles :=
  ⟨a.to_left && b.to_left, a.to_right && b.to_right, a.to_top && b.to_top,
    a.to_bottom && b.to_bottom⟩

/-- The operator `|` on the flags. -/
def quicktiles.or (a b : quicktiles) : quicktiles :=
  ⟨a.to_left || b.to_left, a.to_right || b.to_right, a.to_top || b.to_top,
    a.to_bottom || b.to_bottom⟩

/-- The operator `~` on the flags. -/
def quicktiles.not (a : quicktiles) : quicktiles :=
  ⟨!a.to_left, !a.to_right, !a.to_top, !a.to_bottom⟩

/-- Modelled from the spec: the flags enum `maximize_mode` of `win/types.h` is not part of the
sources; `restore` is neither axis, `full` is both. -/
structure maximize_mode where
  vertically : Bool
  horizontally : Bool
  deriving DecidableEq, Repr

def maximize_mode.restore : maximize_mode := ⟨false, false⟩

def maximize_mode.vertical : maximize_mode := ⟨true, false⟩

def maximize_mode.horizontal : maximize_mode := ⟨false, true⟩

def maximize_mode.full : maximize_mode := ⟨true, true⟩

/-- Modelled from the spec: the enum `clientAreaOption` is not part of the sources; the areas
`clientArea` is asked for. -/
inductive clientAreaOption where
  | PlacementArea
  | MovementArea
  | MaximizeArea
  | MaximizeFullArea
  | FullScreenArea
  | WorkArea
  | FullArea
  | ScreenArea
  deriving DecidableEq, Repr

/-- Modelled from the spec: the enum `StrutArea` is not part of the sources; the sides
`restrictedMoveArea` is asked for. -/
inductive StrutArea where
  | StrutAreaTop
  | StrutAreaRight
  | StrutAreaBottom
  | StrutAreaLeft
  deriving DecidableEq, Repr

/-- Modelled from the spec: the enum of the shade modes is not part of the sources; `ShadeNone`,
`ShadeNormal`, `ShadeHover` and `ShadeActivated`. -/
inductive shade where
  | none
  | normal
  | hover
  | activated
  deriving DecidableEq, Repr

/-- The window as `win/move.h` sees it: the state its getters return and its setters store. -/
structure Win where
  frameGeometry : QRect
  geometryRestore : QRect
  /-- Result of `control()->quicktiling()`. -/
  quicktiling : quicktiles
  /-- Result of `control()->electric()`. -/
  electric : quicktiles
  /-- Result of `control()->electric_maximizing()`. -/
  electric_maximizing : Bool
  maximizeMode : maximize_mode
  move_resize : move_resize_op
  screen : Nat
  desktop : Int
  isResizable : Bool
  isFullScreen : Bool
  isShade : Bool
  /-- Result of `is_desktop(win)`. -/
  desktop_type : Bool
  /-- Result of `is_dock(win)`. -/
  dock_type : Bool
  left_border : Int
  top_border : Int
  right_border : Int
  bottom_border : Int
  isWaitingForMoveResizeSync : Bool
  isMovable : Bool
  isMovableAcrossScreens : Bool
  isMaximizable : Bool
  shadeMode : shade
  /-- Result of `control()->have_resize_effect()`. -/
  have_resize_effect : Bool
  titlebarPosition : position
  /-- Whether `move_resize().delay_timer` is set. -/
  delay_timer : Bool

/-- What `win/move.h` calls that is not part of the sources: the cursor, the screens, the
workspace and the virtual methods of the window. -/
structure move_env where
  /-- Result of `Cursor::pos()`. -/
  cursor_pos : QPoint
  /-- The geometries `screens()->geometry(i)`. -/
  screens : List QRect
  electric_border_maximize_geometry : Win → QPoint → Int → QRect
  changeMaximize : Win → Bool → Bool → Bool → Win
  /-- Result of `clientArea(option, win)`. -/
  clientArea_window : clientAreaOption → Win → QRect
  /-- Result of `clientArea(option, point, desktop)`. -/
  clientArea_point : clientAreaOption → QPoint → Int → QRect
  restrictedMoveArea : Int → StrutArea → List QRect
  previousRestrictedMoveArea : Int → StrutArea → List QRect
  /-- Result of `!workspace() || workspace()->initializing()`. -/
  initializing : Bool
  inUpdateClientArea : Bool
  oldDisplayWidth : Int
  oldDisplayHeight : Int
  previousScreenSizes : List QRect
  /-- Result of `screens()->intersecting(geometry)`. -/
  intersecting : QRect → Int
  adjusted_size : Win → QSize → size_mode → QSize
  /-- The screen `checkScreen()` finds for a frame geometry. -/
  screen_number : QRect → Nat
  sendClientToScreen : Win → Nat → Win
  /-- Result of `QApplication::startDragDistance()`. -/
  startDragDistance : Int
  /-- Whether `QApplication::activePopupWidget()` is set. -/
  activePopupWidget : Bool
  /-- Result of the virtual method `doStartMoveResize`. -/
  doStartMoveResize : Win → Bool
  /-- The virtual method `doResizeSync`. -/
  doResizeSync : Win → Win
  /-- What `control()->update_have_resize_effect()` finds: whether an effect shows the resize. -/
  provides_resize_effect : Bool
  /-- Result of `workspace()->adjustClientSize(win, geometry, mode)`. -/
  adjustClientSize : Win → QRect → position → QRect
  /-- Result of `workspace()->adjustClientPosition(win, pos, unrestricted)`. -/
  adjustClientPosition : Win → QPoint → Bool → QPoint
  /-- The rectangles of the region `clientArea(FullArea, -1, 0)` minus
  `restrictedMoveArea(desktop)`. -/
  availableArea : Int → List QRect
  /-- The rectangles of the region `restrictedMoveArea(desktop)`. -/
  strut : Int → List QRect
  /-- Result of `screens()->number(point)`. -/
  screen_of_point : QPoint → Int
  /-- Result of `clientArea(option, screen, desktop)`. -/
  clientArea_screen : clientAreaOption → Int → Int → QRect
  electricBorderTiling : Bool
  electricBorderMaximize : Bool
  /-- The option `electricBorderCornerRatio` as the fraction of these two numbers, the second
  one positive. -/
  electricBorderCornerRatio : Int × Int
  /-- Result of `rules()->checkMaximize(mode)`. -/
  checkMaximize : Win → maximize_mode → maximize_mode
  /-- The point `QPoint(double(offset.x()) / double(old.width()) * double(restore.width()),
  double(offset.y()) / double(old.height()) * double(restore.height()))` for an offset, the old
  geometry and the restore geometry. -/
  scaled_offset : QPoint → QRect → QRect → QPoint

/-- Modelled from the spec: the virtual method `setFrameGeometry` is not part of the sources; it
applies the geometry as the frame geometry of the window. -/
def Win.setFrameGeometry (win : Win) (geometry : QRect) : Win :=
  { win with frameGeometry := geometry }

/-- The function `set_maximize` of `win/move.h`. -/
def set_maximize (env : move_env) (win : Win) (vertically horizontally : Bool) : Win :=
  env.changeMaximize win
    (if win.maximizeMode.horizontally then !horizontally else horizontally)
    (if win.maximizeMode.vertically then !vertically else vertically)
    false

/-- The constant `INT_MAX`. -/
def INT_MAX : Int := 2147483647

/-- The bounds the struts leave on the four sides: the local variables `topMax`, `rightMax`,
`bottomMax` and `leftMax` of `check_workspace_position`. -/
structure strut_maxima where
  topMax : Int
  rightMax : Int
  bottomMax : Int
  leftMax : Int
  deriving DecidableEq, Repr

/-- The four loops of `check_workspace_position` over the struts of the four sides: the max strut
point for each side where the window is, starting from the sides of the screen area. The
function runs them twice, for the old bounds and for the new ones. -/
def strut_bounds (moveArea : StrutArea → List QRect) (geomTall geomWide screenArea : QRect) :
    strut_maxima :=
  { topMax :=
      (moveArea StrutArea.StrutAreaTop).foldl
        (fun m r =>
          let rect := r.intersected geomTall
          if !rect.isEmpty then max m (rect.y + rect.height) else m)
        screenArea.y
    rightMax :=
      (moveArea StrutArea.StrutAreaRight).foldl
        (fun m r =>
          let rect := r.intersected geomWide
          if !rect.isEmpty then min m rect.x else m)
        (screenArea.x + screenArea.width)
    bottomMax :=
      (moveArea StrutArea.StrutAreaBottom).foldl
        (fun m r =>
          let rect := r.intersected geomTall
          if !rect.isEmpty then min m rect.y else m)
        (screenArea.y + screenArea.height)
    leftMax :=
      (moveArea StrutArea.StrutAreaLeft).foldl
        (fun m r =>
          let rect := r.intersected geomWide
          if !rect.isEmpty then max m (rect.x + rect.width) else m)
        screenArea.x }

/-- The screen area as it was for the old geometry, the local variable `oldScreenArea` of
`check_workspace_position`. -/
def old_screen_area (env : move_env) (oldGeometry : QRect) (oldDesktop : Int) : QRect :=
  if env.inUpdateClientArea then
    -- we need to find the screen area as it was before the change
    (env.previousScreenSizes.foldl
      (fun (acc : Int × QRect) r =>
        let d :=
          if r.contains oldGeometry.center then 0
          else (r.center.sub oldGeometry.center).manhattanLength
        if d < acc.1 then (d, r) else acc)
      (INT_MAX, QRect.of_xywh 0 0 env.oldDisplayWidth env.oldDisplayHeight)).2
  else env.clientArea_point clientAreaOption.ScreenArea oldGeometry.center oldDesktop

/-- The part of `check_workspace_position` from the comment "Check if the sides were inside or
touching but are no longer" to the call of `check_offscreen_position`: the new geometry moved
back to the edges the old geometry was inside of or touching. -/
def keep_touching_edges (env : move_env) (win : Win) (oldGeometry oldClientGeometry : QRect)
    (old : strut_maxima) (newGeom : QRect) (new : strut_maxima) (screenArea : QRect) : QRect :=
  let newClientGeom :=
    newGeom.adjusted win.left_border win.top_border (-win.right_border) (-win.bottom_border)
  let saveLeft := decide (oldGeometry.x ≥ old.leftMax) && decide (newGeom.x < new.leftMax)
  let keepPadLeft : Bool × Int :=
    if oldGeometry.x = old.leftMax then (decide (newGeom.x ≠ new.leftMax), 0)
    else if oldClientGeometry.x = old.leftMax ∧ newClientGeom.x ≠ new.leftMax then
      (true, win.left_border)
    else (false, 0)
  let saveTop := decide (oldGeometry.y ≥ old.topMax) && decide (newGeom.y < new.topMax)
  let keepPadTop : Bool × Int :=
    if oldGeometry.y = old.topMax then (decide (newGeom.y ≠ new.topMax), 0)
    else if oldClientGeometry.y = old.topMax ∧ newClientGeom.y ≠ new.topMax then
      (true, win.left_border)
    else (false, 0)
  let saveRight :=
    decide (oldGeometry.right ≤ old.rightMax - 1) && decide (newGeom.right > new.rightMax - 1)
  let keepPadRight : Bool × Int :=
    if oldGeometry.right = old.rightMax - 1 then (decide (newGeom.right ≠ new.rightMax - 1), 0)
    else if oldClientGeometry.right = old.rightMax - 1
        ∧ newClientGeom.right ≠ new.rightMax - 1 then
      (true, win.right_border)
    else (false, 0)
  let saveBottom :=
    decide (oldGeometry.bottom ≤ old.bottomMax - 1)
      && decide (newGeom.bottom > new.bottomMax - 1)
  let keepPadBottom : Bool × Int :=
    if oldGeometry.bottom = old.bottomMax - 1 then
      (decide (newGeom.bottom ≠ new.bottomMax - 1), 0)
    else if oldClientGeometry.bottom = old.bottomMax - 1
        ∧ newClientGeom.bottom ≠ new.bottomMax - 1 then
      (true, win.bottom_border)
    else (false, 0)
  -- if randomly touches opposing edges, do not favor either
  let opposingH := keepPadLeft.1 && keepPadRight.1
  let keepLeft := if opposingH then false else keepPadLeft.1
  let keepRight := if opposingH then false else keepPadRight.1
  let padding0 := if opposingH then 0 else keepPadLeft.2
  let padding2 := if opposingH then 0 else keepPadRight.2
  let opposingV := keepPadTop.1 && keepPadBottom.1
  let keepTop := if opposingV then false else keepPadTop.1
  let keepBottom := if opposingV then false else keepPadBottom.1
  let padding1 := if opposingV then 0 else keepPadTop.2
  let padding3 := if opposingV then 0 else keepPadBottom.2
  let newGeom :=
    if saveLeft || keepLeft then newGeom.moveLeft (max new.leftMax screenArea.x - padding0)
    else newGeom
  let newGeom :=
    if padding0 ≠ 0 ∧ env.intersecting newGeom > 1 then newGeom.moveLeft (newGeom.left + padding0)
    else newGeom
  let newGeom :=
    if saveTop || keepTop then newGeom.moveTop (max new.topMax screenArea.y - padding1)
    else newGeom
  let newGeom :=
    if padding1 ≠ 0 ∧ env.intersecting newGeom > 1 then newGeom.moveTop (newGeom.top + padding1)
    else newGeom
  let newGeom :=
    if saveRight || keepRight then
      newGeom.moveRight (min (new.rightMax - 1) screenArea.right + padding2)
    else newGeom
  let newGeom :=
    if padding2 ≠ 0 ∧ env.intersecting newGeom > 1 then
      newGeom.moveRight (newGeom.right - padding2)
    else newGeom
  let newGeom :=
    if oldGeometry.x ≥ old.leftMax ∧ newGeom.x < new.leftMax then
      newGeom.setLeft (max new.leftMax screenArea.x)
    else if oldClientGeometry.x ≥ old.leftMax ∧ newGeom.x + win.left_border < new.leftMax then
      let g := newGeom.setLeft (max new.leftMax screenArea.x - win.left_border)
      if env.intersecting g > 1 then g.setLeft (g.left + win.left_border) else g
    else newGeom
  let newGeom :=
    if saveBottom || keepBottom then
      newGeom.moveBottom (min (new.bottomMax - 1) screenArea.bottom + padding3)
    else newGeom
  let newGeom :=
    if padding3 ≠ 0 ∧ env.intersecting newGeom > 1 then
      newGeom.moveBottom (newGeom.bottom - padding3)
    else newGeom
  if oldGeometry.y ≥ old.topMax ∧ newGeom.y < new.topMax then
    newGeom.setTop (max new.topMax screenArea.y)
  else if oldClientGeometry.y ≥ old.topMax ∧ newGeom.y + win.top_border < new.topMax then
    let g := newGeom.setTop (max new.topMax screenArea.y - win.top_border)
    if env.intersecting g > 1 then g.setTop (g.top + win.top_border) else g
  else newGeom

/-- The last part of `check_workspace_position`, for a window that is not special: the
geometry it computes from the restore geometry, the screen areas and the struts, given the old
geometry, desktop and client geometry after their defaults are filled in. -/
def workspace_position_geometry (env : move_env) (win : Win) (oldGeometry : QRect)
    (oldDesktop : Int) (oldClientGeometry : QRect) : QRect :=
  let oldScreenArea := old_screen_area env oldGeometry oldDesktop
  let oldGeomTall :=
    QRect.of_xywh oldGeometry.x oldScreenArea.y oldGeometry.width oldScreenArea.height
  let oldGeomWide :=
    QRect.of_xywh oldScreenArea.x oldGeometry.y oldScreenArea.width oldGeometry.height
  let screenArea :=
    env.clientArea_point clientAreaOption.ScreenArea win.geometryRestore.center win.desktop
  let newGeom := win.geometryRestore
  let newGeomTall := QRect.of_xywh newGeom.x screenArea.y newGeom.width screenArea.height
  let newGeomWide := QRect.of_xywh screenArea.x newGeom.y screenArea.width newGeom.height
  -- These 4 compute old bounds
  let moveAreaFunc :=
    if env.inUpdateClientArea then env.previousRestrictedMoveArea else env.restrictedMoveArea
  let old := strut_bounds (moveAreaFunc oldDesktop) oldGeomTall oldGeomWide oldScreenArea
  -- These 4 compute new bounds
  let new := strut_bounds (env.restrictedMoveArea win.desktop) newGeomTall newGeomWide screenArea
  let newGeom :=
    keep_touching_edges env win oldGeometry oldClientGeometry old newGeom new screenArea
  let newGeom := check_offscreen_position newGeom screenArea
  -- Obey size hints
  if !win.isShade then newGeom.setSize (env.adjusted_size win newGeom.size size_mode.any)
  else newGeom

/-- The function `check_workspace_position` of `win/move.h`; the defaults of the call
`check_workspace_position(win)` are `QRect.null`, `-2` and `QRect.null`. -/
def check_workspace_position (env : move_env) (win : Win) (oldGeometry : QRect) (oldDesktop : Int)
    (oldClientGeometry : QRect) : Win :=
  let oldGeometry := if !oldGeometry.isValid then win.frameGeometry else oldGeometry
  let oldDesktop := if oldDesktop == -2 then win.desktop else oldDesktop
  let oldClientGeometry :=
    if !oldClientGeometry.isValid then
      oldGeometry.adjusted win.left_border win.top_border (-win.right_border) (-win.bottom_border)
    else oldClientGeometry
  if win.desktop_type then win
  else if win.isFullScreen then
    let area := env.clientArea_window clientAreaOption.FullScreenArea win
    if win.frameGeometry != area then win.setFrameGeometry area else win
  else if win.dock_type then win
  else if win.maximizeMode != maximize_mode.restore then
    let win1 := env.changeMaximize win false false true
    let screenArea := env.clientArea_window clientAreaOption.ScreenArea win1
    win1.setFrameGeometry (check_offscreen_position win1.frameGeometry screenArea)
  else if win.quicktiling != quicktiles.none then
    win.setFrameGeometry
      (env.electric_border_maximize_geometry win win.frameGeometry.center win.desktop)
  else if env.initializing then win
  else
    let newGeom :=
      workspace_position_geometry env win oldGeometry oldDesktop oldClientGeometry
    if newGeom != win.frameGeometry then win.setFrameGeometry newGeom else win

/-- Modelled from the spec: the function `set_electric` is not part of the sources; it stores
the mode the window would be tiled to, which `control()->electric()` returns. -/
def set_electric (win : Win) (mode : quicktiles) : Win := { win with electric := mode }

/-- Modelled from the spec: the function `set_electric_maximizing` is not part of the sources; it
stores the flag `control()->electric_maximizing()` returns. -/
def set_electric_maximizing (win : Win) (maximizing : Bool) : Win :=
  { win with electric_maximizing := maximizing }

/-- One pass of the body of the loop of `set_quicktile_mode` that looks for the next screen:
the value of `nextScreen` after the pass for screen `i`. A screen index out of range reads as
the null rectangle; the window's screen is in range. -/
def next_screen_step (screens : List QRect) (mode : quicktiles) (curScreen nextScreen i : Nat) :
    Nat :=
  if i == curScreen then nextScreen
  else if decide ((screens.getD i QRect.null).bottom ≤ (screens.getD curScreen QRect.null).top)
      || decide ((screens.getD i QRect.null).top ≥ (screens.getD curScreen QRect.null).bottom) then
    -- Not in horizontal line
    nextScreen
  else
    let x := (screens.getD i QRect.null).center.x
    if mode.and quicktiles.horizontal = quicktiles.left then
      if decide (x ≥ (screens.getD curScreen QRect.null).center.x)
          || (curScreen != nextScreen
            && decide (x ≤ (screens.getD nextScreen QRect.null).center.x)) then
        nextScreen
      else i
    else if mode.and quicktiles.horizontal = quicktiles.right then
      if decide (x ≤ (screens.getD curScreen QRect.null).center.x)
          || (curScreen != nextScreen
            && decide (x ≥ (screens.getD nextScreen QRect.null).center.x)) then
        nextScreen
      else i
    else i

/-- The loop of `set_quicktile_mode` that looks for the next screen, over all the screens. -/
def next_screen (screens : List QRect) (mode : quicktiles) (curScreen : Nat) : Nat :=
  (List.range screens.length).foldl (next_screen_step screens mode curScreen) curScreen

/-- The branch `if (mode != quicktiles::none)` of `set_quicktile_mode` for a window that is not
maximized: the window and the mode after it. -/
def set_quicktile_mode_tile (env : move_env) (win : Win) (mode : quicktiles) (keyboard : Bool) :
    Win × quicktiles :=
  let whichScreen := if keyboard then win.frameGeometry.center else env.cursor_pos
  let r : Win × quicktiles × QPoint :=
    if win.quicktiling = mode then
      let curScreen := win.screen
      let nextScreen := next_screen env.screens mode curScreen
      let r1 : Win × quicktiles × QPoint :=
        if nextScreen = curScreen then (win, quicktiles.none, whichScreen)
        else
          (win.setFrameGeometry
              (win.geometryRestore.translated
                ((env.screens.getD nextScreen QRect.null).topLeft.sub
                  (env.screens.getD curScreen QRect.null).topLeft)),
            (if mode.and quicktiles.horizontal ≠ quicktiles.none then
              (mode.not.and quicktiles.horizontal).or (mode.and quicktiles.vertical)
            else mode),
            (env.screens.getD nextScreen QRect.null).center)
      (set_electric r1.1 r1.2.1, r1.2.1, r1.2.2)
    else if win.quicktiling = quicktiles.none then
      ({ win with geometryRestore := win.frameGeometry }, mode, whichScreen)
    else (win, mode, whichScreen)
  let win1 := r.1
  let mode1 := r.2.1
  let win2 :=
    if mode1 ≠ quicktiles.none then
      let w : Win := { win1 with quicktiling := quicktiles.none }
      w.setFrameGeometry (env.electric_border_maximize_geometry w r.2.2 w.desktop)
    else win1
  ({ win2 with quicktiling := mode1 }, mode1)

/-- The function `set_quicktile_mode` of `win/move.h`. -/
def set_quicktile_mode (env : move_env) (win : Win) (mode : quicktiles) (keyboard : Bool) : Win :=
  if !win.isResizable then win
  else if mode = quicktiles.maximize then
    let win0 : Win := { win with quicktiling := quicktiles.none }
    if win0.maximizeMode = maximize_mode.full then set_maximize env win0 false false
    else
      let prev_geom_restore := win0.geometryRestore
      let win1 := set_maximize env { win0 with quicktiling := quicktiles.maximize } true true
      let clientArea := env.clientArea_window clientAreaOption.MaximizeArea win1
      let win2 :=
        if win1.frameGeometry.top ≠ clientArea.top then
          win1.setFrameGeometry (win1.frameGeometry.moveTop clientArea.top)
        else win1
      { win2 with geometryRestore := prev_geom_restore }
  else
    -- sanitize the mode, ie. simplify "invalid" combinations
    let mode1 :=
      if mode.and quicktiles.horizontal = quicktiles.horizontal then
        mode.and quicktiles.horizontal.not
      else mode
    let mode2 :=
      if mode1.and quicktiles.vertical = quicktiles.vertical then
        mode1.and quicktiles.vertical.not
      else mode1
    let win0 : Win := { win with electric := mode2 }
    if win0.maximizeMode ≠ maximize_mode.restore then
      if mode2 ≠ quicktiles.none then
        let win1 := set_maximize env { win0 with quicktiling := quicktiles.none } false false
        let win2 :=
          win1.setFrameGeometry
            (env.electric_border_maximize_geometry win1
              (if keyboard then win1.frameGeometry.center else env.cursor_pos) win1.desktop)
        { win2 with quicktiling := mode2 }
      else set_maximize env { win0 with quicktiling := mode2 } false false
    else
      let r := if mode2 ≠ quicktiles.none then set_quicktile_mode_tile env win0 mode2 keyboard
        else (win0, mode2)
      if r.2 = quicktiles.none then
        let win1 : Win := { r.1 with quicktiling := quicktiles.none }
        let win2 : Win :=
          if !win1.geometryRestore.isValid then { win1 with geometryRestore := win1.frameGeometry }
          else win1
        check_workspace_position env (win2.setFrameGeometry win2.geometryRestore) QRect.null (-2)
          QRect.null
      else r.1

/-- The selection of the specification, which the loop `next_screen` is compared with: the
screens a window tiled on screen `cur` may hop to are the screens in range other than `cur`
whose bottom row lies strictly below the top row of `cur` and whose top row lies strictly above
the bottom row of `cur`, with the centre strictly to the left of the centre of `cur` (strictly
to the right when `to_left` is false). -/
def hop_candidate (screens : List QRect) (to_left : Bool) (cur i : Nat) : Bool :=
  decide (i < screens.length) && (i != cur)
    && decide ((screens.getD i QRect.null).bottom > (screens.getD cur QRect.null).top)
    && decide ((screens.getD i QRect.null).top < (screens.getD cur QRect.null).bottom)
    && (if to_left then
        decide ((screens.getD i QRect.null).center.x < (screens.getD cur QRect.null).center.x)
      else
        decide ((screens.getD i QRect.null).center.x > (screens.getD cur QRect.null).center.x))

/-- A move-resize state of a window that is not being moved or resized. -/
def idle_move_resize : move_resize_op :=
  { enabled := false
    contact := position.center
    initial_geometry := QRect.null
    geometry := QRect.null
    start_screen := 0
    unrestricted := false
    offset := ⟨0, 0⟩
    inverted_offset := ⟨0, 0⟩
    button_down := false }

/-- A resizable window of 100 by 100 pixels at (200, 200), neither maximized nor tiled. -/
def example_window : Win :=
  { frameGeometry := QRect.of_xywh 200 200 100 100
    geometryRestore := QRect.null
    quicktiling := quicktiles.none
    electric := quicktiles.none
    electric_maximizing := false
    maximizeMode := maximize_mode.restore
    move_resize := idle_move_resize
    screen := 0
    desktop := 1
    isResizable := true
    isFullScreen := false
    isShade := false
    desktop_type := false
    dock_type := false
    left_border := 0
    top_border := 0
    right_border := 0
    bottom_border := 0
    isWaitingForMoveResizeSync := false
    isMovable := true
    isMovableAcrossScreens := true
    isMaximizable := true
    shadeMode := shade.none
    have_resize_effect := false
    titlebarPosition := position.top
    delay_timer := false }

/-- A setup with one screen of 1000 by 1000 pixels and no struts: a window is tiled to the half
of the screen on the side it asks for, and the size hints accept every size. -/
def single_screen : move_env :=
  { cursor_pos := ⟨500, 500⟩
    screens := [QRect.of_xywh 0 0 1000 1000]
    electric_border_maximize_geometry := fun win _ _ =>
      if win.electric.to_left then QRect.of_xywh 0 0 500 1000
      else if win.electric.to_right then QRect.of_xywh 500 0 500 1000
      else QRect.of_xywh 0 0 1000 1000
    changeMaximize := fun win _ _ _ => win
    clientArea_window := fun _ _ => QRect.of_xywh 0 0 1000 1000
    clientArea_point := fun _ _ _ => QRect.of_xywh 0 0 1000 1000
    restrictedMoveArea := fun _ _ => []
    previousRestrictedMoveArea := fun _ _ => []
    initializing := false
    inUpdateClientArea := false
    oldDisplayWidth := 1000
    oldDisplayHeight := 1000
    previousScreenSizes := [QRect.of_xywh 0 0 1000 1000]
    intersecting := fun _ => 1
    adjusted_size := fun _ size _ => size
    screen_number := fun _ => 0
    sendClientToScreen := fun win _ => win
    startDragDistance := 10
    activePopupWidget := false
    doStartMoveResize := fun _ => true
    doResizeSync := fun win => win
    provides_resize_effect := false
    adjustClientSize := fun _ geometry _ => geometry
    adjustClientPosition := fun _ pos _ => pos
    availableArea := fun _ => [QRect.of_xywh 0 0 1000 1000]
    strut := fun _ => []
    screen_of_point := fun _ => 0
    clientArea_screen := fun _ _ _ => QRect.of_xywh 0 0 1000 1000
    electricBorderTiling := true
    electricBorderMaximize := true
    electricBorderCornerRatio := (1, 4)
    checkMaximize := fun _ mode => mode
    scaled_offset := fun offset _ _ => offset }

/-- A setup with two screens of 100 by 100 pixels: the second one lies to the lower left of the
first one, and its top row is the bottom row of the first one. -/
def corner_screens : move_env :=
  { single_screen with
    screens := [QRect.of_xywh 0 0 100 100, QRect.of_xywh (-100) 99 100 100] }

/-- A setup with three screens of 100 by 100 pixels in a row; the middle one is screen 0, the
left one is screen 1 and the right one is screen 2. -/
def row_screens : move_env :=
  { single_screen with
    screens := [QRect.of_xywh 0 0 100 100, QRect.of_xywh (-100) 0 100 100,
      QRect.of_xywh 100 0 100 100] }

/-- The example window tiled to the left of screen 0, where it was at (10, 10) before. -/
def tiled_left : Win :=
  { example_window with
    frameGeometry := QRect.of_xywh 0 0 50 100
    geometryRestore := QRect.of_xywh 10 10 50 50
    quicktiling := quicktiles.left
    electric := quicktiles.left }

/-- The example window placed to the right of the screen, outside of it. -/
def offscreen_window : Win :=
  { example_window with frameGeometry := QRect.of_xywh 2000 0 100 100 }

/-! ### Moving and resizing a window -/

/-- The function `sign` of `win/move.h`. -/
def sign (v : Int) : Int := (if v > 0 then 1 else 0) - (if v < 0 then 1 else 0)

/-- The function `is_resize` of `win/move.h`. -/
def is_resize (win : Win) : Bool :=
  win.move_resize.enabled && win.move_resize.contact != position.center

/-- Modelled from the spec: the function `is_move` is not part of the sources; a window is being
moved when its move-resize state is enabled with the contact `center`. -/
def is_move (win : Win) : Bool :=
  win.move_resize.enabled && win.move_resize.contact == position.center

/-- Assignment to `move_resize().geometry`. -/
def Win.set_move_resize_geometry (win : Win) (geometry : QRect) : Win :=
  { win with move_resize := { win.move_resize with geometry := geometry } }

/-- Assignment to `move_resize().unrestricted`. -/
def Win.set_unrestricted (win : Win) (unrestricted : Bool) : Win :=
  { win with move_resize := { win.move_resize with unrestricted := unrestricted } }

/-- Modelled from the spec: the virtual method `setShade` is not part of the sources; it stores
the shade mode. -/
def Win.setShade (win : Win) (mode : shade) : Win := { win with shadeMode := mode }

/-- Modelled from the spec: the virtual method `leaveMoveResize` is not part of the sources; the
move-resize state is cleared on drag end, so that `is_resize` has to be stored across it. -/
def Win.leaveMoveResize (win : Win) : Win :=
  { win with move_resize := { win.move_resize with enabled := false } }

/-- Modelled from the spec: the virtual method `checkScreen` is not part of the sources; it
updates `screen()` to the screen of the frame geometry. -/
def Win.checkScreen (env : move_env) (win : Win) : Win :=
  { win with screen := env.screen_number win.frameGeometry }

/-- Modelled from the spec: the function `delayed_electric_maximize` is not part of the sources;
it starts the timer after which the preview of the tile is shown, and the window is unchanged
until the timer fires. -/
def delayed_electric_maximize (win : Win) : Win := win

/-- The function `check_unrestricted_move_resize` of `win/move.h`. -/
def check_unrestricted_move_resize (env : move_env) (win : Win) : Win :=
  if win.move_resize.unrestricted then win
  else
    let moveResizeGeom := win.move_resize.geometry
    let desktopArea :=
      env.clientArea_point clientAreaOption.WorkArea moveResizeGeom.center win.desktop
    -- how much must remain visible when moved away in that direction
    let left_marge := min (100 + win.right_border) moveResizeGeom.width
    let right_marge := min (100 + win.left_border) moveResizeGeom.width
    let titlebar_marge := win.move_resize.initial_geometry.height
    let top_marge := win.bottom_border
    let bottom_marge := win.top_border
    let has_unrestricted_resize : Bool :=
      if !is_resize win then false
      else if moveResizeGeom.bottom < desktopArea.top + top_marge then true
      else if moveResizeGeom.top > desktopArea.bottom - bottom_marge then true
      else if moveResizeGeom.right < desktopArea.left + left_marge then true
      else if moveResizeGeom.left > desktopArea.right - right_marge then true
      else if !win.move_resize.unrestricted && decide (moveResizeGeom.top < desktopArea.top) then
        true
      else false
    let win1 := if has_unrestricted_resize then win.set_unrestricted true else win
    let has_unrestricted_move : Bool :=
      if !is_move win1 then false
      else if moveResizeGeom.bottom < desktopArea.top + titlebar_marge - 1 then true
      else if moveResizeGeom.top > desktopArea.bottom - bottom_marge + 1 then true
      else if moveResizeGeom.right < desktopArea.left + left_marge then true
      else if moveResizeGeom.left > desktopArea.right - right_marge then true
      else false
    if has_unrestricted_move then win1.set_unrestricted true else win1

/-- The function `stop_delayed_move_resize` of `win/move.h`. -/
def stop_delayed_move_resize (win : Win) : Win := { win with delay_timer := false }

/-- The function `update_initial_move_resize_geometry` of `win/move.h`. -/
def update_initial_move_resize_geometry (win : Win) : Win :=
  { win with
    move_resize :=
      { win.move_resize with
        initial_geometry := win.frameGeometry
        geometry := win.frameGeometry
        start_screen := win.screen } }

/-- The part of `start_move_resize` between its checks and the snapshot of the geometry: the
move-resize state is enabled, a resize leaves full maximization and quick tiling, and the resize
effect is looked up. -/
def start_move_resize_enable (env : move_env) (win0 : Win) : Win :=
  let win1 : Win := { win0 with move_resize := { win0.move_resize with enabled := true } }
  let mode := win1.move_resize.contact
  -- Means "isResize()" but moveResizeMode = true is set below
  let win2 :=
    if mode != position.center && win1.maximizeMode == maximize_mode.full then
      set_maximize env { win1 with geometryRestore := win1.frameGeometry } false false
    else win1
  let win3 : Win :=
    if win2.quicktiling != quicktiles.none && mode != position.center then
      -- Exit quick tile mode when the user attempts to resize a tiled window
      { win2 with quicktiling := quicktiles.none, geometryRestore := win2.frameGeometry }
    else win2
  { win3 with have_resize_effect := env.provides_resize_effect }

/-- The function `start_move_resize` of `win/move.h`: what it returns and the window after
it. -/
def start_move_resize (env : move_env) (win : Win) : Bool × Win :=
  let win0 := stop_delayed_move_resize win
  if env.activePopupWidget then (false, win0)
  else if win0.isFullScreen
      && (decide (env.screens.length < 2) || !win0.isMovableAcrossScreens) then
    (false, win0)
  else if !env.doStartMoveResize win0 then (false, win0)
  else
    (true,
      check_unrestricted_move_resize env
        (update_initial_move_resize_geometry (start_move_resize_enable env win0)))

/-- The function `perform_move_resize` of `win/move.h`. -/
def perform_move_resize (win : Win) : Win :=
  if is_move win || (is_resize win && !win.have_resize_effect) then
    win.setFrameGeometry win.move_resize.geometry
  else win

/-- The lambda `titleBarRect` of `move_resize`: the rectangle of the titlebar relative to the
window, `transposed` and `requiredPixels`. -/
def titleBarRect (win : Win) : QRect × Bool × Int :=
  let moveResizeGeom := win.move_resize.geometry
  let r := moveResizeGeom.moveTopLeft ⟨0, 0⟩
  let rt : QRect × Bool :=
    match win.titlebarPosition with
    | position.left => (r.setWidth win.left_border, true)
    | position.bottom => (r.setTop (r.bottom - win.bottom_border), false)
    | position.right => (r.setLeft (r.right - win.right_border), true)
    | _ => (r.setHeight win.top_border, false)
  -- When doing a restricted move we must always keep 100px of the titlebar visible
  (rt.1, rt.2,
    min (100 * (if rt.2 then rt.1.width else rt.1.height))
      (moveResizeGeom.width * moveResizeGeom.height))

/-- The pixels of the titlebar the loops of `move_resize` count as visible: those in the
rectangles of the available area that cover the titlebar in its full size. -/
def visible_pixels (availableArea : List QRect) (titleRect : QRect) (transposed : Bool) : Int :=
  availableArea.foldl
    (fun acc rect =>
      let r := rect.intersected titleRect
      if (transposed && r.width == titleRect.width)
          || (!transposed && r.height == titleRect.height) then
        acc + r.width * r.height
      else acc)
    0

/-- The pixels of the titlebar in the available area, `realVisiblePixels` of `move_resize`. -/
def real_visible_pixels (availableArea : List QRect) (titleRect : QRect) : Int :=
  availableArea.foldl
    (fun acc rect =>
      let r := rect.intersected titleRect
      acc + r.width * r.height)
    0

/-- The lambda `fixChangedState` of `move_resize`: the new values of `major`, `counter`, `ad1`
and `ad2`. -/
def fixChangedState (titleFailed major ad1 ad2 : Bool) : Bool × Bool × Bool × Bool :=
  let major1 := if titleFailed then false else major
  (major1, false, if major1 then false else ad1, if major1 then false else ad2)

/-- The switch over `titlebarPosition()` in the loop of the restricted resize, which applies
`fixChangedState` with the edge of the title as `major`: the new values of `topChanged`,
`leftChanged`, `btmChanged` and `rightChanged`. -/
def changed_edges (titlebarPosition : position)
    (titleFailed topChanged leftChanged btmChanged rightChanged : Bool) :
    Bool × Bool × Bool × Bool :=
  match titlebarPosition with
  | position.left =>
    let f := fixChangedState titleFailed leftChanged topChanged btmChanged
    (f.2.2.1, f.1, f.2.2.2, f.2.1)
  | position.bottom =>
    let f := fixChangedState titleFailed btmChanged leftChanged rightChanged
    (f.2.1, f.2.2.1, f.1, f.2.2.2)
  | position.right =>
    let f := fixChangedState titleFailed rightChanged topChanged btmChanged
    (f.2.2.1, f.2.1, f.2.2.2, f.1)
  | _ =>
    let f := fixChangedState titleFailed topChanged leftChanged rightChanged
    (f.1, f.2.2.1, f.2.1, f.2.2.2)

/-- The loop of the restricted resize in `move_resize`: `move_resize().geometry` when the loop
is left, `none` when the fuel runs out before. The state of the loop is the geometry,
`lastVisiblePixels`, `lastTry` and `titleFailed`. -/
def resize_strut_loop (availableArea : List QRect) (bTitleRect : QRect) (transposed : Bool)
    (requiredPixels : Int) (titlebarPosition : position) (previousMoveResizeGeom : QRect) :
    Nat → QRect → Int → QRect → Bool → Option QRect
  | 0, _, _, _, _ => none
  | fuel + 1, geometry, lastVisiblePixels, lastTry, titleFailed =>
    let titleRect := bTitleRect.translated geometry.topLeft
    let visiblePixels := visible_pixels availableArea titleRect transposed
    let realVisiblePixels := real_visible_pixels availableArea titleRect
    if visiblePixels ≥ requiredPixels then some geometry
    else if realVisiblePixels ≤ lastVisiblePixels ∧ titleFailed = true
        ∧ realVisiblePixels < lastVisiblePixels then
      some geometry
    else
      let geometry1 :=
        if realVisiblePixels ≤ lastVisiblePixels ∧ titleFailed = false then lastTry else geometry
      let titleFailed1 := if realVisiblePixels ≤ lastVisiblePixels then true else titleFailed
      let moveResizeGeom := geometry1
      let leftChanged := previousMoveResizeGeom.left != moveResizeGeom.left
      let rightChanged := previousMoveResizeGeom.right != moveResizeGeom.right
      let topChanged := previousMoveResizeGeom.top != moveResizeGeom.top
      let btmChanged := previousMoveResizeGeom.bottom != moveResizeGeom.bottom
      -- the new values of topChanged, leftChanged, btmChanged and rightChanged
      let changed :=
        changed_edges titlebarPosition titleFailed1 topChanged leftChanged btmChanged
          rightChanged
      if changed.1 then
        resize_strut_loop availableArea bTitleRect transposed requiredPixels titlebarPosition
          previousMoveResizeGeom fuel
          (moveResizeGeom.setTop
            (moveResizeGeom.y + sign (previousMoveResizeGeom.y - moveResizeGeom.y)))
          realVisiblePixels geometry1 titleFailed1
      else if changed.2.1 then
        resize_strut_loop availableArea bTitleRect transposed requiredPixels titlebarPosition
          previousMoveResizeGeom fuel
          (moveResizeGeom.setLeft
            (moveResizeGeom.x + sign (previousMoveResizeGeom.x - moveResizeGeom.x)))
          realVisiblePixels geometry1 titleFailed1
      else if changed.2.2.1 then
        resize_strut_loop availableArea bTitleRect transposed requiredPixels titlebarPosition
          previousMoveResizeGeom fuel
          (moveResizeGeom.setBottom
            (moveResizeGeom.bottom
              + sign (previousMoveResizeGeom.bottom - moveResizeGeom.bottom)))
          realVisiblePixels geometry1 titleFailed1
      else if changed.2.2.2 then
        resize_strut_loop availableArea bTitleRect transposed requiredPixels titlebarPosition
          previousMoveResizeGeom fuel
          (moveResizeGeom.setRight
            (moveResizeGeom.right + sign (previousMoveResizeGeom.right - moveResizeGeom.right)))
          realVisiblePixels geometry1 titleFailed1
      else
        -- no position changed - that's certainly not good
        some geometry1

/-- The loop of the restricted move in `move_resize`: `move_resize().geometry` when the loop is
left, `none` when the fuel runs out before. -/
def move_strut_loop (availableArea strut : List QRect) (numScreens : Nat) (bTitleRect : QRect)
    (transposed : Bool) (requiredPixels : Int) (previousMoveResizeGeom : QRect) :
    Nat → QRect → Option QRect
  | 0, _ => none
  | fuel + 1, moveResizeGeom =>
    let titleRect := bTitleRect.translated moveResizeGeom.topLeft
    let visiblePixels := visible_pixels availableArea titleRect transposed
    if visiblePixels ≥ requiredPixels then some moveResizeGeom
    else
      let newTitleTop : Int :=
        if numScreens > 1 then
          match strut.find? (fun r =>
            r.top == 0 && decide (r.width > r.height) && r.intersects moveResizeGeom
              && decide (moveResizeGeom.top < r.bottom)) with
          | some r => r.bottom + 1
          | none => -1
        else -1
      if newTitleTop > -1 then
        -- invalid position, possibly on screen change
        some (moveResizeGeom.moveTop newTitleTop)
      else
        let dx := sign (previousMoveResizeGeom.x - moveResizeGeom.x)
        let dy := sign (previousMoveResizeGeom.y - moveResizeGeom.y)
        let favor_horizontally := visiblePixels ≠ 0 ∧ dx ≠ 0
        let dy1 := if favor_horizontally then 0 else dy
        let dx1 := if favor_horizontally then dx else if dy ≠ 0 then 0 else dx
        -- Move it back
        let moved := moveResizeGeom.translated ⟨dx1, dy1⟩
        if moved = previousMoveResizeGeom then some moved
        else
          move_strut_loop availableArea strut numScreens bTitleRect transposed requiredPixels
            previousMoveResizeGeom fuel moved

/-- The first part of the resize branch of `move_resize`, up to the end of the restricted
resize: the window with the `move_resize().geometry` that enters the size-hint pass, and
`sizeMode`; `none` when the code aborts or the fuel of the loop runs out. -/
def move_resize_restricted (env : move_env) (fuel : Nat) (win : Win)
    (topleft bottomright : QPoint) (previousMoveResizeGeom : QRect) : Option (Win × size_mode) :=
  let mode := win.move_resize.contact
  -- first resize (without checking constrains), then snap, then check bounds, then check
  -- constrains
  match calculateMoveResizeGeom mode topleft bottomright win.move_resize.initial_geometry
      size_mode.any with
  | none => none
  | some (geometry1, sizeMode) =>
    let win1 := win.set_move_resize_geometry geometry1
    -- adjust new size to snap to other windows/borders
    let win2 := win1.set_move_resize_geometry (env.adjustClientSize win1 geometry1 mode)
    let restricted : Option QRect :=
      if !win2.move_resize.unrestricted then
        let t := titleBarRect win2
        resize_strut_loop (env.availableArea win2.desktop) t.1 t.2.1 t.2.2 win2.titlebarPosition
          previousMoveResizeGeom fuel win2.move_resize.geometry (-1) win2.move_resize.geometry
          false
      else some win2.move_resize.geometry
    restricted.map fun geometry3 => (win2.set_move_resize_geometry geometry3, sizeMode)

/-- The size-hint pass of the resize branch of `move_resize`, from the call of `adjusted_size`
to the second call of `calculateMoveResizeGeom`: the final `move_resize().geometry` for the
geometry that enters the pass; `none` when the code aborts. -/
def size_hint_pass (env : move_env) (win : Win) (mode : position) (geometry : QRect)
    (sizeMode : size_mode) : Option QRect :=
  -- Always obey size hints, even when in "unrestricted" mode
  let size := env.adjusted_size win geometry.size sizeMode
  -- the new topleft and bottomright corners (after checking size constrains)
  let topleft : QPoint := ⟨geometry.right - size.width + 1, geometry.bottom - size.height + 1⟩
  let bottomright : QPoint := ⟨geometry.left + size.width - 1, geometry.top + size.height - 1⟩
  let orig :=
    if sizeMode = size_mode.fixed_height then geometry.setRight bottomright.x
    else if sizeMode = size_mode.fixed_width then geometry.setBottom bottomright.y
    else geometry
  (calculateMoveResizeGeom mode topleft bottomright orig sizeMode).map Prod.fst

/-- The resize branch of `move_resize`: the window with the new `move_resize().geometry` and
the flag `update`; `none` when the code aborts or the fuel of the loop runs out. -/
def move_resize_resize (env : move_env) (fuel : Nat) (win : Win) (topleft bottomright : QPoint)
    (previousMoveResizeGeom : QRect) : Option (Win × Bool) :=
  match move_resize_restricted env fuel win topleft bottomright previousMoveResizeGeom with
  | none => none
  | some (win3, sizeMode) =>
    match size_hint_pass env win3 win.move_resize.contact win3.move_resize.geometry
        sizeMode with
    | none => none
    | some geometry4 =>
      some (win3.set_move_resize_geometry geometry4,
        geometry4.size != previousMoveResizeGeom.size)

/-- The move branch of `move_resize`: the window with the new `move_resize().geometry` and the
flag `update`; `none` when the fuel of the loop runs out. -/
def move_resize_move (env : move_env) (fuel : Nat) (win : Win) (globalPos topleft : QPoint)
    (previousMoveResizeGeom : QRect) : Option (Win × Bool) :=
  let moved : Option Win :=
    if !win.isMovable then
      -- Special moving of maximized windows on Xinerama screens
      let screen := env.screen_of_point globalPos
      if win.isFullScreen then
        some (win.set_move_resize_geometry
          (env.clientArea_screen clientAreaOption.FullScreenArea screen 0))
      else
        let moveResizeGeom := env.clientArea_screen clientAreaOption.MaximizeArea screen 0
        let adjSize := env.adjusted_size win moveResizeGeom.size size_mode.max
        some (win.set_move_resize_geometry
          (if adjSize != moveResizeGeom.size then
            (moveResizeGeom.setSize adjSize).moveCenter moveResizeGeom.center
          else moveResizeGeom))
    else
      -- first move, then snap, then check bounds
      let moveResizeGeom1 := win.move_resize.geometry.moveTopLeft topleft
      let moveResizeGeom2 :=
        moveResizeGeom1.moveTopLeft
          (env.adjustClientPosition win moveResizeGeom1.topLeft win.move_resize.unrestricted)
      let win1 := win.set_move_resize_geometry moveResizeGeom2
      if !win1.move_resize.unrestricted then
        let t := titleBarRect win1
        (move_strut_loop (env.availableArea win1.desktop) (env.strut win1.desktop)
          env.screens.length t.1 t.2.1 t.2.2 previousMoveResizeGeom fuel moveResizeGeom2).map
          win1.set_move_resize_geometry
      else some win1
  moved.map fun w => (w, w.move_resize.geometry.topLeft != previousMoveResizeGeom.topLeft)

/-- The function `move_resize(win, x, y, x_root, y_root)` of `win/move.h`; `none` when the code
aborts or the fuel of a loop runs out. -/
def move_resize (env : move_env) (fuel : Nat) (win : Win) (x y x_root y_root : Int) :
    Option Win :=
  if win.isWaitingForMoveResizeSync then
    -- We're still waiting for the client or the timeout.
    some win
  else
    let mode := (win).move_resize.contact
    if (mode == position.center && !win.isMovableAcrossScreens)
        || (mode != position.center && (win.isShade || !win.isResizable)) then
      some win
    else
      -- whether the function goes on, and the window
      let started : Bool × Win :=
        if !(win).move_resize.enabled then
          let p := (QPoint.mk x y).sub (win).move_resize.offset
          if p.manhattanLength ≥ env.startDragDistance then
            let s := start_move_resize env win
            if !s.1 then
              (false, { s.2 with move_resize := { s.2.move_resize with button_down := false } })
            else (true, s.2)
          else (false, win)
        else (true, win)
      if !started.1 then some started.2
      else
        let win1 := started.2
        -- ShadeHover or ShadeActive, ShadeNormal was already avoided above
        let win2 :=
          if mode != position.center && win1.shadeMode != shade.none then
            win1.setShade shade.none
          else win1
        let globalPos : QPoint := ⟨x_root, y_root⟩
        let topleft := globalPos.sub win2.move_resize.offset
        let bottomright := globalPos.add win2.move_resize.inverted_offset
        let previousMoveResizeGeom := win2.move_resize.geometry
        let branch : Option (Win × Bool) :=
          if is_resize win2 then
            move_resize_resize env fuel win2 topleft bottomright previousMoveResizeGeom
          else if is_move win2 then
            move_resize_move env fuel win2 globalPos topleft previousMoveResizeGeom
          else none
        match branch with
        | none => none
        | some (win3, update) =>
          if !update then some win3
          else if is_resize win3 && !win3.have_resize_effect then some (env.doResizeSync win3)
          else some (perform_move_resize win3)

/-- The function `check_quicktile_maximization_zones` of `win/move.h`. The comparison with the
corner ratio is done on the fraction. -/
def check_quicktile_maximization_zones (env : move_env) (win : Win) (xroot yroot : Int) : Win :=
  let found : quicktiles × Bool :=
    match (List.range env.screens.length).find?
        (fun i => (env.screens.getD i QRect.null).contains ⟨xroot, yroot⟩) with
    | none => (quicktiles.none, false)
    | some i =>
      let in_screen := fun (pt : QPoint) =>
        (List.range env.screens.length).any
          (fun j => j != i && (env.screens.getD j QRect.null).contains pt)
      let area :=
        env.clientArea_point clientAreaOption.MaximizeArea ⟨xroot, yroot⟩ win.desktop
      let side : quicktiles × Bool :=
        if env.electricBorderTiling then
          if xroot ≤ area.x + 20 then
            (quicktiles.none.or quicktiles.left, in_screen ⟨area.x - 1, yroot⟩)
          else if xroot ≥ area.x + area.width - 20 then
            (quicktiles.none.or quicktiles.right, in_screen ⟨area.right + 1, yroot⟩)
          else (quicktiles.none, false)
        else (quicktiles.none, false)
      if side.1 ≠ quicktiles.none then
        if yroot * env.electricBorderCornerRatio.2
            ≤ area.y * env.electricBorderCornerRatio.2
              + area.height * env.electricBorderCornerRatio.1 then
          (side.1.or quicktiles.top, side.2)
        else if yroot * env.electricBorderCornerRatio.2
            ≥ (area.y + area.height) * env.electricBorderCornerRatio.2
              - area.height * env.electricBorderCornerRatio.1 then
          (side.1.or quicktiles.bottom, side.2)
        else side
      else if env.electricBorderMaximize && decide (yroot ≤ area.y + 5)
          && win.isMaximizable then
        (quicktiles.maximize, in_screen ⟨xroot, area.y - 1⟩)
      else side
  if found.1 ≠ win.electric then
    let win1 := set_electric win found.1
    if found.2 then delayed_electric_maximize win1
    else set_electric_maximizing win1 (found.1 != quicktiles.none)
  else win

/-- The function `move_resize(win, local, global)` of `win/move.h`, which `update_move_resize`
calls for every motion of the pointer; `none` when the code aborts or the fuel of a loop runs
out. -/
def move_resize_point (env : move_env) (fuel : Nat) (win : Win) (loc global : QPoint) :
    Option Win :=
  let old_geo := win.frameGeometry
  match move_resize env fuel win loc.x loc.y global.x global.y with
  | none => none
  | some win1 =>
    if !win1.isFullScreen && is_move win1 then
      if win1.quicktiling != quicktiles.none && old_geo != win1.frameGeometry then
        let win2 := set_quicktile_mode env win1 quicktiles.none false
        let geom_restore := win2.geometryRestore
        let win3 : Win :=
          { win2 with
            move_resize :=
              { win2.move_resize with
                offset := env.scaled_offset win2.move_resize.offset old_geo geom_restore } }
        let win4 :=
          if env.checkMaximize win3 maximize_mode.restore = maximize_mode.restore then
            win3.set_move_resize_geometry geom_restore
          else win3
        -- Fix position.
        move_resize env fuel win4 loc.x loc.y global.x global.y
      else if win1.quicktiling == quicktiles.none && win1.isResizable then
        some (check_quicktile_maximization_zones env win1 global.x global.y)
      else some win1
    else some win1

/-- The first step of `finish_move_resize`, up to the call of `checkScreen`: the move-resize
mode is left, a resize that changed a partially maximized dimension drops the maximization, and
the initial geometry (on cancel) or the final one becomes the frame geometry. -/
def finish_move_resize_geometry (env : move_env) (win : Win) (cancel : Bool) : Win :=
  -- Store across leaveMoveResize
  let wasResize := is_resize win
  let win1 := win.leaveMoveResize
  if cancel then win1.setFrameGeometry win1.move_resize.initial_geometry
  else
    let win1a :=
      if wasResize then
        let restoreH := win1.maximizeMode == maximize_mode.horizontal
          && win1.move_resize.geometry.width != win1.move_resize.initial_geometry.width
        let restoreV := win1.maximizeMode == maximize_mode.vertical
          && win1.move_resize.geometry.height != win1.move_resize.initial_geometry.height
        if restoreH || restoreV then env.changeMaximize win1 restoreH restoreV false else win1
      else win1
    win1a.setFrameGeometry win1a.move_resize.geometry

/-- The function `finish_move_resize` of `win/move.h`. -/
def finish_move_resize (env : move_env) (win : Win) (cancel : Bool) : Win :=
  let win2 := finish_move_resize_geometry env win cancel
  let win3 := win2.checkScreen env
  let win4 :=
    if win3.screen ≠ win3.move_resize.start_screen then
      -- Checks rule validity
      let win3a := env.sendClientToScreen win3 win3.screen
      if win3a.maximizeMode ≠ maximize_mode.restore then
        check_workspace_position env win3a QRect.null (-2) QRect.null
      else win3a
    else win3
  if win4.electric_maximizing then
    set_electric_maximizing (set_quicktile_mode env win4 win4.electric false) false
  else if !cancel then
    let geom_restore := win4.geometryRestore
    let geom_restore1 :=
      if !win4.maximizeMode.horizontally then
        (geom_restore.setX win4.frameGeometry.x).setWidth win4.frameGeometry.width
      else geom_restore
    let geom_restore2 :=
      if !win4.maximizeMode.vertically then
        (geom_restore1.setY win4.frameGeometry.y).setHeight win4.frameGeometry.height
      else geom_restore1
    { win4 with geometryRestore := geom_restore2 }
  else win4

/-- What `start_move_resize` captures of the move-resize state for its whole duration: that it
is enabled, the initial geometry and the start screen. -/
def move_resize_op.snapshot (m : move_resize_op) : Bool × QRect × Nat :=
  (m.enabled, m.initial_geometry, m.start_screen)

/-- The example window with the button pressed at (50, 10) of its frame, before the move
starts. -/
def grabbed_window : Win :=
  { example_window with
    move_resize :=
      { idle_move_resize with
        offset := ⟨50, 10⟩
        inverted_offset := ⟨49, 89⟩
        button_down := true } }

/-- The example window at the start of a move: `start_move_resize` has captured the geometry
of 100 by 100 pixels at (200, 200). -/
def drag_start : Win := (start_move_resize single_screen grabbed_window).2

/-- Two motions of the pointer during a move, to (350, 310) and to (450, 410); a motion is the
position relative to the window and the global position. -/
def drag_inside : List (QPoint × QPoint) := [(⟨50, 10⟩, ⟨350, 310⟩), (⟨50, 10⟩, ⟨450, 410⟩)]

/-- Two motions of the pointer during a move, to (350, 310) and to the left edge of the screen
at (5, 500). -/
def drag_to_edge : List (QPoint × QPoint) := [(⟨50, 10⟩, ⟨350, 310⟩), (⟨50, 10⟩, ⟨5, 500⟩)]

/-- The window after a list of motions of the pointer, each handled by `move_resize(win, local,
global)`. -/
def drag (env : move_env) (fuel : Nat) (win : Win) (motions : List (QPoint × QPoint)) :
    Option Win :=
  motions.foldlM (fun w motion => move_resize_point env fuel w motion.1 motion.2) win

/-- A space with two plain windows: window `1` on the current desktop `1`, window `2` on desktop
`2`, shown there and raised last. -/
def cache_example : space where
  win := fun p =>
    if p = 2 then
      { plain_window with
        get_top_lead := 2, on_desktop := fun d => d == 2, on_current_desktop := false,
        get_desktop := 2 }
    else { plain_window with get_top_lead := p }
  pre_stack := [1, 2]
  stack := [1, 2]
  most_recently_raised := 2
  current_desktop := 1
  isSeparateScreenFocus := false

/-- A window group on one output with the top lead `1`: the fullscreen window `1` in layer
`active`, the keep-below window `2` in layer `below` and the plain window `3` in layer
`normal`. -/
def below_group_example : Nat → window := fun p =>
  if p = 1 then
    { plain_window with fullscreen := true, get_layer := layer.active, get_top_lead := 1 }
  else if p = 2 then
    { plain_window with
      keep_below := true, leads := [1], get_layer := layer.below, get_top_lead := 1 }
  else { plain_window with leads := [1], get_top_lead := 1 }

/-- Windows on one output: the fullscreen window `1` in layer `active`, an on-screen display
`2` with the top lead `1` and a critical notification `3` of its own. -/
def osd_group_example : Nat → window := fun p =>
  if p = 1 then
    { plain_window with fullscreen := true, get_layer := layer.active, get_top_lead := 1 }
  else if p = 2 then
    { plain_window with
      windowType := NET.OnScreenDisplay, leads := [1], get_layer := layer.on_screen_display,
      get_top_lead := 1 }
  else
    { plain_window with
      windowType := NET.CriticalNotification, get_layer := layer.critical_notification,
      get_top_lead := 3 }

/-- The setup `single_screen` with a `changeMaximize` that flips the maximization of the axes
it is called with and leaves the rest of the window alone. -/
def flip_maximize : move_env :=
  { single_screen with
    changeMaximize := fun win horizontal vertical _ =>
      { win with
        maximizeMode :=
          ⟨win.maximizeMode.vertically != vertical, win.maximizeMode.horizontally != horizontal⟩ } }

/-- The window `tiled_left` with the button pressed on its right edge, before the resize
starts. -/
def grabbed_edge : Win :=
  { tiled_left with
    move_resize :=
      { idle_move_resize with
        contact := position.right
        offset := ⟨49, 50⟩
        inverted_offset := ⟨0, 49⟩
        button_down := true } }

/-- A fully maximized window at the end of a resize by its right edge that made it 100 pixels
narrower. -/
def resized_maximized : Win :=
  { example_window with
    frameGeometry := QRect.of_xywh 0 0 1000 1000
    maximizeMode := maximize_mode.full
    move_resize :=
      { idle_move_resize with
        enabled := true
        contact := position.right
        initial_geometry := QRect.of_xywh 0 0 1000 1000
        geometry := QRect.of_xywh 0 0 900 1000 } }

/-- A horizontally maximized window at the end of a resize by its right edge that made it 100
pixels narrower. -/
def resized_horizontal : Win :=
  { resized_maximized with maximizeMode := maximize_mode.horizontal }

/-- The sum of the distances between the four edges of two rectangles. -/
def edge_distance (a b : QRect) : Nat :=
  (a.left - b.left).natAbs + (a.top - b.top).natAbs + (a.right - b.right).natAbs
    + (a.bottom - b.bottom).natAbs

/-- The distance between the top-left corners of two rectangles, along x plus along y. -/
def corner_distance (a b : QRect) : Nat := (a.x - b.x).natAbs + (a.y - b.y).natAbs

/-- A work area of 200 by 200 pixels, the title bar of a window of 100 by 20 pixels, and a
window that was dragged three pixels to the left of the area from its previous position. -/
def strut_example_area : List QRect := [QRect.of_xywh 0 0 200 200]

def strut_example_title : QRect := QRect.of_xywh 0 0 100 20

def strut_example_previous : QRect := QRect.of_xywh (-80) 10 100 50

/-- A space with the x11 windows `1`, `2` and `3` of one group, window `2` with the lead `1`,
and the plain window `4` outside the group; window `3` was raised last. -/
def family_example : space where
  win := fun p =>
    if p = 4 then { plain_window with get_top_lead := 4 }
    else
      { plain_window with
        leads := if p = 1 then [] else [1], get_top_lead := 1, is_x11 := true, group := true,
        get_transient_family := [3, 1, 2] }
  pre_stack := [1, 4, 2, 3]
  stack := [1, 4, 2, 3]
  most_recently_raised := 3
  current_desktop := 1
  isSeparateScreenFocus := false

/-! ## Theorems -/

/-- When a rule of the first list matches, the rules appended after it are never reached. -/
theorem first_match_append_of_any (l1 l2 : List (Bool × layer))
    (h : l1.any (fun r => r.1) = true) : first_match (l1 ++ l2) = first_match l1 := by
  induction l1 with
  | nil => simp at h
  | cons r rest ih =>
    obtain ⟨c, lay⟩ := r
    cases c with
    | true => simp [first_match]
    | false =>
      simp only [List.any_cons, Bool.false_or] at h
      simp [first_match, ih h]

/-- C8: `belong_to_layer` equals the first-match reference table for every window and both
values of the showing-desktop flag; when a type rule matches, the result is that of the type rules
alone, whatever the keep-below, fullscreen and keep-above flags are; and keep-below gives `below`
whenever no earlier rule matches, whatever active fullscreen and keep-above say. -/
theorem belong_to_layer_eq_table (ws : workspace) (win : Nat) :
    belong_to_layer ws win = layer_table ws win
      ∧ (type_rule_matches ws win = true →
          belong_to_layer ws win = first_match (type_rules ws win))
      ∧ (type_rule_matches ws win = false →
          (ws.showingDesktop && (ws.win win).belongsToDesktop) = false →
          (ws.win win).keep_below = true → belong_to_layer ws win = layer.below) := by
  have htable : belong_to_layer ws win = layer_table ws win := by
    unfold belong_to_layer layer_table type_rules flag_rules
    simp only [first_match, List.cons_append, List.nil_append]
    cases (ws.win win).isInternal <;> cases (ws.win win).isLockScreen <;> simp
  refine ⟨htable, ?_, ?_⟩
  · intro h
    rw [htable]
    exact first_match_append_of_any _ _ h
  · intro h1 h2 h3
    unfold type_rule_matches type_rules at h1
    simp only [List.any_cons, List.any_nil] at h1
    simp only [Bool.or_false, Bool.or_eq_false_iff] at h1
    obtain ⟨⟨h1a, h1a2⟩, h1b, h1c, h1d, h1e, h1f, h1g⟩ := h1
    unfold belong_to_layer
    simp only [h1a, h1a2, h1b, h1c, h1d, h1e, h1f, h1g, h2, h3]
    simp

/-- Witness for C8: a keep-below, keep-above, active fullscreen window is in layer `below`. -/
theorem belong_to_layer_eq_table_witness :
    is_active_fullscreen flags_example 2 = true
      ∧ (flags_example.win 2).keep_above = true
      ∧ belong_to_layer flags_example 2 = layer.below :=
  ⟨by decide, by decide,
    (belong_to_layer_eq_table flags_example 2).2.2 (by decide) (by decide) (by decide)⟩

/-- C9, as the claim states it, fails: window `1` is fullscreen, the most recently activated
client `2` exists and is on the same screen as window `1`, and `is_active_fullscreen` is false;
once the client is moved to another screen, `is_active_fullscreen` is true. -/
theorem is_active_fullscreen_same_screen_counterexample :
    (fullscreen_example.win 1).fullscreen = true
      ∧ fullscreen_example.mostRecentlyActivatedClient ≠ nullptr
      ∧ (fullscreen_example.win fullscreen_example.mostRecentlyActivatedClient).screen
          = (fullscreen_example.win 1).screen
      ∧ is_active_fullscreen fullscreen_example 1 = false := by
  decide

/-- C9, amended: `is_active_fullscreen` is false for every window that is not fullscreen; for a
fullscreen window it is true exactly when a most recently activated client exists and that client
is the window itself, or is on a different screen than the window, or has the window among its
transient leads. -/
theorem is_active_fullscreen_iff (ws : workspace) (win : Nat) :
    ((ws.win win).fullscreen = false → is_active_fullscreen ws win = false)
      ∧ ((ws.win win).fullscreen = true →
          (is_active_fullscreen ws win = true ↔
            ws.mostRecentlyActivatedClient ≠ nullptr
              ∧ (ws.mostRecentlyActivatedClient = win
                ∨ (ws.win ws.mostRecentlyActivatedClient).screen ≠ (ws.win win).screen
                ∨ win ∈ (ws.win ws.mostRecentlyActivatedClient).leads))) := by
  constructor
  · intro h
    simp [is_active_fullscreen, h]
  · intro h
    simp [is_active_fullscreen, h, contains, or_assoc]

/-- Witness for C9 (amended): the fullscreen window `1` of the example is not active fullscreen,
its most recently activated client being another window on the same screen. -/
theorem is_active_fullscreen_iff_witness :
    ¬ (is_active_fullscreen fullscreen_example 1 = true) := by
  intro h
  have h2 := ((is_active_fullscreen_iff fullscreen_example 1).2 (by decide)).1 h
  revert h2
  decide

/-! ### `top_client_on_desktop` -/

/-- The loop returns null when no window of the list is accepted, and otherwise the first
accepted window of the list. -/
theorem top_client_loop_spec (heap : Nat → window) (desktop output : Nat) (l : List Nat) :
    (top_client_loop heap desktop output true l = nullptr
        ∧ ∀ c ∈ l, ¬ normal_client heap desktop output c)
      ∨ (normal_client heap desktop output (top_client_loop heap desktop output true l)
        ∧ ∃ above below_, l = above ++ top_client_loop heap desktop output true l :: below_
          ∧ ∀ c ∈ above, ¬ normal_client heap desktop output c) := by
  induction l with
  | nil => left; simp [top_client_loop]
  | cons c rest ih =>
    by_cases hc : normal_client heap desktop output c
    · right
      have hloop : top_client_loop heap desktop output true (c :: rest) = c := by
        obtain ⟨h1, h2, h3, h4, h5, h6⟩ := hc
        by_cases ho : output = nullptr
        · simp [top_client_loop, h1, h2, h3, h5, h6, ho]
        · simp [top_client_loop, h1, h2, h3, h4 ho, h5, h6]
      rw [hloop]
      exact ⟨hc, [], rest, rfl, by simp⟩
    · have hloop : top_client_loop heap desktop output true (c :: rest)
          = top_client_loop heap desktop output true rest := by
        simp only [top_client_loop]
        by_cases h1 : (c != nullptr && (heap c).on_desktop desktop && (heap c).isShown) = true
        · by_cases h2 : (output != nullptr && (heap c).central_output != output) = true
          · simp [h1, h2]
          · by_cases h3 : ((heap c).wants_tab_focus && !is_special_window (heap c)) = true
            · exfalso
              apply hc
              simp only [Bool.and_eq_true, bne_iff_ne, ne_eq, Bool.not_eq_true', not_and,
                Decidable.not_not] at h1 h2 h3
              exact ⟨h1.1.1, h1.1.2, h1.2, h2, h3.1, h3.2⟩
            · simp [h1, h2, h3]
        · simp [h1]
      rw [hloop]
      rcases ih with ⟨h0, hall⟩ | ⟨hn, above, below_, hl, hall⟩
      · left
        refine ⟨h0, ?_⟩
        intro x hx
        rcases List.mem_cons.1 hx with rfl | hx
        · exact hc
        · exact hall x hx
      · right
        refine ⟨hn, c :: above, below_, by rw [List.cons_append, ← hl], ?_⟩
        intro x hx
        rcases List.mem_cons.1 hx with rfl | hx
        · exact hc
        · exact hall x hx

/-- The function `top_client_on_desktop` with `only_normal` set returns null when the list
holds no accepted window, and otherwise an accepted window with no accepted window after it. -/
theorem top_client_on_desktop_cases (sp : space) (desktop output : Nat) (unconstrained : Bool) :
    (top_client_on_desktop sp desktop output unconstrained true = nullptr
        ∧ ∀ c ∈ (if unconstrained then sp.pre_stack else sp.stack),
            ¬ normal_client sp.win desktop output c)
      ∨ (normal_client sp.win desktop output
            (top_client_on_desktop sp desktop output unconstrained true)
        ∧ ∃ lower upper,
            (if unconstrained then sp.pre_stack else sp.stack)
                = lower ++ top_client_on_desktop sp desktop output unconstrained true :: upper
              ∧ ∀ c ∈ upper, ¬ normal_client sp.win desktop output c) := by
  unfold top_client_on_desktop
  simp only []
  generalize (if unconstrained then sp.pre_stack else sp.stack) = list
  have hspec := top_client_loop_spec sp.win desktop output list.reverse
  generalize top_client_loop sp.win desktop output true list.reverse = r at hspec ⊢
  rcases hspec with ⟨h0, hall⟩ | ⟨hn, above, below_, hl, hall⟩
  · exact Or.inl ⟨h0, fun c hc => hall c (List.mem_reverse.2 hc)⟩
  · have hlist : list = below_.reverse ++ r :: above.reverse := by
      have h2 := congrArg List.reverse hl
      rw [List.reverse_reverse] at h2
      rw [h2]
      simp
    exact Or.inr ⟨hn, below_.reverse, above.reverse, hlist,
      fun c hc => hall c (List.mem_reverse.1 hc)⟩

/-- C10: with `only_normal` set, `top_client_on_desktop` returns null or a window that is
non-null, on the desktop, shown, on the output when one is given, wants tab focus and is not
special; a returned window is the last such window of the list (`stack`, or `pre_stack` when
`unconstrained` is set), and null is returned exactly when the list holds no such window. -/
theorem top_client_on_desktop_spec (sp : space) (desktop output : Nat) (unconstrained : Bool) :
    (top_client_on_desktop sp desktop output unconstrained true = nullptr
        ∨ normal_client sp.win desktop output
            (top_client_on_desktop sp desktop output unconstrained true))
      ∧ (top_client_on_desktop sp desktop output unconstrained true = nullptr ↔
          ∀ c ∈ (if unconstrained then sp.pre_stack else sp.stack),
            ¬ normal_client sp.win desktop output c)
      ∧ (top_client_on_desktop sp desktop output unconstrained true ≠ nullptr →
          ∃ lower upper,
            (if unconstrained then sp.pre_stack else sp.stack)
                = lower ++ top_client_on_desktop sp desktop output unconstrained true :: upper
              ∧ ∀ c ∈ upper, ¬ normal_client sp.win desktop output c) := by
  rcases top_client_on_desktop_cases sp desktop output unconstrained with
    ⟨h0, hall⟩ | ⟨hn, lower, upper, hlist, hall⟩
  · refine ⟨Or.inl h0, ⟨fun _ => hall, fun _ => h0⟩, ?_⟩
    intro hne
    exact absurd h0 hne
  · have hne : top_client_on_desktop sp desktop output unconstrained true ≠ nullptr := hn.1
    refine ⟨Or.inr hn, ⟨fun h => absurd h hne, ?_⟩, fun _ => ⟨lower, upper, hlist, hall⟩⟩
    intro hnone
    exfalso
    apply hnone _ _ hn
    rw [hlist]
    simp

/-- Witness for C10: in the example the dock on top is skipped and window `2` is returned. -/
theorem top_client_on_desktop_spec_witness :
    top_client_on_desktop dock_example 1 0 false true = 2
      ∧ ∃ lower upper,
          (if false = true then dock_example.pre_stack else dock_example.stack)
              = lower ++ top_client_on_desktop dock_example 1 0 false true :: upper
            ∧ ∀ c ∈ upper, ¬ normal_client dock_example.win 1 0 c :=
  ⟨by decide, (top_client_on_desktop_spec dock_example 1 0 false).2.2 (by decide)⟩

/-! ### `sort_windows_by_layer` -/

theorem enum_index_injective (a b : layer) (h : enum_index a = enum_index b) : a = b := by
  cases a <;> cases b <;> simp [enum_index] at h <;> rfl

theorem mem_all_layers (k : layer) : k ∈ all_layers := by
  cases k <;> simp [all_layers]

theorem buckets_length (heap : Nat → window) (list : List Nat) :
    ∀ m : Nat × Nat → Option layer, (buckets heap m list).length = list.length := by
  induction list with
  | nil => intro m; rfl
  | cons w rest ih => intro m; simp [buckets, ih]

/-- The deque of a layer after the first loop: what it held before, followed by the windows the
loop put into this layer, in list order. -/
theorem foldl_sort_step_layers (heap : Nat → window) (list : List Nat) :
    ∀ (st : sort_state) (i : Nat),
      (list.foldl (sort_step heap) st).layers i
        = st.layers i
          ++ ((list.zip (buckets heap st.lead_layers list)).filter
              (fun e => enum_index e.2 = i)).map Prod.fst := by
  induction list with
  | nil => intro st i; simp [buckets]
  | cons w rest ih =>
    intro st i
    rw [List.foldl_cons, ih]
    simp only [sort_step, buckets, List.zip_cons_cons, List.filter_cons]
    by_cases hi : enum_index (bucket_layer heap st.lead_layers w) = i
    · subst hi
      simp
    · have hi2 : i ≠ enum_index (bucket_layer heap st.lead_layers w) := fun h => hi h.symm
      simp [hi, Function.update_noteq hi2]

theorem map_fst_group_by (ks : List layer) (tagged : List (Nat × layer)) :
    (group_by ks tagged).map Prod.fst
      = ks.flatMap (fun k => (tagged.filter (fun e => e.2 = k)).map Prod.fst) := by
  induction ks with
  | nil => rfl
  | cons k ks ih =>
    simp only [group_by, List.flatMap_cons, List.map_append] at ih ⊢
    rw [ih]

/-- The result of `sort_windows_by_layer` is the bucketed list grouped by layer, low to high. -/
theorem sort_windows_by_layer_eq_grouped (heap : Nat → window) (list : List Nat) :
    sort_windows_by_layer heap list = (grouped heap list).map Prod.fst := by
  unfold sort_windows_by_layer grouped
  rw [map_fst_group_by]
  have hrange : List.range layer_count = all_layers.map enum_index := by decide
  rw [hrange, List.flatMap_map]
  congr 1
  funext k
  rw [foldl_sort_step_layers]
  simp only [List.nil_append, bucketed]
  congr 2
  funext e
  by_cases h : e.2 = k
  · simp [h]
  · have h2 : enum_index e.2 ≠ enum_index k := fun hh => h (enum_index_injective _ _ hh)
    simp [h, h2]

theorem filter_group_by_of_not_mem (k : layer) (ks : List layer) (tagged : List (Nat × layer))
    (hk : k ∉ ks) : (group_by ks tagged).filter (fun e => e.2 = k) = [] := by
  induction ks with
  | nil => rfl
  | cons k2 ks ih =>
    have hne : k2 ≠ k := fun h => hk (by simp [h])
    have hk2 : k ∉ ks := fun h => hk (List.mem_cons_of_mem _ h)
    simp only [group_by, List.flatMap_cons, List.filter_append] at ih ⊢
    rw [ih hk2, List.append_nil, List.filter_filter, List.filter_eq_nil_iff]
    intro e _
    simp only [Bool.and_eq_true, decide_eq_true_eq, not_and]
    intro h1 h2
    exact hne (h2 ▸ h1.symm ▸ rfl)

/-- Grouping keeps the order inside each layer: the windows of a layer are in the grouped list
in the order they have in the tagged list. -/
theorem filter_group_by (k : layer) (ks : List layer) (tagged : List (Nat × layer))
    (hnd : ks.Nodup) (hk : k ∈ ks) :
    (group_by ks tagged).filter (fun e => e.2 = k) = tagged.filter (fun e => e.2 = k) := by
  induction ks with
  | nil => simp at hk
  | cons k2 ks ih =>
    have hnd2 := List.nodup_cons.1 hnd
    have hunfold : group_by (k2 :: ks) tagged
        = tagged.filter (fun e => e.2 = k2) ++ group_by ks tagged := by
      simp [group_by]
    rw [hunfold, List.filter_append]
    by_cases hkk : k = k2
    · subst hkk
      rw [filter_group_by_of_not_mem k ks tagged hnd2.1, List.append_nil, List.filter_filter]
      congr 1
      funext e
      simp
    · have hk3 : k ∈ ks := by
        rcases List.mem_cons.1 hk with h | h
        · exact absurd h hkk
        · exact h
      rw [ih hnd2.2 hk3]
      have hnil : (tagged.filter (fun e => e.2 = k2)).filter (fun e => e.2 = k) = [] := by
        rw [List.filter_filter, List.filter_eq_nil_iff]
        intro e _
        simp only [Bool.and_eq_true, decide_eq_true_eq, not_and]
        intro h1 h2
        exact hkk (h1.symm.trans h2)
      rw [hnil, List.nil_append]

/-- Grouping is a permutation of the windows whose layer is among the groups. -/
theorem group_by_perm (ks : List layer) (tagged : List (Nat × layer)) (hnd : ks.Nodup) :
    (group_by ks tagged).Perm (tagged.filter (fun e => decide (e.2 ∈ ks))) := by
  induction ks with
  | nil => simp [group_by]
  | cons k ks ih =>
    have hnd2 := List.nodup_cons.1 hnd
    have hunfold : group_by (k :: ks) tagged
        = tagged.filter (fun e => e.2 = k) ++ group_by ks tagged := by
      simp [group_by]
    rw [hunfold]
    have h1 : (tagged.filter (fun e => decide (e.2 ∈ k :: ks))).filter (fun e => e.2 = k)
        = tagged.filter (fun e => e.2 = k) := by
      rw [List.filter_filter]
      congr 1
      funext e
      by_cases h : e.2 = k <;> simp [h]
    have h2 : (tagged.filter (fun e => decide (e.2 ∈ k :: ks))).filter
          (fun e => !decide (e.2 = k))
        = tagged.filter (fun e => decide (e.2 ∈ ks)) := by
      rw [List.filter_filter]
      congr 1
      funext e
      by_cases h : e.2 = k
      · simp [h, hnd2.1]
      · simp [h]
    have h3 := List.filter_append_perm (fun e : Nat × layer => decide (e.2 = k))
      (tagged.filter (fun e => decide (e.2 ∈ k :: ks)))
    rw [h1, h2] at h3
    exact ((List.Perm.append_left _ (ih hnd2.2)).trans h3)

/-- Grouping by ascending layers gives a list that is ascending in the layer index. -/
theorem group_by_pairwise (ks : List layer) (tagged : List (Nat × layer))
    (hks : ks.Pairwise (fun a b => enum_index a ≤ enum_index b)) :
    (group_by ks tagged).Pairwise (fun a b => enum_index a.2 ≤ enum_index b.2) := by
  induction ks with
  | nil => simp [group_by]
  | cons k ks ih =>
    have hks2 := List.pairwise_cons.1 hks
    have hunfold : group_by (k :: ks) tagged
        = tagged.filter (fun e => e.2 = k) ++ group_by ks tagged := by
      simp [group_by]
    rw [hunfold, List.pairwise_append]
    refine ⟨?_, ih hks2.2, ?_⟩
    · apply List.Pairwise.imp_of_mem (R := fun _ _ => True)
      · intro a b ha hb _
        have ha2 := (List.mem_filter.1 ha).2
        have hb2 := (List.mem_filter.1 hb).2
        simp only [decide_eq_true_eq] at ha2 hb2
        rw [ha2, hb2]
      · exact List.pairwise_of_forall (fun _ _ => trivial)
    · intro a ha b hb
      have ha2 := (List.mem_filter.1 ha).2
      simp only [decide_eq_true_eq] at ha2
      simp only [group_by, List.mem_flatMap, List.mem_filter, decide_eq_true_eq] at hb
      obtain ⟨k2, hk2, _, hb2⟩ := hb
      rw [ha2, hb2]
      exact hks2.1 k2 hk2

/-- While no window of the list finds its key in the map, every window is bucketed in its own
layer. -/
theorem buckets_of_distinct_keys (heap : Nat → window) (list : List Nat) :
    ∀ m : Nat × Nat → Option layer,
      (∀ w ∈ list, m (lead_key heap w) = none) →
      list.Pairwise (fun a b => lead_key heap a ≠ lead_key heap b) →
      buckets heap m list = list.map (fun w => (heap w).get_layer) := by
  induction list with
  | nil => intro m _ _; rfl
  | cons w rest ih =>
    intro m hm hp
    have hw : m ((heap w).central_output, (heap w).get_top_lead) = none :=
      hm w (List.mem_cons_self _ _)
    have hb : bucket_layer heap m w = (heap w).get_layer := by
      simp [bucket_layer, hw]
    have hp2 := List.pairwise_cons.1 hp
    simp only [buckets, List.map_cons, hb]
    congr 1
    apply ih _ _ hp2.2
    intro x hx
    have hne : lead_key heap x ≠ ((heap w).central_output, (heap w).get_top_lead) :=
      fun h => hp2.1 x hx h.symm
    rw [Function.update_noteq hne]
    exact hm x (List.mem_cons_of_mem _ hx)

theorem orderedInsert_of_forall_le (heap : Nat → window) (a : Nat) (l : List Nat)
    (h : ∀ b ∈ l, layer_le heap a b) : l.orderedInsert (layer_le heap) a = a :: l := by
  cases l with
  | nil => rfl
  | cons b t => exact List.orderedInsert_of_le _ t (h b (List.mem_cons_self _ _))

theorem orderedInsert_append_of_forall_not_le (heap : Nat → window) (a : Nat)
    (l1 l2 : List Nat) (h : ∀ b ∈ l1, ¬ layer_le heap a b) :
    (l1 ++ l2).orderedInsert (layer_le heap) a = l1 ++ l2.orderedInsert (layer_le heap) a := by
  induction l1 with
  | nil => rfl
  | cons b t ih =>
    have hb := h b (List.mem_cons_self _ _)
    have ht : ∀ c ∈ t, ¬ layer_le heap a c := fun c hc => h c (List.mem_cons_of_mem _ hc)
    have hstep : (b :: (t ++ l2)).orderedInsert (layer_le heap) a
        = b :: (t ++ l2).orderedInsert (layer_le heap) a := by
      simp [List.orderedInsert, hb]
    rw [List.cons_append, hstep, ih ht, List.cons_append]

theorem group_windows_cons_of_not_mem (heap : Nat → window) (ks : List layer) (a : Nat)
    (l : List Nat) (h : (heap a).get_layer ∉ ks) :
    group_windows heap ks (a :: l) = group_windows heap ks l := by
  induction ks with
  | nil => rfl
  | cons k ks ih =>
    have hne : (heap a).get_layer ≠ k := fun hh => h (by simp [hh])
    have h2 : (heap a).get_layer ∉ ks := fun hh => h (List.mem_cons_of_mem _ hh)
    simp only [group_windows, List.flatMap_cons] at ih ⊢
    rw [ih h2]
    simp [List.filter_cons, hne]

theorem mem_group_windows (heap : Nat → window) (ks : List layer) (l : List Nat) (b : Nat)
    (h : b ∈ group_windows heap ks l) : (heap b).get_layer ∈ ks := by
  simp only [group_windows, List.mem_flatMap, List.mem_filter, decide_eq_true_eq] at h
  obtain ⟨k, hk, _, hb⟩ := h
  rw [hb]
  exact hk

/-- Inserting a window into the windows grouped by strictly ascending layers puts it in front of
the group of its own layer. -/
theorem orderedInsert_group_windows (heap : Nat → window) (a : Nat) (l : List Nat) :
    ∀ ks : List layer, ks.Pairwise (fun x y => enum_index x < enum_index y) →
      (heap a).get_layer ∈ ks →
      (group_windows heap ks l).orderedInsert (layer_le heap) a
        = group_windows heap ks (a :: l) := by
  intro ks
  induction ks with
  | nil => intro _ h; simp at h
  | cons k ks ih =>
    intro hks hmem
    have hks2 := List.pairwise_cons.1 hks
    have hunfold : ∀ l2, group_windows heap (k :: ks) l2
        = l2.filter (fun w => (heap w).get_layer = k) ++ group_windows heap ks l2 := by
      intro l2
      simp [group_windows]
    by_cases hk : (heap a).get_layer = k
    · have hnot : (heap a).get_layer ∉ ks := by
        intro hh
        have := hks2.1 _ hh
        rw [hk] at this
        exact lt_irrefl _ this
      rw [hunfold, hunfold, group_windows_cons_of_not_mem heap ks a l hnot]
      rw [orderedInsert_of_forall_le]
      · simp [List.filter_cons, hk]
      · intro b hb
        rcases List.mem_append.1 hb with hb | hb
        · have hb2 := (List.mem_filter.1 hb).2
          simp only [decide_eq_true_eq] at hb2
          simp [layer_le, hk, hb2]
        · have hb2 := hks2.1 _ (mem_group_windows heap ks l b hb)
          simp only [layer_le, hk]
          exact le_of_lt hb2
    · have hmem2 : (heap a).get_layer ∈ ks := by
        rcases List.mem_cons.1 hmem with h | h
        · exact absurd h hk
        · exact h
      rw [hunfold, hunfold, orderedInsert_append_of_forall_not_le, ih hks2.2 hmem2]
      · simp [List.filter_cons, hk]
      · intro b hb
        have hb2 := (List.mem_filter.1 hb).2
        simp only [decide_eq_true_eq] at hb2
        have hlt := hks2.1 _ hmem2
        simp only [layer_le, hb2, not_le]
        exact hlt

/-- Grouping the windows by their own layer, low to high, is the stable insertion sort by the
layer index. -/
theorem group_windows_eq_insertionSort (heap : Nat → window) (l : List Nat) :
    group_windows heap all_layers l = l.insertionSort (layer_le heap) := by
  induction l with
  | nil => simp [group_windows, all_layers]
  | cons a l ih =>
    rw [List.insertionSort, ← ih]
    exact (orderedInsert_group_windows heap a l all_layers (by decide) (mem_all_layers _)).symm

theorem zip_map_tag (f : Nat → layer) (l : List Nat) :
    l.zip (l.map f) = l.map (fun w => (w, f w)) := by
  induction l with
  | nil => rfl
  | cons a l ih => simp [ih]

theorem group_by_map_tag (heap : Nat → window) (ks : List layer) (l : List Nat) :
    (group_by ks (l.map (fun w => (w, (heap w).get_layer)))).map Prod.fst
      = group_windows heap ks l := by
  rw [map_fst_group_by]
  unfold group_windows
  congr 1
  funext k
  rw [List.filter_map, List.map_map]
  have hid : (Prod.fst ∘ fun w => (w, (heap w).get_layer)) = id := by
    funext w
    rfl
  rw [hid, List.map_id]
  rfl

theorem bucketed_map_fst (heap : Nat → window) (list : List Nat) :
    (bucketed heap list).map Prod.fst = list := by
  unfold bucketed
  rw [List.map_fst_zip]
  rw [buckets_length]

theorem grouped_perm (heap : Nat → window) (list : List Nat) :
    (grouped heap list).Perm (bucketed heap list) := by
  have h := group_by_perm all_layers (bucketed heap list) (by decide)
  have hall : (bucketed heap list).filter (fun e => decide (e.2 ∈ all_layers))
      = bucketed heap list := by
    rw [List.filter_eq_self]
    intro e _
    simp [mem_all_layers]
  rw [hall] at h
  exact h

/-- The result of `sort_windows_by_layer` is a permutation of the input. -/
theorem sort_windows_by_layer_perm (heap : Nat → window) (list : List Nat) :
    (sort_windows_by_layer heap list).Perm list := by
  rw [sort_windows_by_layer_eq_grouped]
  have h := (grouped_perm heap list).map Prod.fst
  rw [bucketed_map_fst] at h
  exact h

/-- C2: `sort_windows_by_layer` returns the bucketed windows grouped by layer; the result is a
permutation of the input, ascending in the layer each window was bucketed in, and the windows
bucketed in one layer keep their input order; when no two windows of the list share an
`(output, top lead)` key, each window is bucketed in its own `get_layer` and the result is the
stable (insertion) sort of the input by `get_layer`. -/
theorem sort_windows_by_layer_stable (heap : Nat → window) (list : List Nat) :
    sort_windows_by_layer heap list = (grouped heap list).map Prod.fst
      ∧ (bucketed heap list).map Prod.fst = list
      ∧ (grouped heap list).Perm (bucketed heap list)
      ∧ (sort_windows_by_layer heap list).Perm list
      ∧ (grouped heap list).Pairwise (fun a b => enum_index a.2 ≤ enum_index b.2)
      ∧ (∀ k : layer, (grouped heap list).filter (fun e => e.2 = k)
          = (bucketed heap list).filter (fun e => e.2 = k))
      ∧ (list.Pairwise (fun a b => lead_key heap a ≠ lead_key heap b) →
          bucketed heap list = list.map (fun w => (w, (heap w).get_layer))
            ∧ sort_windows_by_layer heap list = list.insertionSort (layer_le heap)) := by
  refine ⟨sort_windows_by_layer_eq_grouped heap list, bucketed_map_fst heap list,
    grouped_perm heap list, sort_windows_by_layer_perm heap list, ?_, ?_, ?_⟩
  · exact group_by_pairwise all_layers _ (by decide)
  · intro k
    exact filter_group_by k all_layers _ (by decide) (mem_all_layers k)
  · intro hkeys
    have hb : bucketed heap list = list.map (fun w => (w, (heap w).get_layer)) := by
      unfold bucketed
      rw [buckets_of_distinct_keys heap list _ (fun _ _ => rfl) hkeys]
      exact zip_map_tag _ list
    refine ⟨hb, ?_⟩
    rw [sort_windows_by_layer_eq_grouped, grouped, hb, group_by_map_tag,
      group_windows_eq_insertionSort]

/-- Witness for C2: the dock raised last below two plain windows is sorted above them. -/
theorem sort_windows_by_layer_stable_witness :
    sort_windows_by_layer dock_example.win [3, 1, 2] = [1, 2, 3] := by
  have h := (sort_windows_by_layer_stable dock_example.win [3, 1, 2]).2.2.2.2.2.2 (by decide)
  rw [h.2]
  decide

/-! ### Transients and the layer of their lead -/

theorem buckets_append (heap : Nat → window) (l1 l2 : List Nat) :
    ∀ m : Nat × Nat → Option layer,
      buckets heap m (l1 ++ l2)
        = buckets heap m l1 ++ buckets heap (lead_layers_after heap m l1) l2 := by
  induction l1 with
  | nil => intro m; rfl
  | cons w rest ih => intro m; simp [buckets, lead_layers_after, ih]

theorem lead_layers_after_of_ne (heap : Nat → window) (key : Nat × Nat) (l : List Nat) :
    ∀ m : Nat × Nat → Option layer,
      (∀ x ∈ l, lead_key heap x ≠ key) → lead_layers_after heap m l key = m key := by
  induction l with
  | nil => intro m _; rfl
  | cons w rest ih =>
    intro m h
    have hw : key ≠ ((heap w).central_output, (heap w).get_top_lead) :=
      fun hh => h w (List.mem_cons_self _ _) hh.symm
    rw [lead_layers_after, ih _ (fun x hx => h x (List.mem_cons_of_mem _ hx)),
      Function.update_noteq hw]

/-- A window is bucketed in its own layer, or lifted into `active` from a layer above `below`. -/
theorem bucket_layer_cases (heap : Nat → window) (m : Nat × Nat → Option layer) (w : Nat) :
    bucket_layer heap m w = (heap w).get_layer
      ∨ (bucket_layer heap m w = layer.active
        ∧ enum_index layer.below < enum_index (heap w).get_layer) := by
  unfold bucket_layer
  cases m ((heap w).central_output, (heap w).get_top_lead) with
  | none => left; rfl
  | some found =>
    by_cases h : found = layer.active ∧ enum_index (heap w).get_layer > enum_index layer.below
    · right
      simp only [h, and_self, if_true, true_and]
    · left
      simp only [h, if_false]

/-- C1, as the claim states it, fails: window `2` has the lead `1`, `belong_to_layer` puts the
lead in `normal` and the transient, which has keep-below set, in `below`, and
`sort_windows_by_layer` buckets them so and returns the transient below its lead. -/
theorem transient_layer_counterexample :
    (transient_example.win 2).leads = [1]
      ∧ belong_to_layer transient_example 1 = layer.normal
      ∧ belong_to_layer transient_example 2 = layer.below
      ∧ (transient_example.win 1).get_layer = belong_to_layer transient_example 1
      ∧ (transient_example.win 2).get_layer = belong_to_layer transient_example 2
      ∧ enum_index layer.below < enum_index layer.normal
      ∧ bucketed transient_example.win [1, 2] = [(1, layer.normal), (2, layer.below)]
      ∧ sort_windows_by_layer transient_example.win [1, 2] = [2, 1] := by
  decide

/-- C1, amended: in `sort_windows_by_layer` a window `w` is bucketed no lower than the nearest
window `p` before it in the list that has the same `(output, top lead)` key, whenever the own
layer `get_layer` of `w` is not lower than the own layer of `p`. -/
theorem bucket_not_below_group_predecessor (heap : Nat → window) (front mid back : List Nat)
    (p w : Nat) (hkey : lead_key heap p = lead_key heap w)
    (hmid : ∀ x ∈ mid, lead_key heap x ≠ lead_key heap w)
    (hlay : enum_index (heap p).get_layer ≤ enum_index (heap w).get_layer) :
    ∃ (bfront bmid bback : List layer) (bp bw : layer),
      buckets heap (fun _ => none) (front ++ p :: (mid ++ w :: back))
          = bfront ++ bp :: (bmid ++ bw :: bback)
        ∧ bfront.length = front.length ∧ bmid.length = mid.length
        ∧ bback.length = back.length
        ∧ enum_index bp ≤ enum_index bw := by
  let m1 := lead_layers_after heap (fun _ => none) front
  let bp := bucket_layer heap m1 p
  let m2 := Function.update m1 ((heap p).central_output, (heap p).get_top_lead) (some bp)
  let m3 := lead_layers_after heap m2 mid
  refine ⟨buckets heap (fun _ => none) front, buckets heap m2 mid,
    buckets heap (lead_layers_after heap m3 [w]) back, bp, bucket_layer heap m3 w,
    ?_, buckets_length _ _ _, buckets_length _ _ _, buckets_length _ _ _, ?_⟩
  · rw [buckets_append, buckets, buckets_append, buckets]
    rfl
  · have hfound : m3 ((heap w).central_output, (heap w).get_top_lead) = some bp := by
      show lead_layers_after heap m2 mid (lead_key heap w) = some bp
      rw [lead_layers_after_of_ne heap _ mid m2 hmid, ← hkey]
      exact Function.update_same _ _ _
    have hbw : bucket_layer heap m3 w
        = if bp = layer.active ∧ enum_index (heap w).get_layer > enum_index layer.below
          then layer.active else (heap w).get_layer := by
      simp only [bucket_layer, hfound]
    rw [hbw]
    rcases bucket_layer_cases heap m1 p with h | ⟨h1, h2⟩
    · have hbp : bp = (heap p).get_layer := h
      by_cases hact : bp = layer.active
      · have h3 : enum_index (heap w).get_layer > enum_index layer.below := by
          rw [hbp] at hact
          rw [hact] at hlay
          simp only [enum_index] at hlay ⊢
          omega
        simp only [hact, h3, and_self, if_true, le_refl]
      · simp only [hact, false_and, if_false]
        rw [hbp]
        exact hlay
    · have hbp : bp = layer.active := h1
      have h3 : enum_index (heap w).get_layer > enum_index layer.below :=
        lt_of_lt_of_le h2 hlay
      simp only [hbp, h3, and_self, if_true, le_refl]

/-- Witness for C1 (amended): in the group of the fullscreen window `1`, the transient `3`
follows the transient `2` and is bucketed no lower. -/
theorem bucket_not_below_group_predecessor_witness :
    buckets group_example (fun _ => none) [1, 2, 3]
        = [layer.active, layer.active, layer.active]
      ∧ ∃ (bfront bmid bback : List layer) (bp bw : layer),
          buckets group_example (fun _ => none) ([1] ++ 2 :: ([] ++ 3 :: []))
              = bfront ++ bp :: (bmid ++ bw :: bback)
            ∧ bfront.length = [1].length ∧ bmid.length = ([] : List Nat).length
            ∧ bback.length = ([] : List Nat).length
            ∧ enum_index bp ≤ enum_index bw :=
  ⟨by decide,
    bucket_not_below_group_predecessor group_example [1] [] [] 2 3 (by decide)
      (by simp) (by decide)⟩

/-! ### `lower_window` -/

theorem update_order_pre_stack (sp : space) : (update_order sp).pre_stack = sp.pre_stack := rfl

theorem update_order_most_recently_raised (sp : space) :
    (update_order sp).most_recently_raised = sp.most_recently_raised := rfl

theorem update_order_win (sp : space) : (update_order sp).win = sp.win := rfl

theorem do_lower_pre_stack (sp : space) (w : Nat) :
    (do_lower sp w).pre_stack = w :: sp.pre_stack.filter (fun x => x != w) := by
  unfold do_lower move_to_front
  by_cases h : contains sp.pre_stack w = true
  · simp [h]
  · have hnot : w ∉ sp.pre_stack := by simpa [contains] using h
    have hfilter : sp.pre_stack.filter (fun x => x != w) = sp.pre_stack := by
      rw [List.filter_eq_self]
      intro x hx
      have : x ≠ w := fun hxw => hnot (hxw ▸ hx)
      simpa using this
    simp [h, hfilter]

theorem do_lower_most_recently_raised (sp : space) (w : Nat) :
    (do_lower sp w).most_recently_raised = sp.most_recently_raised := by
  unfold do_lower
  split_ifs <;> rfl

theorem cleanup_pre_stack (sp : space) (w : Nat) : (cleanup sp w).pre_stack = sp.pre_stack := by
  unfold cleanup
  split_ifs <;> rfl

theorem cleanup_most_recently_raised (sp : space) (w : Nat) :
    (cleanup sp w).most_recently_raised
      = if sp.most_recently_raised = w then nullptr else sp.most_recently_raised := by
  unfold cleanup
  by_cases h : w = sp.most_recently_raised
  · simp [h]
  · have h2 : ¬ sp.most_recently_raised = w := fun hh => h hh.symm
    simp [h, h2]

/-- The function `lower_window` on a window that is not an x11 window with a lead and a
group. -/
theorem lower_window_plain (sp : space) (window : Nat)
    (hplain : ((sp.win window).is_x11 && lead (sp.win window) != nullptr
      && (sp.win window).group) = false) :
    lower_window sp window = update_order (cleanup (do_lower sp window) window) := by
  unfold lower_window
  simp only [hplain]
  rfl

/-- C4: for a window with a control object that is not an x11 window having both a transient
lead and a group, after `lower_window` the window is the first element of `pre_stack` and occurs
exactly once, the other windows keep their relative order, and `most_recently_raised` is null if
it pointed to the window and is unchanged otherwise. -/
theorem lower_window_spec (sp : space) (window : Nat)
    (_hcontrol : (sp.win window).control = true)
    (hplain : ¬ ((sp.win window).is_x11 = true ∧ lead (sp.win window) ≠ nullptr
      ∧ (sp.win window).group = true)) :
    (lower_window sp window).pre_stack = window :: sp.pre_stack.filter (fun x => x != window)
      ∧ (lower_window sp window).pre_stack.head? = some window
      ∧ (lower_window sp window).pre_stack.count window = 1
      ∧ (lower_window sp window).pre_stack.filter (fun x => x != window)
          = sp.pre_stack.filter (fun x => x != window)
      ∧ (lower_window sp window).most_recently_raised
          = if sp.most_recently_raised = window then nullptr else sp.most_recently_raised := by
  have hplain2 : ((sp.win window).is_x11 && lead (sp.win window) != nullptr
      && (sp.win window).group) = false := by
    rw [Bool.eq_false_iff]
    intro h
    apply hplain
    simpa [and_assoc] using h
  have hpre : (lower_window sp window).pre_stack
      = window :: sp.pre_stack.filter (fun x => x != window) := by
    rw [lower_window_plain sp window hplain2, update_order_pre_stack, cleanup_pre_stack,
      do_lower_pre_stack]
  refine ⟨hpre, ?_, ?_, ?_, ?_⟩
  · rw [hpre]
    rfl
  · rw [hpre, List.count_cons_self, List.count_eq_zero.2]
    intro hmem
    simpa using (List.mem_filter.1 hmem).2
  · rw [hpre, List.filter_cons]
    simp
  · rw [lower_window_plain sp window hplain2, update_order_most_recently_raised,
      cleanup_most_recently_raised, do_lower_most_recently_raised]

/-- Witness for C4: lowering window `2` of the example. -/
theorem lower_window_spec_witness :
    (lower_window dock_example 2).pre_stack = [2, 1, 3]
      ∧ (lower_window dock_example 2).most_recently_raised = nullptr := by
  have h := lower_window_spec dock_example 2 (by decide) (by decide)
  refine ⟨?_, ?_⟩
  · rw [h.1]
    decide
  · rw [h.2.2.2.2]
    decide

/-! ### `raise_or_lower_client` -/

/-- C5: `raise_or_lower_client` on a null window changes nothing; on a non-null window it has
the effect of `lower_window` when the window is the topmost one, which is the cache
`most_recently_raised` when that is non-null, contained in `stack` and shown and the window is on
the current desktop, and otherwise the result of `top_client_on_desktop` on the desktop of the
window and, with separate screen focus, on its output; in every other case it has the effect of
`raise_window`. -/
theorem raise_or_lower_client_spec (fuel : Nat) (sp : space) (window : Nat) :
    raise_or_lower_client fuel sp nullptr = some sp
      ∧ (window ≠ nullptr →
          ∀ topmost : Nat,
            ((sp.most_recently_raised ≠ nullptr ∧ sp.most_recently_raised ∈ sp.stack
                ∧ (sp.win sp.most_recently_raised).isShown = true
                ∧ (sp.win window).on_current_desktop = true) →
              topmost = sp.most_recently_raised) →
            (¬ (sp.most_recently_raised ≠ nullptr ∧ sp.most_recently_raised ∈ sp.stack
                ∧ (sp.win sp.most_recently_raised).isShown = true
                ∧ (sp.win window).on_current_desktop = true) →
              topmost = top_client_on_desktop sp
                (if (sp.win window).on_all_desktops = true then sp.current_desktop
                  else (sp.win window).get_desktop)
                (if sp.isSeparateScreenFocus = true then (sp.win window).central_output
                  else nullptr)
                false true) →
            (window = topmost →
                raise_or_lower_client fuel sp window = some (lower_window sp window))
              ∧ (window ≠ topmost →
                raise_or_lower_client fuel sp window = raise_window fuel sp window)) := by
  refine ⟨by simp [raise_or_lower_client], ?_⟩
  intro hw topmost hcache hnocache
  have htop : topmost = topmost_client sp window := by
    unfold topmost_client
    by_cases hc : sp.most_recently_raised ≠ nullptr ∧ sp.most_recently_raised ∈ sp.stack
        ∧ (sp.win sp.most_recently_raised).isShown = true
        ∧ (sp.win window).on_current_desktop = true
    · rw [hcache hc]
      obtain ⟨h1, h2, h3, h4⟩ := hc
      simp [h1, h2, h3, h4, contains]
    · rw [hnocache hc]
      have hc2 : (sp.most_recently_raised != nullptr && contains sp.stack sp.most_recently_raised
          && (sp.win sp.most_recently_raised).isShown && (sp.win window).on_current_desktop)
          = false := by
        rw [Bool.eq_false_iff]
        intro h
        apply hc
        simpa [contains, and_assoc] using h
      simp only [hc2]
      rfl
  subst htop
  constructor
  · intro h
    unfold raise_or_lower_client
    rw [if_neg hw, if_pos h]
  · intro h
    unfold raise_or_lower_client
    rw [if_neg hw, if_neg h]

/-- Witness for C5: in the example window `2` is the cached topmost window and is lowered. -/
theorem raise_or_lower_client_spec_witness :
    raise_or_lower_client 5 dock_example 2 = some (lower_window dock_example 2) :=
  ((raise_or_lower_client_spec 5 dock_example 2).2 (by decide) 2 (fun _ => rfl)
    (fun h => absurd (by decide) h)).1 rfl

/-! ### `restack` -/

/-- Inserting before the first occurrence of a window the list contains. -/
theorem insert_before_find_of_mem (l : List Nat) (under window : Nat) (h : under ∈ l) :
    ∃ lower upper, l = lower ++ under :: upper ∧ under ∉ lower
      ∧ insert_before_find l under window = lower ++ window :: under :: upper := by
  induction l with
  | nil => simp at h
  | cons x rest ih =>
    by_cases hx : x = under
    · subst hx
      exact ⟨[], rest, rfl, by simp, by simp [insert_before_find]⟩
    · have hrest : under ∈ rest := by
        rcases List.mem_cons.1 h with h | h
        · exact absurd h.symm hx
        · exact h
      obtain ⟨lower, upper, hl, hnot, hins⟩ := ih hrest
      refine ⟨x :: lower, upper, by rw [hl]; rfl, ?_, ?_⟩
      · intro hmem
        rcases List.mem_cons.1 hmem with h | h
        · exact hx h.symm
        · exact hnot h
      · simp [insert_before_find, hx, hins]

/-- C7: for `restack` with `under` contained in `pre_stack`, the window different from `under`,
and either `force` set or the window belonging to the application of `under`: afterwards the
window occurs exactly once in `pre_stack`, immediately before the first occurrence of `under`, and
the other windows are in the order they had. -/
theorem restack_spec (sp : space) (window under : Nat) (force : Bool)
    (hunder : under ∈ sp.pre_stack) (hne : window ≠ under)
    (hforce : force = true ∨ belong_to_same_client sp.win under window = true) :
    ∃ lower upper,
      sp.pre_stack.filter (fun x => x != window) = lower ++ under :: upper
        ∧ under ∉ lower
        ∧ (restack sp window under force).pre_stack = lower ++ window :: under :: upper
        ∧ (restack sp window under force).pre_stack.count window = 1
        ∧ (restack sp window under force).pre_stack.filter (fun x => x != window)
            = sp.pre_stack.filter (fun x => x != window) := by
  have hu : restack_under sp window under force = under := by
    unfold restack_under
    rcases hforce with h | h
    · simp [h]
    · simp [h]
  have hmem : under ∈ remove_all sp.pre_stack window := by
    unfold remove_all
    rw [List.mem_filter]
    refine ⟨hunder, ?_⟩
    have : under ≠ window := fun h => hne h.symm
    simpa using this
  obtain ⟨lower, upper, hl, hnot, hins⟩ :=
    insert_before_find_of_mem (remove_all sp.pre_stack window) under window hmem
  have hpre : (restack sp window under force).pre_stack = lower ++ window :: under :: upper := by
    unfold restack
    rw [update_order_pre_stack]
    simp only [hu]
    exact hins
  have hl2 : sp.pre_stack.filter (fun x => x != window) = lower ++ under :: upper := hl
  have hnotmem : window ∉ lower ++ under :: upper := by
    rw [← hl2]
    intro hm
    simpa using (List.mem_filter.1 hm).2
  have hnl : window ∉ lower := fun h => hnotmem (List.mem_append_left _ h)
  have hnu : window ∉ upper := fun h =>
    hnotmem (List.mem_append_right _ (List.mem_cons_of_mem _ h))
  have hfl : lower.filter (fun x => x != window) = lower := by
    rw [List.filter_eq_self]
    intro x hx
    have : x ≠ window := fun h => hnl (h ▸ hx)
    simpa using this
  have hfu : upper.filter (fun x => x != window) = upper := by
    rw [List.filter_eq_self]
    intro x hx
    have : x ≠ window := fun h => hnu (h ▸ hx)
    simpa using this
  have hunder2 : under ≠ window := fun h => hne h.symm
  refine ⟨lower, upper, hl2, hnot, hpre, ?_, ?_⟩
  · rw [hpre, List.count_append, List.count_cons_self, List.count_cons_of_ne hne,
      List.count_eq_zero.2 hnl, List.count_eq_zero.2 hnu]
  · rw [hpre, hl2, List.filter_append, hfl]
    simp [List.filter_cons, hunder2, hfu]

/-- Witness for C7: window `2` belongs to the application of window `1`, which is contained in
`pre_stack`, and is put directly below it. -/
theorem restack_spec_witness :
    ∃ lower upper,
      restack_example.pre_stack.filter (fun x => x != 2) = lower ++ 1 :: upper
        ∧ 1 ∉ lower
        ∧ (restack restack_example 2 1 false).pre_stack = lower ++ 2 :: 1 :: upper
        ∧ (restack restack_example 2 1 false).pre_stack.count 2 = 1
        ∧ (restack restack_example 2 1 false).pre_stack.filter (fun x => x != 2)
            = restack_example.pre_stack.filter (fun x => x != 2) :=
  restack_spec restack_example 2 1 false (by decide) (by decide) (Or.inr (by decide))

/-! ### `raise_window` -/

theorem move_to_back_snd (c : List Nat) (x : Nat) :
    (move_to_back c x).2 = if x ∈ c then c.filter (fun y => y != x) ++ [x] else c := by
  unfold move_to_back contains
  by_cases h : x ∈ c <;> simp [h]

theorem mem_move_to_back (c : List Nat) (x y : Nat) : y ∈ (move_to_back c x).2 ↔ y ∈ c := by
  rw [move_to_back_snd]
  by_cases h : x ∈ c
  · simp only [h, if_true, List.mem_append, List.mem_filter, List.mem_singleton]
    constructor
    · rintro (⟨h1, _⟩ | h1)
      · exact h1
      · exact h1 ▸ h
    · intro hy
      by_cases hyx : y = x
      · exact Or.inr hyx
      · exact Or.inl ⟨hy, by simpa using hyx⟩
  · simp [h]

theorem nodup_move_to_back (c : List Nat) (x : Nat) (h : c.Nodup) :
    (move_to_back c x).2.Nodup := by
  rw [move_to_back_snd]
  by_cases hx : x ∈ c
  · simp only [hx, if_true]
    rw [List.nodup_append]
    refine ⟨h.filter _, List.nodup_singleton x, ?_⟩
    intro a ha hb
    have ha2 := (List.mem_filter.1 ha).2
    rw [List.mem_singleton] at hb
    simp [hb] at ha2
  · simp [hx, h]

/-- Moving the windows of a duplicate-free list to the back one after the other, those that
pass the test `cond` and are in the container, puts just these at the back, in list order, and
leaves the rest in its order. -/
theorem foldl_move_to_back (cond : Nat → Bool) (l : List Nat) :
    ∀ c : List Nat, l.Nodup →
      l.foldl (fun r x => if cond x then (move_to_back r x).2 else r) c
        = c.filter (fun y => decide (y ∉ l.filter (fun x => cond x && decide (x ∈ c))))
          ++ l.filter (fun x => cond x && decide (x ∈ c)) := by
  induction l with
  | nil => intro c _; simp
  | cons a l ih =>
    intro c hnd
    have hnd2 := List.nodup_cons.1 hnd
    rw [List.foldl_cons]
    by_cases ha : cond a = true ∧ a ∈ c
    · obtain ⟨hca, hac⟩ := ha
      have hc1 : (if cond a = true then (move_to_back c a).2 else c)
          = c.filter (fun y => y != a) ++ [a] := by
        rw [if_pos hca, move_to_back_snd, if_pos hac]
      rw [hc1, ih _ hnd2.2]
      have hmem : ∀ x, (x ∈ c.filter (fun y => y != a) ++ [a]) ↔ x ∈ c := by
        intro x
        have := mem_move_to_back c a x
        rw [move_to_back_snd, if_pos hac] at this
        exact this
      have hfil : l.filter (fun x => cond x && decide (x ∈ c.filter (fun y => y != a) ++ [a]))
          = l.filter (fun x => cond x && decide (x ∈ c)) := by
        congr 1
        funext x
        simp only [hmem]
      rw [hfil]
      have hanot : a ∉ l.filter (fun x => cond x && decide (x ∈ c)) :=
        fun h => hnd2.1 (List.mem_filter.1 h).1
      have hcons : (a :: l).filter (fun x => cond x && decide (x ∈ c))
          = a :: l.filter (fun x => cond x && decide (x ∈ c)) := by
        rw [List.filter_cons]
        simp [hca, hac]
      rw [hcons]
      generalize l.filter (fun x => cond x && decide (x ∈ c)) = moved at hanot ⊢
      have h1 : [a].filter (fun y => decide (y ∉ moved)) = [a] := by
        rw [List.filter_eq_self]
        intro x hx
        rw [List.mem_singleton] at hx
        rw [hx]
        simpa using hanot
      have h2 : (c.filter (fun y => y != a)).filter (fun y => decide (y ∉ moved))
          = c.filter (fun y => decide (y ∉ a :: moved)) := by
        rw [List.filter_filter]
        congr 1
        funext y
        by_cases hya : y = a
        · simp [hya]
        · by_cases hym : y ∈ moved <;> simp [hya, hym]
      rw [List.filter_append, h1, h2, List.append_assoc]
      rfl
    · have hc1 : l.foldl (fun r x => if cond x then (move_to_back r x).2 else r)
          (if cond a = true then (move_to_back c a).2 else c)
          = l.foldl (fun r x => if cond x then (move_to_back r x).2 else r) c := by
        by_cases hca : cond a = true
        · have hac : a ∉ c := fun h => ha ⟨hca, h⟩
          rw [if_pos hca, move_to_back_snd, if_neg hac]
        · rw [if_neg hca]
      rw [hc1, ih c hnd2.2]
      have hfil : (a :: l).filter (fun x => cond x && decide (x ∈ c))
          = l.filter (fun x => cond x && decide (x ∈ c)) := by
        rw [List.filter_cons]
        have : (cond a && decide (a ∈ c)) = false := by
          rw [Bool.eq_false_iff]
          intro h
          apply ha
          simpa using h
        simp [this]
      rw [hfil]

theorem do_raise_pre_stack (sp : space) (w : Nat) :
    (do_raise sp w).pre_stack = (move_to_back sp.pre_stack w).2 := by
  unfold do_raise
  by_cases h : (move_to_back sp.pre_stack w).1 = true
  · by_cases h2 : is_special_window (sp.win w) = true <;> simp [h, h2]
  · have h3 : (move_to_back sp.pre_stack w).2 = sp.pre_stack := by
      unfold move_to_back at h ⊢
      by_cases hc : contains sp.pre_stack w = true
      · simp [hc] at h
      · simp [hc]
    simp [h, h3]

theorem do_raise_win (sp : space) (w : Nat) : (do_raise sp w).win = sp.win := by
  unfold do_raise
  split_ifs <;> rfl

theorem raise_leads_win (l : List Nat) : ∀ sp : space, (raise_leads sp l).win = sp.win := by
  induction l with
  | nil => intro sp; rfl
  | cons a l ih =>
    intro sp
    unfold raise_leads at ih ⊢
    rw [List.foldl_cons, ih]
    by_cases h : (sp.win a).control = true
    · simp [h, do_raise_win]
    · simp [h]

theorem raise_leads_pre_stack (l : List Nat) :
    ∀ sp : space,
      (raise_leads sp l).pre_stack
        = l.foldl (fun r x => if (sp.win x).control then (move_to_back r x).2 else r)
            sp.pre_stack := by
  induction l with
  | nil => intro sp; rfl
  | cons a l ih =>
    intro sp
    have hstep : raise_leads sp (a :: l)
        = raise_leads (if !(sp.win a).control then sp else do_raise sp a) l := rfl
    rw [hstep, ih, List.foldl_cons]
    by_cases h : (sp.win a).control = true
    · simp [h, do_raise_win, do_raise_pre_stack]
    · simp [h]

theorem on_lead_chain_ne_null (heap : Nat → window) (l x : Nat) (h : on_lead_chain heap l x) :
    l ≠ nullptr ∧ x ≠ nullptr := by
  induction h with
  | start h0 => exact ⟨h0, h0⟩
  | next x _ hx ih => exact ⟨ih.1, hx⟩

theorem on_lead_chain_of_lead (heap : Nat → window) (l x : Nat) (hl : l ≠ nullptr)
    (h : on_lead_chain heap (lead (heap l)) x) : on_lead_chain heap l x := by
  induction h with
  | start h0 => exact on_lead_chain.next l l (on_lead_chain.start l hl) h0
  | next x _ hx ih => exact on_lead_chain.next l x ih hx

theorem on_lead_chain_cases (heap : Nat → window) (l x : Nat) (h : on_lead_chain heap l x) :
    x = l ∨ on_lead_chain heap (lead (heap l)) x := by
  induction h with
  | start _ => exact Or.inl rfl
  | next y _ hy ih =>
    rcases ih with h1 | h1
    · right
      rw [h1] at hy ⊢
      exact on_lead_chain.start _ hy
    · exact Or.inr (on_lead_chain.next _ y h1 hy)

/-- What the inner loop appends: the windows on the chain of leads from `l`. -/
theorem mem_lead_chain (heap : Nat → window) (fuel : Nat) :
    ∀ (l : Nat) (acc result : List Nat), lead_chain heap fuel l acc = some result →
      ∀ x, x ∈ result ↔ x ∈ acc ∨ on_lead_chain heap l x := by
  induction fuel with
  | zero =>
    intro l acc result h x
    unfold lead_chain at h
    by_cases hl : l = nullptr
    · simp only [hl, if_true, Option.some.injEq] at h
      subst h
      subst hl
      constructor
      · exact Or.inl
      · rintro (h | h)
        · exact h
        · exact absurd rfl (on_lead_chain_ne_null heap _ _ h).1
    · simp [hl] at h
  | succ fuel ih =>
    intro l acc result h x
    unfold lead_chain at h
    by_cases hl : l = nullptr
    · simp only [hl, if_true, Option.some.injEq] at h
      subst h
      subst hl
      constructor
      · exact Or.inl
      · rintro (h | h)
        · exact h
        · exact absurd rfl (on_lead_chain_ne_null heap _ _ h).1
    · simp only [hl, if_false] at h
      rw [ih _ _ _ h x]
      have hacc : x ∈ (if contains acc l = true then acc else acc ++ [l]) ↔ x ∈ acc ∨ x = l := by
        by_cases hc : contains acc l = true
        · have hc2 : l ∈ acc := by simpa [contains] using hc
          simp only [hc, if_true]
          constructor
          · exact Or.inl
          · rintro (h | h)
            · exact h
            · exact h ▸ hc2
        · simp [hc]
      rw [hacc]
      constructor
      · rintro ((h1 | h1) | h1)
        · exact Or.inl h1
        · exact Or.inr (h1.symm ▸ on_lead_chain.start l hl)
        · exact Or.inr (on_lead_chain_of_lead heap l x hl h1)
      · rintro (h1 | h1)
        · exact Or.inl (Or.inl h1)
        · rcases on_lead_chain_cases heap l x h1 with h2 | h2
          · exact Or.inl (Or.inr h2)
          · exact Or.inr h2

/-- The inner loop keeps the collected list free of duplicates and of null pointers. -/
theorem lead_chain_nodup (heap : Nat → window) (fuel : Nat) :
    ∀ (l : Nat) (acc result : List Nat), lead_chain heap fuel l acc = some result →
      acc.Nodup ∧ nullptr ∉ acc → result.Nodup ∧ nullptr ∉ result := by
  induction fuel with
  | zero =>
    intro l acc result h hacc
    unfold lead_chain at h
    by_cases hl : l = nullptr
    · simp only [hl, if_true, Option.some.injEq] at h
      exact h ▸ hacc
    · simp [hl] at h
  | succ fuel ih =>
    intro l acc result h hacc
    unfold lead_chain at h
    by_cases hl : l = nullptr
    · simp only [hl, if_true, Option.some.injEq] at h
      exact h ▸ hacc
    · simp only [hl, if_false] at h
      apply ih _ _ _ h
      by_cases hc : contains acc l = true
      · simp only [hc, if_true]
        exact hacc
      · have hc2 : l ∉ acc := by simpa [contains] using hc
        rw [if_neg hc]
        constructor
        · rw [List.nodup_append]
          refine ⟨hacc.1, List.nodup_singleton l, ?_⟩
          intro a ha hb
          rw [List.mem_singleton] at hb
          exact hc2 (hb ▸ ha)
        · intro hmem
          rcases List.mem_append.1 hmem with h1 | h1
          · exact hacc.2 h1
          · rw [List.mem_singleton] at h1
            exact hl h1.symm

/-- The inner loop ends within `fuel` steps when the leads go down in rank. -/
theorem lead_chain_isSome (heap : Nat → window) (rank : Nat → Nat)
    (hrank : ∀ p, p ≠ nullptr → lead (heap p) ≠ nullptr → rank (lead (heap p)) < rank p)
    (fuel : Nat) :
    ∀ (l : Nat) (acc : List Nat), (l ≠ nullptr → rank l < fuel) →
      ∃ result, lead_chain heap fuel l acc = some result := by
  induction fuel with
  | zero =>
    intro l acc h
    by_cases hl : l = nullptr
    · exact ⟨acc, by simp [lead_chain, hl]⟩
    · exact absurd (h hl) (Nat.not_lt_zero _)
  | succ fuel ih =>
    intro l acc h
    by_cases hl : l = nullptr
    · exact ⟨acc, by simp [lead_chain, hl]⟩
    · unfold lead_chain
      simp only [hl, if_false]
      apply ih
      intro hnext
      have h1 := hrank l hl hnext
      have h2 := h hl
      omega

theorem mem_collect_leads (heap : Nat → window) (fuel : Nat) (ls : List Nat) :
    ∀ (acc result : List Nat), collect_leads heap fuel ls acc = some result →
      ∀ x, x ∈ result ↔ x ∈ acc ∨ ∃ l ∈ ls, on_lead_chain heap l x := by
  induction ls with
  | nil =>
    intro acc result h x
    simp only [collect_leads, Option.some.injEq] at h
    subst h
    simp
  | cons l ls ih =>
    intro acc result h x
    unfold collect_leads at h
    cases hc : lead_chain heap fuel l acc with
    | none => simp [hc] at h
    | some acc2 =>
      simp only [hc] at h
      rw [ih _ _ h x, mem_lead_chain heap fuel l acc acc2 hc x]
      simp only [List.mem_cons, exists_eq_or_imp]
      tauto

theorem collect_leads_nodup (heap : Nat → window) (fuel : Nat) (ls : List Nat) :
    ∀ (acc result : List Nat), collect_leads heap fuel ls acc = some result →
      acc.Nodup ∧ nullptr ∉ acc → result.Nodup ∧ nullptr ∉ result := by
  induction ls with
  | nil =>
    intro acc result h hacc
    simp only [collect_leads, Option.some.injEq] at h
    exact h ▸ hacc
  | cons l ls ih =>
    intro acc result h hacc
    unfold collect_leads at h
    cases hc : lead_chain heap fuel l acc with
    | none => simp [hc] at h
    | some acc2 =>
      simp only [hc] at h
      exact ih _ _ h (lead_chain_nodup heap fuel l acc acc2 hc hacc)

theorem collect_leads_isSome (heap : Nat → window) (rank : Nat → Nat)
    (hrank : ∀ p, p ≠ nullptr → lead (heap p) ≠ nullptr → rank (lead (heap p)) < rank p)
    (fuel : Nat) (ls : List Nat) (hls : ∀ l ∈ ls, rank l < fuel) :
    ∀ acc : List Nat, ∃ result, collect_leads heap fuel ls acc = some result := by
  induction ls with
  | nil => intro acc; exact ⟨acc, rfl⟩
  | cons l ls ih =>
    intro acc
    obtain ⟨acc2, h2⟩ := lead_chain_isSome heap rank hrank fuel l acc
      (fun _ => hls l (List.mem_cons_self _ _))
    obtain ⟨result, h3⟩ := ih (fun x hx => hls x (List.mem_cons_of_mem _ hx)) acc2
    exact ⟨result, by simp [collect_leads, h2, h3]⟩

/-- Reordering by the stack keeps the windows and keeps them free of duplicates. -/
theorem foldl_move_to_back_inv (cond : Nat → Bool) (stack : List Nat) :
    ∀ r : List Nat, r.Nodup →
      (stack.foldl (fun r x => if cond x then (move_to_back r x).2 else r) r).Nodup
        ∧ ∀ x, x ∈ stack.foldl (fun r x => if cond x then (move_to_back r x).2 else r) r
            ↔ x ∈ r := by
  induction stack with
  | nil => intro r h; exact ⟨h, fun _ => Iff.rfl⟩
  | cons a stack ih =>
    intro r h
    rw [List.foldl_cons]
    by_cases ha : cond a = true
    · simp only [ha, if_true]
      obtain ⟨h1, h2⟩ := ih _ (nodup_move_to_back r a h)
      exact ⟨h1, fun x => (h2 x).trans (mem_move_to_back r a x)⟩
    · simp only [ha]
      exact ih r h

theorem filter_window_cast (l : List Nat) (h : nullptr ∉ l) : l.filter window_cast = l := by
  rw [List.filter_eq_self]
  intro x hx
  have : x ≠ nullptr := fun hxn => h (hxn ▸ hx)
  simpa [window_cast] using this

/-- The leads restacked by the stacking order: the same windows, without duplicates. -/
theorem ensure_stacking_order_in_list_inv (stack l : List Nat) (hnd : l.Nodup)
    (hnull : nullptr ∉ l) :
    (ensure_stacking_order_in_list window_cast stack l).Nodup
      ∧ ∀ x, x ∈ ensure_stacking_order_in_list window_cast stack l ↔ x ∈ l := by
  unfold ensure_stacking_order_in_list
  by_cases h0 : l.length = 0
  · have : l = [] := List.length_eq_zero.1 h0
    subst this
    simp
  · by_cases h1 : l.length < 2
    · cases l with
      | nil => simp at h0
      | cons a t =>
        cases t with
        | nil =>
          have ha : a ≠ nullptr := fun h => hnull (by simp [h])
          simp [window_cast, ha]
        | cons b t =>
          simp only [List.length_cons] at h1
          omega
    · simp only [h0, h1, if_false]
      rw [filter_window_cast l hnull]
      exact foldl_move_to_back_inv window_cast stack l hnd

theorem filter_eq_singleton_of_nodup (stack : List Nat) (a : Nat) (hnd : stack.Nodup)
    (ha : a ∈ stack) (p : Nat → Bool) (hp : ∀ x, p x = true ↔ x = a) :
    stack.filter p = [a] := by
  induction stack with
  | nil => simp at ha
  | cons b stack ih =>
    have hnd2 := List.nodup_cons.1 hnd
    by_cases hb : b = a
    · subst hb
      have hpb : p b = true := (hp b).2 rfl
      rw [List.filter_cons, if_pos hpb]
      congr 1
      rw [List.filter_eq_nil_iff]
      intro x hx hpx
      exact hnd2.1 ((hp x).1 hpx ▸ hx)
    · have hpb : ¬ p b = true := fun h => hb ((hp b).1 h)
      rw [List.filter_cons, if_neg hpb]
      apply ih hnd2.2
      rcases List.mem_cons.1 ha with h | h
      · exact absurd h.symm hb
      · exact h

/-- With a duplicate-free stack, the restacked leads are the leads outside the stack followed by
the leads in the stack, in stack order. -/
theorem ensure_stacking_order_in_list_eq (stack l : List Nat) (hs : stack.Nodup)
    (hnd : l.Nodup) (hnull : nullptr ∉ l) :
    ensure_stacking_order_in_list window_cast stack l
      = l.filter (fun y => decide (y ∉ stack)) ++ stack.filter (fun x => decide (x ∈ l)) := by
  have hcast : ∀ x, (window_cast x && decide (x ∈ l)) = decide (x ∈ l) := by
    intro x
    by_cases hx : x ∈ l
    · have : x ≠ nullptr := fun hxn => hnull (hxn ▸ hx)
      simp [hx, window_cast, this]
    · simp [hx]
  unfold ensure_stacking_order_in_list
  by_cases h0 : l.length = 0
  · have : l = [] := List.length_eq_zero.1 h0
    subst this
    simp
  · by_cases h1 : l.length < 2
    · cases l with
      | nil => simp at h0
      | cons a t =>
        cases t with
        | nil =>
          have ha : a ≠ nullptr := fun h => hnull (by simp [h])
          by_cases hin : a ∈ stack
          · have hf := filter_eq_singleton_of_nodup stack a hs hin (fun x => decide (x ∈ [a]))
              (by intro x; simp)
            rw [hf]
            simp [window_cast, ha, hin]
          · have hf : stack.filter (fun x => decide (x ∈ [a])) = [] := by
              rw [List.filter_eq_nil_iff]
              intro x hx hxa
              simp only [List.mem_singleton, decide_eq_true_eq] at hxa
              exact hin (hxa ▸ hx)
            rw [hf]
            simp [window_cast, ha, hin]
        | cons b t =>
          simp only [List.length_cons] at h1
          omega
    · simp only [h0, h1, if_false]
      rw [filter_window_cast l hnull, foldl_move_to_back window_cast stack l hs]
      simp only [hcast]
      have hfil : l.filter (fun y => decide (y ∉ stack.filter (fun x => decide (x ∈ l))))
          = l.filter (fun y => decide (y ∉ stack)) := by
        apply List.filter_congr
        intro y hy
        simp [List.mem_filter, hy]
      rw [hfil]

/-- Of the leads outside the stack followed by the leads in stack order, any selection has its
members that are in the stack in stack order. -/
theorem stacked_order (stack l : List Nat) (c1 c2 : Nat → Bool) :
    (((l.filter (fun y => decide (y ∉ stack)) ++ stack.filter (fun x => decide (x ∈ l))).filter
        c1).filter c2).filter (fun x => decide (x ∈ stack))
      = stack.filter (fun x => decide (x ∈
          ((l.filter (fun y => decide (y ∉ stack))
            ++ stack.filter (fun x => decide (x ∈ l))).filter c1).filter c2)) := by
  simp only [List.filter_append, List.filter_filter]
  have hnil : l.filter (fun a =>
      decide (a ∈ stack) && (c2 a && (c1 a && decide (a ∉ stack)))) = [] := by
    rw [List.filter_eq_nil_iff]
    intro a _
    by_cases ha : a ∈ stack <;> simp [ha]
  rw [hnil, List.nil_append]
  apply List.filter_congr
  intro a ha
  by_cases h1 : c1 a = true <;> by_cases h2 : c2 a = true <;> by_cases h3 : a ∈ l <;>
    simp [List.mem_filter, ha, h1, h2, h3]

/-- The unconstrained order after the leads `stacked` and then the window were raised. -/
theorem raise_leads_then_window (sp : space) (window : Nat) (stacked : List Nat)
    (hmem : window ∈ sp.pre_stack) (hnd : stacked.Nodup) :
    (do_raise (raise_leads sp stacked) window).pre_stack
      = sp.pre_stack.filter (fun x =>
            decide (x ∉ (stacked.filter (fun x =>
              (sp.win x).control && decide (x ∈ sp.pre_stack))).filter (fun x => x != window))
              && x != window)
          ++ (stacked.filter (fun x =>
              (sp.win x).control && decide (x ∈ sp.pre_stack))).filter (fun x => x != window)
          ++ [window] := by
  rw [do_raise_pre_stack, raise_leads_pre_stack,
    foldl_move_to_back (fun x => (sp.win x).control) stacked sp.pre_stack hnd]
  generalize stacked.filter (fun x => (sp.win x).control && decide (x ∈ sp.pre_stack)) = moved
  have hin : window ∈ sp.pre_stack.filter (fun y => decide (y ∉ moved)) ++ moved := by
    by_cases hm : window ∈ moved
    · exact List.mem_append_right _ hm
    · exact List.mem_append_left _ (List.mem_filter.2 ⟨hmem, by simpa using hm⟩)
  rw [move_to_back_snd, if_pos hin, List.filter_append, List.filter_filter]
  congr 2
  apply List.filter_congr
  intro x _
  by_cases hxw : x = window
  · simp [hxw]
  · by_cases hxm : x ∈ moved <;> simp [hxw, hxm, List.mem_filter]

/-- C3, as the claim states it, fails: window `4` is a lead of window `2`, which is the lead of
window `1`; window `4` has a control object and is in `pre_stack`, yet after `raise_window` on
window `1` it lies below window `5`, which is no lead of any window, and only the leads `3` and
`2` lie directly below window `1`. -/
theorem raise_window_transitive_lead_counterexample :
    (leads_example.win 1).leads = [2]
      ∧ (leads_example.win 2).leads = [3, 4]
      ∧ (leads_example.win 4).control = true
      ∧ 4 ∈ leads_example.pre_stack
      ∧ (raise_window 5 leads_example 1).map (fun sp => sp.pre_stack) = some [4, 5, 3, 2, 1] := by
  decide

/-- C3, amended: for a non-null window with a control object that is contained in `pre_stack`,
`raise_window` returns as soon as the fuel exceeds the rank of the window's leads, for any rank
that goes down along `lead()`; and after it returned, `pre_stack` is the list of the windows not
raised, in the order they had, followed by the raised leads, followed by the window. The raised
leads are the windows other than the window itself that have a control object, are in `pre_stack`
and lie on the chain of `lead()` that starts at one of the window's leads; with a duplicate-free
constrained stack, those of them that are in the stack are in stack order. `pre_stack` holds the
same windows as before and the window is its last element. -/
theorem raise_window_spec (fuel : Nat) (sp : space) (window : Nat) (hw : window ≠ nullptr)
    (_hcontrol : (sp.win window).control = true) (hmem : window ∈ sp.pre_stack) :
    (∀ rank : Nat → Nat,
        (∀ p, p ≠ nullptr → lead (sp.win p) ≠ nullptr → rank (lead (sp.win p)) < rank p) →
        (∀ l ∈ (sp.win window).leads, rank l < fuel) →
        ∃ sp2, raise_window fuel sp window = some sp2)
      ∧ ∀ sp2, raise_window fuel sp window = some sp2 →
          ∃ raised : List Nat,
            sp2.pre_stack
                = sp.pre_stack.filter (fun x => decide (x ∉ raised) && x != window)
                  ++ raised ++ [window]
              ∧ raised.Nodup
              ∧ (∀ x, x ∈ raised ↔
                  (lead (sp.win window) ≠ nullptr
                      ∧ ∃ l ∈ (sp.win window).leads, on_lead_chain sp.win l x)
                    ∧ (sp.win x).control = true ∧ x ∈ sp.pre_stack ∧ x ≠ window)
              ∧ (sp.stack.Nodup →
                  raised.filter (fun x => decide (x ∈ sp.stack))
                    = sp.stack.filter (fun x => decide (x ∈ raised)))
              ∧ (∀ x, x ∈ sp2.pre_stack ↔ x ∈ sp.pre_stack)
              ∧ sp2.pre_stack.getLast? = some window := by
  constructor
  · intro rank hrank hfuel
    unfold raise_window
    rw [if_neg hw]
    by_cases hlead : (lead (sp.win window) != nullptr) = true
    · rw [if_pos hlead]
      obtain ⟨leads, hleads⟩ :=
        collect_leads_isSome sp.win rank hrank fuel (sp.win window).leads hfuel []
      rw [hleads]
      exact ⟨_, rfl⟩
    · rw [if_neg hlead]
      exact ⟨_, rfl⟩
  · intro sp2 hsp2
    have hfinish : ∀ raised : List Nat,
        sp2.pre_stack
            = sp.pre_stack.filter (fun x => decide (x ∉ raised) && x != window)
              ++ raised ++ [window] →
        (∀ x, x ∈ raised → x ∈ sp.pre_stack) →
        (∀ x, x ∈ sp2.pre_stack ↔ x ∈ sp.pre_stack)
          ∧ sp2.pre_stack.getLast? = some window := by
      intro raised heq hsub
      constructor
      · intro x
        rw [heq]
        simp only [List.mem_append, List.mem_filter, List.mem_singleton, Bool.and_eq_true,
          decide_eq_true_eq, bne_iff_ne, ne_eq]
        constructor
        · rintro ((⟨h1, _⟩ | h1) | h1)
          · exact h1
          · exact hsub x h1
          · exact h1 ▸ hmem
        · intro hx
          by_cases hxw : x = window
          · exact Or.inr hxw
          · by_cases hxr : x ∈ raised
            · exact Or.inl (Or.inr hxr)
            · exact Or.inl (Or.inl ⟨hx, hxr, hxw⟩)
      · rw [heq]
        simp
    unfold raise_window at hsp2
    rw [if_neg hw] at hsp2
    by_cases hlead : (lead (sp.win window) != nullptr) = true
    · rw [if_pos hlead] at hsp2
      have hlead2 : lead (sp.win window) ≠ nullptr := by simpa using hlead
      cases hc : collect_leads sp.win fuel (sp.win window).leads [] with
      | none => simp [hc] at hsp2
      | some leads =>
        simp only [hc, Option.some.injEq] at hsp2
        have hleads := collect_leads_nodup sp.win fuel _ _ _ hc ⟨List.nodup_nil, by simp⟩
        have hleadsmem := mem_collect_leads sp.win fuel _ _ _ hc
        have hstacked := ensure_stacking_order_in_list_inv sp.stack leads hleads.1 hleads.2
        subst hsp2
        have heq := raise_leads_then_window sp window _ hmem hstacked.1
        have hchar : ∀ x,
            x ∈ ((ensure_stacking_order_in_list window_cast sp.stack leads).filter (fun x =>
                (sp.win x).control && decide (x ∈ sp.pre_stack))).filter (fun x => x != window)
              ↔ (lead (sp.win window) ≠ nullptr
                  ∧ ∃ l ∈ (sp.win window).leads, on_lead_chain sp.win l x)
                ∧ (sp.win x).control = true ∧ x ∈ sp.pre_stack ∧ x ≠ window := by
          intro x
          simp only [List.mem_filter, hstacked.2 x, hleadsmem x, List.not_mem_nil, false_or,
            Bool.and_eq_true, decide_eq_true_eq, bne_iff_ne, ne_eq]
          tauto
        refine ⟨_, heq, (hstacked.1.filter _).filter _, hchar, ?_, hfinish _ heq ?_⟩
        · intro hs
          rw [ensure_stacking_order_in_list_eq sp.stack leads hs hleads.1 hleads.2]
          exact stacked_order sp.stack leads _ _
        · intro x hx
          exact ((hchar x).1 hx).2.2.1
    · rw [if_neg hlead] at hsp2
      simp only [Option.some.injEq] at hsp2
      have hlead2 : ¬ lead (sp.win window) ≠ nullptr := by simpa using hlead
      subst hsp2
      have heq : (update_order (do_raise sp window)).pre_stack
          = sp.pre_stack.filter (fun x => decide (x ∉ ([] : List Nat)) && x != window)
            ++ [] ++ [window] := by
        rw [update_order_pre_stack, do_raise_pre_stack, move_to_back_snd, if_pos hmem]
        simp
      refine ⟨[], heq, List.nodup_nil, ?_, ?_, hfinish [] heq (by simp)⟩
      · intro x
        simp [hlead2]
      · intro _
        simp

/-- Witness for C3 (amended): raising window `1` of the example returns. -/
theorem raise_window_spec_witness : ∃ sp2, raise_window 5 leads_example 1 = some sp2 :=
  (raise_window_spec 5 leads_example 1 (by decide) (by decide) (by decide)).1
    leads_example_rank
    (by
      intro p hp hl
      by_cases h1 : p = 1
      · subst h1
        decide
      · by_cases h2 : p = 2
        · subst h2
          decide
        · exfalso
          apply hl
          simp [leads_example, h1, h2, lead, plain_window, nullptr])
    (by decide)

/-! ### `raise_or_lower_client` twice -/

theorem all_layers_split (lw : layer) :
    ∃ l1 l2, all_layers = l1 ++ lw :: l2
      ∧ (∀ k ∈ l1, enum_index k < enum_index lw)
      ∧ (∀ k ∈ l2, enum_index lw < enum_index k) := by
  cases lw
  · exact ⟨[], all_layers.drop 1, rfl, by decide, by decide⟩
  · exact ⟨all_layers.take 1, all_layers.drop 2, rfl, by decide, by decide⟩
  · exact ⟨all_layers.take 2, all_layers.drop 3, rfl, by decide, by decide⟩
  · exact ⟨all_layers.take 3, all_layers.drop 4, rfl, by decide, by decide⟩
  · exact ⟨all_layers.take 4, all_layers.drop 5, rfl, by decide, by decide⟩
  · exact ⟨all_layers.take 5, all_layers.drop 6, rfl, by decide, by decide⟩
  · exact ⟨all_layers.take 6, all_layers.drop 7, rfl, by decide, by decide⟩
  · exact ⟨all_layers.take 7, all_layers.drop 8, rfl, by decide, by decide⟩
  · exact ⟨all_layers.take 8, all_layers.drop 9, rfl, by decide, by decide⟩
  · exact ⟨all_layers.take 9, [], rfl, by decide, by decide⟩

theorem group_by_append (l1 l2 : List layer) (tagged : List (Nat × layer)) :
    group_by (l1 ++ l2) tagged = group_by l1 tagged ++ group_by l2 tagged := by
  simp [group_by, List.flatMap_append]

theorem mem_group_by (ks : List layer) (tagged : List (Nat × layer)) (e : Nat × layer)
    (he : e ∈ tagged) (hk : e.2 ∈ ks) : e ∈ group_by ks tagged := by
  simp only [group_by, List.mem_flatMap, List.mem_filter, decide_eq_true_eq]
  exact ⟨e.2, hk, he, rfl⟩

/-- Every window of a list has a bucket, and the bucket is the own layer or `active`. -/
theorem exists_bucket_of_mem (heap : Nat → window) (l : List Nat) (v : Nat) :
    ∀ m : Nat × Nat → Option layer, v ∈ l →
      ∃ b, (v, b) ∈ l.zip (buckets heap m l)
        ∧ (b = (heap v).get_layer
          ∨ (b = layer.active ∧ enum_index layer.below < enum_index (heap v).get_layer)) := by
  induction l with
  | nil => intro m h; simp at h
  | cons a l ih =>
    intro m h
    rcases List.mem_cons.1 h with h | h
    · subst h
      exact ⟨bucket_layer heap m v, by simp [buckets], bucket_layer_cases heap m v⟩
    · obtain ⟨b, hb, hcase⟩ := ih _ h
      exact ⟨b, by simp only [buckets, List.zip_cons_cons]; exact List.mem_cons_of_mem _ hb,
        hcase⟩

/-- In the constrained order computed from a list that starts with `w`, a window of the rest
whose own layer is not lower than the own layer of `w`, which is not above `active`, comes after
`w`. -/
theorem sort_windows_by_layer_cons (heap : Nat → window) (w v : Nat) (rest : List Nat)
    (hv : v ∈ rest)
    (hlay : enum_index (heap w).get_layer ≤ enum_index (heap v).get_layer)
    (hact : enum_index (heap w).get_layer ≤ enum_index layer.active) :
    ∃ lower upper, sort_windows_by_layer heap (w :: rest) = lower ++ w :: upper ∧ v ∈ upper := by
  rw [sort_windows_by_layer_eq_grouped]
  have hbw : bucket_layer heap (fun _ => none) w = (heap w).get_layer := by
    simp [bucket_layer]
  have htag : bucketed heap (w :: rest)
      = (w, (heap w).get_layer)
        :: rest.zip (buckets heap
            (Function.update (fun _ => none) ((heap w).central_output, (heap w).get_top_lead)
              (some (heap w).get_layer)) rest) := by
    simp only [bucketed, buckets, List.zip_cons_cons, hbw]
  obtain ⟨b, hb, hcase⟩ := exists_bucket_of_mem heap rest v
    (Function.update (fun _ => none) ((heap w).central_output, (heap w).get_top_lead)
      (some (heap w).get_layer)) hv
  have hble : enum_index (heap w).get_layer ≤ enum_index b := by
    rcases hcase with h | ⟨h, _⟩
    · rw [h]
      exact hlay
    · rw [h]
      exact hact
  obtain ⟨l1, l2, hsplit, hl1, _⟩ := all_layers_split (heap w).get_layer
  unfold grouped
  rw [htag, hsplit, group_by_append]
  generalize rest.zip (buckets heap
      (Function.update (fun _ => none) ((heap w).central_output, (heap w).get_top_lead)
        (some (heap w).get_layer)) rest) = tagged at hb ⊢
  have hcons : group_by ((heap w).get_layer :: l2) ((w, (heap w).get_layer) :: tagged)
      = (w, (heap w).get_layer)
        :: (tagged.filter (fun e => e.2 = (heap w).get_layer)
          ++ group_by l2 ((w, (heap w).get_layer) :: tagged)) := by
    simp [group_by, List.filter_cons]
  rw [hcons, List.map_append, List.map_cons]
  refine ⟨_, _, rfl, ?_⟩
  rw [List.map_append, List.mem_append]
  by_cases hbeq : b = (heap w).get_layer
  · left
    exact List.mem_map.2 ⟨(v, b), List.mem_filter.2 ⟨hb, by simpa using hbeq⟩, rfl⟩
  · right
    have hbl2 : b ∈ l2 := by
      have hmem : b ∈ l1 ++ (heap w).get_layer :: l2 := hsplit ▸ mem_all_layers b
      rcases List.mem_append.1 hmem with h | h
      · have hlt := hl1 b h
        omega
      · rcases List.mem_cons.1 h with h | h
        · exact absurd h hbeq
        · exact h
    exact List.mem_map.2
      ⟨(v, b), mem_group_by l2 _ (v, b) (List.mem_cons_of_mem _ hb) hbl2, rfl⟩

/-- A window that has an accepted window above it and occurs nowhere above is not the result
of `top_client_on_desktop`. -/
theorem top_client_on_desktop_ne (sp : space) (desktop output w v : Nat)
    (lower upper : List Nat) (hstack : sp.stack = lower ++ w :: upper) (hv : v ∈ upper)
    (hwu : w ∉ upper) (hnv : normal_client sp.win desktop output v) (hw : w ≠ nullptr) :
    top_client_on_desktop sp desktop output false true ≠ w := by
  intro ht
  rcases top_client_on_desktop_cases sp desktop output false with
    ⟨h0, _⟩ | ⟨_, lo, up, hdec, hall⟩
  · exact hw (ht ▸ h0)
  rw [ht] at hdec
  simp only [Bool.false_eq_true, if_false] at hdec
  rw [hstack] at hdec
  rcases List.append_eq_append_iff.1 hdec with ⟨a, _, ha⟩ | ⟨c, _, hc⟩
  · cases a with
    | nil =>
      simp only [List.nil_append, List.cons.injEq, true_and] at ha
      exact hall v (ha ▸ hv) hnv
    | cons x a =>
      simp only [List.cons_append, List.cons.injEq] at ha
      exact hwu (ha.2 ▸ by simp)
  · cases c with
    | nil =>
      simp only [List.nil_append, List.cons.injEq, true_and] at hc
      exact hall v (hc ▸ hv) hnv
    | cons x c =>
      simp only [List.cons_append, List.cons.injEq] at hc
      exact hall v (hc.2 ▸ by simp [hv]) hnv

/-- The state after `lower_window` on a window that is not an x11 window with a lead and a
group. -/
theorem lower_window_plain_eq (sp : space) (w : Nat)
    (hplain : ((sp.win w).is_x11 && lead (sp.win w) != nullptr && (sp.win w).group) = false) :
    lower_window sp w
      = { win := sp.win
          pre_stack := w :: sp.pre_stack.filter (fun x => x != w)
          stack := sort_windows_by_layer sp.win (w :: sp.pre_stack.filter (fun x => x != w))
          most_recently_raised :=
            if sp.most_recently_raised = w then nullptr else sp.most_recently_raised
          current_desktop := sp.current_desktop
          isSeparateScreenFocus := sp.isSeparateScreenFocus } := by
  rw [lower_window_plain sp w hplain]
  have h1 := do_lower_pre_stack sp w
  have h2 : (do_lower sp w).win = sp.win := by unfold do_lower; split_ifs <;> rfl
  have h3 : (do_lower sp w).most_recently_raised = sp.most_recently_raised :=
    do_lower_most_recently_raised sp w
  have h4 : (do_lower sp w).current_desktop = sp.current_desktop := by
    unfold do_lower; split_ifs <;> rfl
  have h5 : (do_lower sp w).isSeparateScreenFocus = sp.isSeparateScreenFocus := by
    unfold do_lower; split_ifs <;> rfl
  generalize do_lower sp w = s1 at h1 h2 h3 h4 h5
  cases s1 with
  | mk win1 pre1 stack1 raised1 desktop1 focus1 =>
    simp only at h1 h2 h3 h4 h5
    subst h1 h2 h3 h4 h5
    unfold update_order cleanup
    by_cases hm : w = sp.most_recently_raised
    · have hm2 : sp.most_recently_raised = w := hm.symm
      rw [if_pos hm, if_pos hm2]
    · have hm2 : ¬ sp.most_recently_raised = w := fun h => hm h.symm
      rw [if_neg hm, if_neg hm2]

/-- C6, as the claim states it, fails: in the example the windows `1` and `2` are normal shown
windows on the current desktop and window `2` is the topmost of them, also by the cache; the first
`raise_or_lower_client` moves window `2` to the bottom of `pre_stack`, the second one moves it to
the top, above the dock `3`, and `pre_stack` is `[1, 3, 2]` and not the original `[1, 2, 3]`. -/
theorem raise_or_lower_client_twice_counterexample :
    dock_example.pre_stack = [1, 2, 3]
      ∧ top_client_on_desktop dock_example 1 0 false true = 2
      ∧ topmost_client dock_example 2 = 2
      ∧ (dock_example.win 1).isShown = true
      ∧ is_special_window (dock_example.win 1) = false
      ∧ (raise_or_lower_client 5 dock_example 2).map (fun sp => sp.pre_stack) = some [2, 1, 3]
      ∧ ((raise_or_lower_client 5 dock_example 2).bind
            (fun sp => raise_or_lower_client 5 sp 2)).map (fun sp => sp.pre_stack)
          = some [1, 3, 2] := by
  decide

/-- C6, amended: let `w` be a non-null window without transient lead that is the last element of
`pre_stack`, occurs there once, and is the window `raise_or_lower_client` computes as the topmost
one; let the own layer of `w` be not above `active`, and let `pre_stack` hold another window that
`top_client_on_desktop` accepts for the desktop and output of `w` and whose own layer is not lower
than that of `w`. Then the first `raise_or_lower_client` moves `w` to the bottom of `pre_stack`
and the second one moves it back to the top, which restores the original `pre_stack`. -/
theorem raise_or_lower_client_twice (fuel : Nat) (sp : space) (w v : Nat) (rest : List Nat)
    (hw : w ≠ nullptr) (htop : topmost_client sp w = w)
    (hlead : lead (sp.win w) = nullptr)
    (hpre : sp.pre_stack = rest ++ [w]) (hwr : w ∉ rest) (hv : v ∈ rest)
    (hnv : normal_client sp.win (topmost_desktop sp w) (topmost_output sp w) v)
    (hlay : enum_index (sp.win w).get_layer ≤ enum_index (sp.win v).get_layer)
    (hact : enum_index (sp.win w).get_layer ≤ enum_index layer.active) :
    ∃ sp1 sp2,
      raise_or_lower_client fuel sp w = some sp1
        ∧ sp1.pre_stack = w :: rest
        ∧ raise_or_lower_client fuel sp1 w = some sp2
        ∧ sp2.pre_stack = sp.pre_stack := by
  have hplain : ((sp.win w).is_x11 && lead (sp.win w) != nullptr && (sp.win w).group)
      = false := by
    simp [hlead]
  have hfilter : sp.pre_stack.filter (fun x => x != w) = rest := by
    rw [hpre, List.filter_append]
    have h1 : rest.filter (fun x => x != w) = rest := by
      rw [List.filter_eq_self]
      intro x hx
      have : x ≠ w := fun h => hwr (h ▸ hx)
      simpa using this
    rw [h1]
    simp
  have hfirst : raise_or_lower_client fuel sp w = some (lower_window sp w) := by
    unfold raise_or_lower_client
    rw [if_neg hw, if_pos htop.symm]
  have hsp1 := lower_window_plain_eq sp w hplain
  rw [hfilter] at hsp1
  refine ⟨lower_window sp w, update_order (do_raise (lower_window sp w) w), hfirst, ?_, ?_, ?_⟩
  · rw [hsp1]
  · have hne : topmost_client (lower_window sp w) w ≠ w := by
      rw [hsp1]
      have hm1 : (if sp.most_recently_raised = w then nullptr else sp.most_recently_raised)
          ≠ nullptr →
          (if sp.most_recently_raised = w then nullptr else sp.most_recently_raised) ≠ w := by
        by_cases hm : sp.most_recently_raised = w
        · simp [hm]
        · simp only [hm, if_false]
          exact fun _ => hm
      generalize (if sp.most_recently_raised = w then nullptr else sp.most_recently_raised)
        = m1 at hm1 ⊢
      unfold topmost_client
      dsimp only
      by_cases hc : (m1 != nullptr && contains (sort_windows_by_layer sp.win (w :: rest)) m1
          && (sp.win m1).isShown && (sp.win w).on_current_desktop) = true
      · rw [if_pos hc]
        simp only [Bool.and_eq_true, bne_iff_ne, ne_eq] at hc
        exact hm1 hc.1.1.1
      · rw [if_neg hc]
        obtain ⟨lower, upper, hsort, hvu⟩ :=
          sort_windows_by_layer_cons sp.win w v rest hv hlay hact
        have hperm := sort_windows_by_layer_perm sp.win (w :: rest)
        have hcount : (sort_windows_by_layer sp.win (w :: rest)).count w = 1 := by
          rw [hperm.count_eq, List.count_cons_self, List.count_eq_zero.2 hwr]
        have hwu : w ∉ upper := by
          intro hmem
          rw [hsort, List.count_append, List.count_cons_self] at hcount
          have := List.count_pos_iff.2 hmem
          omega
        exact top_client_on_desktop_ne _ _ _ w v lower upper hsort hvu hwu hnv hw
    have hlead1 : (lead ((lower_window sp w).win w) != nullptr) = false := by
      rw [hsp1]
      simp [hlead]
    unfold raise_or_lower_client
    rw [if_neg hw, if_neg (fun h => hne h.symm)]
    unfold raise_window
    rw [if_neg hw]
    simp only [hlead1, Bool.false_eq_true, if_false]
  · rw [update_order_pre_stack, do_raise_pre_stack, move_to_back_snd, hsp1]
    simp only [List.mem_cons, true_or, if_true]
    rw [hpre, List.filter_cons]
    have h1 : rest.filter (fun x => x != w) = rest := by
      rw [List.filter_eq_self]
      intro x hx
      have : x ≠ w := fun h => hwr (h ▸ hx)
      simpa using this
    simp [h1]

/-- Witness for C6 (amended): in the example with the dock at the bottom of `pre_stack`, the
two calls on window `2` restore `pre_stack`. -/
theorem raise_or_lower_client_twice_witness :
    ∃ sp1 sp2,
      raise_or_lower_client 5 toggle_example 2 = some sp1
        ∧ sp1.pre_stack = 2 :: [3, 1]
        ∧ raise_or_lower_client 5 sp1 2 = some sp2
        ∧ sp2.pre_stack = toggle_example.pre_stack :=
  raise_or_lower_client_twice 5 toggle_example 2 1 [3, 1] (by decide) (by decide) (by decide)
    (by decide) (by decide) (by decide)
    ⟨by decide, by decide, by decide, by decide, by decide, by decide⟩ (by decide) (by decide)

/-! ### Recomputing the constrained order -/

/-- The buckets depend on the windows only through their layer, output and top lead. -/
theorem buckets_congr (heap1 heap2 : Nat → window) (list : List Nat) :
    ∀ m : Nat × Nat → Option layer,
      (∀ w ∈ list, (heap1 w).get_layer = (heap2 w).get_layer
        ∧ (heap1 w).central_output = (heap2 w).central_output
        ∧ (heap1 w).get_top_lead = (heap2 w).get_top_lead) →
      buckets heap1 m list = buckets heap2 m list := by
  induction list with
  | nil => intro m _; rfl
  | cons w rest ih =>
    intro m h
    obtain ⟨h1, h2, h3⟩ := h w (List.mem_cons_self _ _)
    have hb : bucket_layer heap1 m w = bucket_layer heap2 m w := by
      simp only [bucket_layer, h1, h2, h3]
    simp only [buckets, hb, h2, h3]
    rw [ih _ (fun x hx => h x (List.mem_cons_of_mem _ hx))]

/-- C18: `sort_windows_by_layer` is a function of the input list and of the layers, outputs and
top leads of its windows: two heaps that agree on these give the same result; recomputing the
constrained order a second time from the unchanged `pre_stack` gives the same space as
computing it once, and the recomputation leaves `pre_stack` as it is. -/
theorem sort_windows_by_layer_deterministic (heap1 heap2 : Nat → window) (sp : space)
    (list : List Nat)
    (h : ∀ w ∈ list, (heap1 w).get_layer = (heap2 w).get_layer
      ∧ (heap1 w).central_output = (heap2 w).central_output
      ∧ (heap1 w).get_top_lead = (heap2 w).get_top_lead) :
    sort_windows_by_layer heap1 list = sort_windows_by_layer heap2 list
      ∧ update_order (update_order sp) = update_order sp
      ∧ (update_order sp).stack = sort_windows_by_layer sp.win sp.pre_stack
      ∧ (update_order sp).pre_stack = sp.pre_stack := by
  refine ⟨?_, rfl, rfl, rfl⟩
  rw [sort_windows_by_layer_eq_grouped, sort_windows_by_layer_eq_grouped]
  unfold grouped bucketed
  rw [buckets_congr heap1 heap2 list _ h]

/-- Witness for C18: the heaps of two examples agree on the windows `1` and `2`. -/
theorem sort_windows_by_layer_deterministic_witness :
    sort_windows_by_layer dock_example.win [2, 1] = sort_windows_by_layer panel_example.win [2, 1]
      ∧ update_order (update_order dock_example) = update_order dock_example
      ∧ (update_order dock_example).stack
          = sort_windows_by_layer dock_example.win dock_example.pre_stack
      ∧ (update_order dock_example).pre_stack = dock_example.pre_stack :=
  sort_windows_by_layer_deterministic dock_example.win panel_example.win dock_example [2, 1]
    (by decide)

/-- With pairwise distinct keys the result is the stable insertion sort by the own layer. -/
theorem sort_windows_by_layer_eq_insertionSort (heap : Nat → window) (list : List Nat)
    (hkeys : list.Pairwise (fun a b => lead_key heap a ≠ lead_key heap b)) :
    sort_windows_by_layer heap list = list.insertionSort (layer_le heap) := by
  have hb : bucketed heap list = list.map (fun w => (w, (heap w).get_layer)) := by
    unfold bucketed
    rw [buckets_of_distinct_keys heap list _ (fun _ _ => rfl) hkeys]
    exact zip_map_tag _ list
  rw [sort_windows_by_layer_eq_grouped, grouped, hb, group_by_map_tag,
    group_windows_eq_insertionSort]

/-- Windows of one layer with pairwise distinct keys keep their order. -/
theorem sort_windows_by_layer_same_layer (heap : Nat → window) (list : List Nat) (k : layer)
    (hlayer : ∀ x ∈ list, (heap x).get_layer = k)
    (hkeys : list.Pairwise (fun a b => lead_key heap a ≠ lead_key heap b)) :
    sort_windows_by_layer heap list = list := by
  rw [sort_windows_by_layer_eq_insertionSort heap list hkeys]
  apply List.Sorted.insertionSort_eq
  apply List.pairwise_of_forall_mem_list
  intro a ha b hb
  simp only [layer_le, hlayer a ha, hlayer b hb, le_refl]

/-- C19: when the windows of `pre_stack` are all in one layer and no two of them share an
`(output, top lead)` key, then for a non-null window of `pre_stack` without transient leads
`raise_window`, which recomputes the order at its end, returns with a constrained stack that is
the other windows in the order they had in `pre_stack`, followed by the window. -/
theorem raise_window_same_layer (fuel : Nat) (sp : space) (w : Nat) (k : layer)
    (hw : w ≠ nullptr) (hmem : w ∈ sp.pre_stack)
    (hlayer : ∀ x ∈ sp.pre_stack, (sp.win x).get_layer = k)
    (hkeys : sp.pre_stack.Pairwise (fun a b => lead_key sp.win a ≠ lead_key sp.win b))
    (hleads : (sp.win w).leads = []) :
    ∃ sp2, raise_window fuel sp w = some sp2
      ∧ sp2.stack = sp.pre_stack.filter (fun x => x != w) ++ [w]
      ∧ sp2.stack.getLast? = some w
      ∧ sp2.stack.filter (fun x => x != w) = sp.pre_stack.filter (fun x => x != w) := by
  have hlead : (lead (sp.win w) != nullptr) = false := by
    simp [lead, hleads]
  have hrun : raise_window fuel sp w = some (update_order (do_raise sp w)) := by
    unfold raise_window
    rw [if_neg hw]
    simp only [hlead, Bool.false_eq_true, if_false]
  have hpre : (do_raise sp w).pre_stack = sp.pre_stack.filter (fun x => x != w) ++ [w] := by
    rw [do_raise_pre_stack, move_to_back_snd, if_pos hmem]
  have hsym : Symmetric (fun a b => lead_key sp.win a ≠ lead_key sp.win b) :=
    fun _ _ h => fun h2 => h h2.symm
  have hkeys2 : (sp.pre_stack.filter (fun x => x != w) ++ [w]).Pairwise
      (fun a b => lead_key sp.win a ≠ lead_key sp.win b) := by
    rw [List.pairwise_append]
    refine ⟨hkeys.filter _, List.pairwise_singleton _ _, ?_⟩
    intro a ha b hb
    rw [List.mem_singleton] at hb
    subst hb
    have ha2 := List.mem_filter.1 ha
    have hne : a ≠ b := by simpa using ha2.2
    exact hkeys.forall hsym ha2.1 hmem hne
  have hlayer2 : ∀ x ∈ sp.pre_stack.filter (fun x => x != w) ++ [w],
      (sp.win x).get_layer = k := by
    intro x hx
    rcases List.mem_append.1 hx with h | h
    · exact hlayer x (List.mem_filter.1 h).1
    · rw [List.mem_singleton] at h
      exact h ▸ hlayer w hmem
  have hstack : (update_order (do_raise sp w)).stack
      = sp.pre_stack.filter (fun x => x != w) ++ [w] := by
    show sort_windows_by_layer (do_raise sp w).win (do_raise sp w).pre_stack = _
    rw [do_raise_win, hpre]
    exact sort_windows_by_layer_same_layer sp.win _ k hlayer2 hkeys2
  refine ⟨_, hrun, hstack, ?_, ?_⟩
  · rw [hstack]
    simp
  · rw [hstack, List.filter_append, List.filter_filter]
    simp

/-- Witness for C19: the panel that windows can cover and the plain window are both in layer
`normal`; once the panel is raised the stack `[1, 2]` becomes `[2, 1]`. -/
theorem raise_window_same_layer_witness :
    panel_example.stack = [1, 2]
      ∧ ∃ sp2, raise_window 5 panel_example 1 = some sp2
        ∧ sp2.stack = panel_example.pre_stack.filter (fun x => x != 1) ++ [1]
        ∧ sp2.stack.getLast? = some 1
        ∧ sp2.stack.filter (fun x => x != 1) = panel_example.pre_stack.filter (fun x => x != 1) :=
  ⟨rfl, raise_window_same_layer 5 panel_example 1 layer.normal (by decide) (by decide)
    (by decide) (by decide) (by decide)⟩

/-! ### `restack` below the windows of an application -/

/-- C20: the code at a failing input. The windows `1` and `2` have a control object, are in the
layer of window `3` and belong to the application of `under`, which is window `2`; window `3`
belongs to another application. After `restack` without `force`, window `3` is directly below
window `2`, the topmost window of the application, and above window `1`. -/
theorem restack_not_below_all :
    belong_to_same_client application_example.win 2 3 = false
      ∧ belong_to_same_client application_example.win 2 1 = true
      ∧ (application_example.win 1).control = true
      ∧ (application_example.win 1).get_layer = (application_example.win 3).get_layer
      ∧ application_example.pre_stack = [1, 2, 3]
      ∧ restack_under application_example 3 2 false = 2
      ∧ (restack application_example 3 2 false).pre_stack = [1, 3, 2] := by
  decide

/-! ### The EGL backend -/

/-- C16: for every rendered region, `endRenderingFrame` with an empty damaged region swaps no
buffer, sets the last damage to the empty region and the buffer age to 1 and leaves the damage
history and the flags of the backend unchanged. -/
theorem endRenderingFrame_empty_damage (env : egl_platform) (b : EglWaylandBackend)
    (renderedRegion : QRegion) :
    (b.endRenderingFrame env renderedRegion ∅).swapped = b.swapped
      ∧ (b.endRenderingFrame env renderedRegion ∅).lastDamage = ∅
      ∧ (b.endRenderingFrame env renderedRegion ∅).m_bufferAge = 1
      ∧ (b.endRenderingFrame env renderedRegion ∅).damageHistory = b.damageHistory
      ∧ (b.endRenderingFrame env renderedRegion ∅).supportsBufferAge = b.supportsBufferAge
      ∧ (b.endRenderingFrame env renderedRegion ∅).blocksForRetrace = b.blocksForRetrace := by
  simp [EglWaylandBackend.endRenderingFrame]

/-- C15, as the claim states it, fails: the backend is as constructed, nothing was presented and
the buffer age is 0, yet without support for the buffer age `prepareRenderingFrame` returns the
empty region, which is a proper part of the screen region. -/
theorem prepareRenderingFrame_age_zero_counterexample :
    fresh_backend.m_bufferAge = 0
      ∧ fresh_backend.swapped = 0
      ∧ (fresh_backend.prepareRenderingFrame small_platform).1 = ∅
      ∧ screen_region small_platform.screens_size ≠ ∅ := by
  decide

/-- C15, amended: for a backend that supports the buffer age, `prepareRenderingFrame` returns the
full screen region whenever the buffer age is 0 after the pending frame, if any, was presented; in
particular when no frame is pending and the buffer age is 0 on entry, as it is after
`screenGeometryChanged`. -/
theorem prepareRenderingFrame_age_zero (env : egl_platform) (b : EglWaylandBackend)
    (hsupport : b.supportsBufferAge = true) :
    ((b.prepareRenderingFrame env).2.m_bufferAge = 0 →
        (b.prepareRenderingFrame env).1 = screen_region env.screens_size)
      ∧ (b.lastDamage = ∅ → b.m_bufferAge = 0 →
          (b.prepareRenderingFrame env).1 = screen_region env.screens_size)
      ∧ b.screenGeometryChanged.m_bufferAge = 0
      ∧ (b.lastDamage = ∅ →
          (b.screenGeometryChanged.prepareRenderingFrame env).1
            = screen_region env.screens_size) := by
  have hs : (b.prepareRenderingFrame env).2.supportsBufferAge = true := by
    unfold EglWaylandBackend.prepareRenderingFrame EglWaylandBackend.present
    by_cases h : b.lastDamage = ∅ <;> simp [h, hsupport]
  have h1 : (b.prepareRenderingFrame env).2.m_bufferAge = 0 →
      (b.prepareRenderingFrame env).1 = screen_region env.screens_size := by
    intro h0
    have hrep : (b.prepareRenderingFrame env).1
        = accumulatedDamageHistory env (b.prepareRenderingFrame env).2.damageHistory
            (b.prepareRenderingFrame env).2.m_bufferAge := by
      unfold EglWaylandBackend.prepareRenderingFrame at hs ⊢
      simp only [] at hs ⊢
      rw [if_pos hs]
    rw [hrep, h0]
    simp [accumulatedDamageHistory]
  refine ⟨h1, ?_, rfl, ?_⟩
  · intro hd h0
    apply h1
    unfold EglWaylandBackend.prepareRenderingFrame
    simp [hd, h0]
  · intro hd
    unfold EglWaylandBackend.prepareRenderingFrame EglWaylandBackend.screenGeometryChanged
    simp [hd, hsupport, accumulatedDamageHistory]

/-- Witness for C15 (amended): the fresh backend with support for the buffer age returns the
full screen region. -/
theorem prepareRenderingFrame_age_zero_witness :
    ({ fresh_backend with supportsBufferAge := true }.prepareRenderingFrame small_platform).1
      = screen_region small_platform.screens_size :=
  (prepareRenderingFrame_age_zero small_platform { fresh_backend with supportsBufferAge := true }
    rfl).2.1 rfl rfl

/-- C17, as the claim states it, fails: on a platform that blocks for retrace, a frame with the
damaged region of one pixel and an empty rendered region is presented neither by
`endRenderingFrame` nor by the following `prepareRenderingFrame`. -/
theorem damaged_frame_not_presented_counterexample :
    fresh_backend.blocksForRetrace = true
      ∧ ({(0, 0)} : QRegion) ≠ ∅
      ∧ (fresh_backend.endRenderingFrame small_platform ∅ {(0, 0)}).swapped
          = fresh_backend.swapped
      ∧ ((fresh_backend.endRenderingFrame small_platform ∅
            {(0, 0)}).prepareRenderingFrame small_platform).2.swapped
          = fresh_backend.swapped := by
  decide

/-- C17, amended: a frame ended by `endRenderingFrame` with a non-empty damaged region is
presented exactly once, inside `endRenderingFrame` when the platform does not block for retrace,
after which the last damage is empty and the following `prepareRenderingFrame` swaps no buffer,
and by the next `prepareRenderingFrame`, and not again by the one after it, when the platform
blocks for retrace and the rendered region is not empty; with support for the buffer age the
damaged region becomes the newest entry of the damage history in both cases. -/
theorem damaged_frame_presented_once (env : egl_platform) (b : EglWaylandBackend)
    (renderedRegion damagedRegion : QRegion) (hdamaged : damagedRegion ≠ ∅) :
    (b.blocksForRetrace = false →
        (b.endRenderingFrame env renderedRegion damagedRegion).swapped = b.swapped + 1
          ∧ (b.endRenderingFrame env renderedRegion damagedRegion).lastDamage = ∅
          ∧ ((b.endRenderingFrame env renderedRegion damagedRegion).prepareRenderingFrame
              env).2.swapped = b.swapped + 1)
      ∧ (b.blocksForRetrace = true → renderedRegion ≠ ∅ →
          (b.endRenderingFrame env renderedRegion damagedRegion).swapped = b.swapped
            ∧ ((b.endRenderingFrame env renderedRegion damagedRegion).prepareRenderingFrame
                env).2.swapped = b.swapped + 1
            ∧ (((b.endRenderingFrame env renderedRegion damagedRegion).prepareRenderingFrame
                env).2.prepareRenderingFrame env).2.swapped = b.swapped + 1)
      ∧ (b.supportsBufferAge = true →
          (b.endRenderingFrame env renderedRegion damagedRegion).damageHistory
              = addToDamageHistory env damagedRegion b.damageHistory
            ∧ (b.endRenderingFrame env renderedRegion damagedRegion).damageHistory.head?
              = some damagedRegion) := by
  refine ⟨?_, ?_, ?_⟩
  · intro hblock
    unfold EglWaylandBackend.prepareRenderingFrame EglWaylandBackend.endRenderingFrame
      EglWaylandBackend.present
    by_cases hs : b.supportsBufferAge = true <;> simp [hdamaged, hblock, hs]
  · intro hblock hrendered
    unfold EglWaylandBackend.prepareRenderingFrame EglWaylandBackend.endRenderingFrame
      EglWaylandBackend.present
    by_cases hs : b.supportsBufferAge = true <;> simp [hdamaged, hblock, hs, hrendered]
  · intro hs
    unfold EglWaylandBackend.endRenderingFrame EglWaylandBackend.present
    by_cases hblock : b.blocksForRetrace = true <;>
      simp [hdamaged, hblock, hs, addToDamageHistory]

/-- Witness for C17 (amended): with a rendered region the blocked frame of the fresh backend is
presented by the next `prepareRenderingFrame`. -/
theorem damaged_frame_presented_once_witness :
    ((fresh_backend.endRenderingFrame small_platform {(0, 0)}
        {(0, 0)}).prepareRenderingFrame small_platform).2.swapped = fresh_backend.swapped + 1 :=
  ((damaged_frame_presented_once small_platform fresh_backend {(0, 0)} {(0, 0)}
    (by decide)).2.1 rfl (by decide)).2.1

/-! ### The resize formulas of `move_resize` -/

/-- C11: for each of the eight resize contacts the candidate geometry exists, takes each edge
the contact touches from the pointer (left and top from the global position minus `offset`,
right and bottom from the global position plus `inverted_offset`) and keeps the other edges of
the initial geometry; the single-edge contacts set the fixed dimension mode, the corner contacts
leave the mode `any`; for the contact `top_left` the result is the rectangle from the global
position minus `offset` to the initial bottom right corner, and the initial geometry
`(0, 0, 100, 100)` with the top left corner dragged by `(10, 10)` gives `(10, 10, 90, 90)`. -/
theorem resize_candidate_edges (mov_res : move_resize_op) (globalPos : QPoint) :
    (mov_res.contact ≠ position.center →
        ∃ geometry sizeMode, resize_candidate mov_res globalPos = some (geometry, sizeMode)
          ∧ geometry.left = (if mov_res.contact.touches_left then globalPos.x - mov_res.offset.x
              else mov_res.initial_geometry.left)
          ∧ geometry.top = (if mov_res.contact.touches_top then globalPos.y - mov_res.offset.y
              else mov_res.initial_geometry.top)
          ∧ geometry.right = (if mov_res.contact.touches_right
              then globalPos.x + mov_res.inverted_offset.x else mov_res.initial_geometry.right)
          ∧ geometry.bottom = (if mov_res.contact.touches_bottom
              then globalPos.y + mov_res.inverted_offset.y else mov_res.initial_geometry.bottom)
          ∧ sizeMode = (match mov_res.contact with
              | position.top | position.bottom => size_mode.fixed_height
              | position.left | position.right => size_mode.fixed_width
              | _ => size_mode.any))
      ∧ (mov_res.contact = position.top_left →
          resize_candidate mov_res globalPos
            = some (QRect.of_points (globalPos.sub mov_res.offset)
                mov_res.initial_geometry.bottomRight, size_mode.any))
      ∧ resize_candidate top_left_drag ⟨13, 14⟩
          = some (QRect.of_xywh 10 10 90 90, size_mode.any) := by
  refine ⟨?_, ?_, by decide⟩
  · intro hcontact
    unfold resize_candidate
    cases hc : mov_res.contact <;>
      first
      | exact absurd hc hcontact
      | exact ⟨_, _, rfl, rfl, rfl, rfl, rfl, rfl⟩
  · intro hc
    unfold resize_candidate
    rw [hc]
    rfl

/-- Witness for C11: the drag of the top left corner. -/
theorem resize_candidate_edges_witness :
    resize_candidate top_left_drag ⟨13, 14⟩
      = some (QRect.of_points ((⟨13, 14⟩ : QPoint).sub top_left_drag.offset)
          top_left_drag.initial_geometry.bottomRight, size_mode.any) :=
  (resize_candidate_edges top_left_drag ⟨13, 14⟩).2.1 rfl

/-! ### Quick tiling: the next screen -/

theorem hop_candidate_iff (screens : List QRect) ( to_left : Bool) (cur i : Nat) :
    hop_candidate screens to_left cur i = true ↔
      i < screens.length ∧ ¬ (i = cur)
        ∧ (screens.getD i QRect.null).bottom > (screens.getD cur QRect.null).top
        ∧ (screens.getD i QRect.null).top < (screens.getD cur QRect.null).bottom
        ∧ (if to_left then
            (screens.getD i QRect.null).center.x < (screens.getD cur QRect.null).center.x
          else
            (screens.getD i QRect.null).center.x > (screens.getD cur QRect.null).center.x) := by
  unfold hop_candidate
  cases to_left <;>
    simp only [Bool.and_eq_true, decide_eq_true_eq, bne_iff_ne, ne_eq, if_true, if_false,
      Bool.false_eq_true, and_assoc]

theorem next_screen_fold (screens : List QRect) (mode : quicktiles) (cur : Nat) ( to_left : Bool)
    (hside : mode.and quicktiles.horizontal
      = if to_left then quicktiles.left else quicktiles.right)
    (k : Nat) (hk : k ≤ screens.length) :
    ((List.range k).foldl (next_screen_step screens mode cur) cur = cur
        ∧ ∀ i, i < k → hop_candidate screens to_left cur i = false)
      ∨ ((List.range k).foldl (next_screen_step screens mode cur) cur < k
        ∧ hop_candidate screens to_left cur
            ((List.range k).foldl (next_screen_step screens mode cur) cur) = true
        ∧ ∀ i, i < k → hop_candidate screens to_left cur i = true →
            (if to_left then
                (screens.getD i QRect.null).center.x
                  ≤ (screens.getD ((List.range k).foldl (next_screen_step screens mode cur) cur)
                      QRect.null).center.x
              else
                (screens.getD ((List.range k).foldl (next_screen_step screens mode cur) cur)
                      QRect.null).center.x
                  ≤ (screens.getD i QRect.null).center.x)
            ∧ ((screens.getD i QRect.null).center.x
                  = (screens.getD ((List.range k).foldl (next_screen_step screens mode cur) cur)
                      QRect.null).center.x
                → (List.range k).foldl (next_screen_step screens mode cur) cur ≤ i)) := by
  induction k with
  | zero => left; simp
  | succ k ih =>
    have ih := ih (by omega)
    rw [List.range_succ, List.foldl_append]
    simp only [List.foldl_cons, List.foldl_nil]
    generalize (List.range k).foldl (next_screen_step screens mode cur) cur = nx at ih ⊢
    have hkl : k < screens.length := by omega
    have hlt : ∀ i, i < k + 1 → i < k ∨ i = k := fun i h => by omega
    cases to_left
    · -- to the right
      have hne : ¬ (quicktiles.right = quicktiles.left) := by decide
      simp only [Bool.eq_false_iff, ne_eq, hop_candidate_iff, Bool.false_eq_true, if_false] at ih ⊢
      simp only [Bool.false_eq_true, if_false] at hside
      unfold next_screen_step
      simp only [hside, hne, if_false, if_true, beq_iff_eq, Bool.or_eq_true, decide_eq_true_eq,
        Bool.and_eq_true, bne_iff_ne, ne_eq]
      rcases ih with ⟨hnx, hno⟩ | ⟨hnx, hc, hall⟩
      · subst hnx
        split_ifs with h1 h2 h3
        · left
          refine ⟨rfl, fun i hi hci => ?_⟩
          rcases hlt i hi with h | h
          · exact hno i h hci
          · subst h; exact hci.2.1 h1
        · left
          refine ⟨rfl, fun i hi hci => ?_⟩
          rcases hlt i hi with h | h
          · exact hno i h hci
          · subst h
            obtain ⟨_, _, hb, ht, _⟩ := hci
            rcases h2 with h | h <;> omega
        · left
          refine ⟨rfl, fun i hi hci => ?_⟩
          rcases hlt i hi with h | h
          · exact hno i h hci
          · subst h
            obtain ⟨_, _, _, _, hx⟩ := hci
            rcases h3 with h | h
            · omega
            · exact h.1 rfl
        · right
          push_neg at h2 h3
          refine ⟨by omega, ⟨hkl, h1, by omega, by omega, by omega⟩, fun i hi hci => ?_⟩
          rcases hlt i hi with h | h
          · exact absurd hci (hno i h)
          · subst h
            exact ⟨le_refl _, fun _ => le_refl _⟩
      · have hcn : ¬ (cur = nx) := fun h => hc.2.1 h.symm
        split_ifs with h1 h2 h3
        · right
          refine ⟨by omega, hc, fun i hi hci => ?_⟩
          rcases hlt i hi with h | h
          · exact hall i h hci
          · subst h; exact absurd h1 hci.2.1
        · right
          refine ⟨by omega, hc, fun i hi hci => ?_⟩
          rcases hlt i hi with h | h
          · exact hall i h hci
          · subst h
            obtain ⟨_, _, hb, ht, _⟩ := hci
            rcases h2 with h | h <;> omega
        · right
          refine ⟨by omega, hc, fun i hi hci => ?_⟩
          rcases hlt i hi with h | h
          · exact hall i h hci
          · subst h
            obtain ⟨_, _, _, _, hx⟩ := hci
            rcases h3 with h | h
            · omega
            · exact ⟨h.2, fun _ => by omega⟩
        · right
          push_neg at h2 h3
          have h3b := h3.2 hcn
          refine ⟨by omega, ⟨hkl, h1, by omega, by omega, by omega⟩, fun i hi hci => ?_⟩
          rcases hlt i hi with h | h
          · have := hall i h hci
            exact ⟨by omega, fun he => by omega⟩
          · subst h
            exact ⟨le_refl _, fun _ => le_refl _⟩
    · -- to the left
      simp only [Bool.eq_false_iff, ne_eq, hop_candidate_iff, if_true] at ih ⊢
      simp only [if_true] at hside
      unfold next_screen_step
      simp only [hside, if_true, beq_iff_eq, Bool.or_eq_true, decide_eq_true_eq,
        Bool.and_eq_true, bne_iff_ne, ne_eq]
      rcases ih with ⟨hnx, hno⟩ | ⟨hnx, hc, hall⟩
      · subst hnx
        split_ifs with h1 h2 h3
        · left
          refine ⟨rfl, fun i hi hci => ?_⟩
          rcases hlt i hi with h | h
          · exact hno i h hci
          · subst h; exact hci.2.1 h1
        · left
          refine ⟨rfl, fun i hi hci => ?_⟩
          rcases hlt i hi with h | h
          · exact hno i h hci
          · subst h
            obtain ⟨_, _, hb, ht, _⟩ := hci
            rcases h2 with h | h <;> omega
        · left
          refine ⟨rfl, fun i hi hci => ?_⟩
          rcases hlt i hi with h | h
          · exact hno i h hci
          · subst h
            obtain ⟨_, _, _, _, hx⟩ := hci
            rcases h3 with h | h
            · omega
            · exact h.1 rfl
        · right
          push_neg at h2 h3
          refine ⟨by omega, ⟨hkl, h1, by omega, by omega, by omega⟩, fun i hi hci => ?_⟩
          rcases hlt i hi with h | h
          · exact absurd hci (hno i h)
          · subst h
            exact ⟨le_refl _, fun _ => le_refl _⟩
      · have hcn : ¬ (cur = nx) := fun h => hc.2.1 h.symm
        split_ifs with h1 h2 h3
        · right
          refine ⟨by omega, hc, fun i hi hci => ?_⟩
          rcases hlt i hi with h | h
          · exact hall i h hci
          · subst h; exact absurd h1 hci.2.1
        · right
          refine ⟨by omega, hc, fun i hi hci => ?_⟩
          rcases hlt i hi with h | h
          · exact hall i h hci
          · subst h
            obtain ⟨_, _, hb, ht, _⟩ := hci
            rcases h2 with h | h <;> omega
        · right
          refine ⟨by omega, hc, fun i hi hci => ?_⟩
          rcases hlt i hi with h | h
          · exact hall i h hci
          · subst h
            obtain ⟨_, _, _, _, hx⟩ := hci
            rcases h3 with h | h
            · omega
            · exact ⟨h.2, fun _ => by omega⟩
        · right
          push_neg at h2 h3
          have h3b := h3.2 hcn
          refine ⟨by omega, ⟨hkl, h1, by omega, by omega, by omega⟩, fun i hi hci => ?_⟩
          rcases hlt i hi with h | h
          · have := hall i h hci
            exact ⟨by omega, fun he => by omega⟩
          · subst h
            exact ⟨le_refl _, fun _ => le_refl _⟩


theorem tile_mode_facts (mode : quicktiles) ( to_left : Bool)
    (hside : mode.and quicktiles.horizontal
      = if to_left then quicktiles.left else quicktiles.right)
    (hvert : (mode.to_top && mode.to_bottom) = false) :
    ¬ (mode = quicktiles.maximize)
      ∧ ¬ (mode.and quicktiles.horizontal = quicktiles.horizontal)
      ∧ ¬ (mode.and quicktiles.vertical = quicktiles.vertical)
      ∧ ¬ (mode = quicktiles.none)
      ∧ ¬ (mode.and quicktiles.horizontal = quicktiles.none)
      ∧ (mode.not.and quicktiles.horizontal).or (mode.and quicktiles.vertical)
          = ⟨mode.to_right, mode.to_left, mode.to_top, mode.to_bottom⟩
      ∧ ¬ ((⟨mode.to_right, mode.to_left, mode.to_top, mode.to_bottom⟩ : quicktiles)
          = quicktiles.none) := by
  obtain ⟨l, r, t, b⟩ := mode
  revert hside hvert
  cases to_left <;> cases l <;> cases r <;> cases t <;> cases b <;> decide

theorem check_workspace_position_restore (env : move_env) (win : Win) (oldGeometry : QRect)
    (oldDesktop : Int) (oldClientGeometry : QRect)
    (hmax : win.maximizeMode = maximize_mode.restore) :
    ∃ g, check_workspace_position env win oldGeometry oldDesktop oldClientGeometry
      = win.setFrameGeometry g := by
  have hself : win = win.setFrameGeometry win.frameGeometry := rfl
  unfold check_workspace_position
  simp only [hmax, bne_self_eq_false, Bool.false_eq_true, if_false]
  split_ifs <;> first | exact ⟨_, hself⟩ | exact ⟨_, rfl⟩

theorem next_screen_cases (screens : List QRect) (mode : quicktiles) (cur : Nat)
    ( to_left : Bool)
    (hside : mode.and quicktiles.horizontal
      = if to_left then quicktiles.left else quicktiles.right) :
    (next_screen screens mode cur = cur
        ∧ ∀ i, hop_candidate screens to_left cur i = false)
      ∨ (hop_candidate screens to_left cur (next_screen screens mode cur) = true
        ∧ ∀ i, hop_candidate screens to_left cur i = true →
            (if to_left then
                (screens.getD i QRect.null).center.x
                  ≤ (screens.getD (next_screen screens mode cur) QRect.null).center.x
              else
                (screens.getD (next_screen screens mode cur) QRect.null).center.x
                  ≤ (screens.getD i QRect.null).center.x)
            ∧ ((screens.getD i QRect.null).center.x
                  = (screens.getD (next_screen screens mode cur) QRect.null).center.x
                → next_screen screens mode cur ≤ i)) := by
  have hlen : ∀ i, hop_candidate screens to_left cur i = true → i < screens.length :=
    fun i h => ((hop_candidate_iff screens to_left cur i).1 h).1
  rcases next_screen_fold screens mode cur to_left hside screens.length le_rfl with
    ⟨h1, h2⟩ | ⟨_, h2, h3⟩
  · left
    refine ⟨h1, fun i => ?_⟩
    by_contra hc
    rw [Bool.not_eq_false] at hc
    have := h2 i (hlen i hc)
    rw [hc] at this
    exact Bool.noConfusion this
  · right
    exact ⟨h2, fun i hi => h3 i (hlen i hi) hi⟩

/-- C14 (amended): when `set_quicktile_mode` is called for a resizable, not maximized window
with the mode it is already tiled in, a mode to the left or to the right with at most one
vertical side, the loop's `next_screen` is, among the screens other than the current one whose
bottom row lies strictly below the current screen's top row and whose top row lies strictly
above the current screen's bottom row and whose centre x lies strictly on the requested side of
the current screen's centre x, the one whose centre x is nearest to the current screen's (the
first of them in case of a tie). If there is none, the mode becomes none; otherwise the mode
becomes the one with the horizontal side swapped and the vertical part kept, and the frame
geometry is the tile geometry on the desktop of the window for the centre of the next screen,
computed for the window moved by the offset between the two screens with the swapped mode as
its electric mode. -/
theorem set_quicktile_mode_next_screen (env : move_env) (win : Win) (mode : quicktiles)
    (keyboard to_left : Bool)
    (hres : win.isResizable = true)
    (hmax : win.maximizeMode = maximize_mode.restore)
    (htiled : win.quicktiling = mode)
    (hside : mode.and quicktiles.horizontal
      = if to_left then quicktiles.left else quicktiles.right)
    (hvert : (mode.to_top && mode.to_bottom) = false) :
    ((∀ i, hop_candidate env.screens to_left win.screen i = false) →
        (set_quicktile_mode env win mode keyboard).quicktiling = quicktiles.none)
      ∧ ((∃ i, hop_candidate env.screens to_left win.screen i = true) →
        hop_candidate env.screens to_left win.screen
            (next_screen env.screens mode win.screen) = true
          ∧ (∀ j, hop_candidate env.screens to_left win.screen j = true →
              |(env.screens.getD (next_screen env.screens mode win.screen) QRect.null).center.x
                  - (env.screens.getD win.screen QRect.null).center.x|
                ≤ |(env.screens.getD j QRect.null).center.x
                  - (env.screens.getD win.screen QRect.null).center.x|
              ∧ ((env.screens.getD j QRect.null).center.x
                  = (env.screens.getD (next_screen env.screens mode win.screen)
                      QRect.null).center.x
                → next_screen env.screens mode win.screen ≤ j))
          ∧ (set_quicktile_mode env win mode keyboard).quicktiling
              = ⟨mode.to_right, mode.to_left, mode.to_top, mode.to_bottom⟩
          ∧ ∃ moved : Win,
              moved.frameGeometry
                  = win.geometryRestore.translated
                      ((env.screens.getD (next_screen env.screens mode win.screen)
                          QRect.null).topLeft.sub
                        (env.screens.getD win.screen QRect.null).topLeft)
                ∧ moved.electric = ⟨mode.to_right, mode.to_left, mode.to_top, mode.to_bottom⟩
                ∧ moved.desktop = win.desktop
                ∧ (set_quicktile_mode env win mode keyboard).frameGeometry
                  = env.electric_border_maximize_geometry moved
                      (env.screens.getD (next_screen env.screens mode win.screen)
                        QRect.null).center
                      win.desktop) := by
  obtain ⟨hm1, hm2, hm3, hm4, hm5, hsw, hm6⟩ := tile_mode_facts mode to_left hside hvert
  have hcases := next_screen_cases env.screens mode win.screen to_left hside
  constructor
  · intro hnone
    have hn : next_screen env.screens mode win.screen = win.screen := by
      rcases hcases with ⟨h, _⟩ | ⟨h, _⟩
      · exact h
      · rw [hnone] at h; exact Bool.noConfusion h
    have hex : ∃ w : Win, w.maximizeMode = maximize_mode.restore
        ∧ w.quicktiling = quicktiles.none
        ∧ set_quicktile_mode env win mode keyboard
          = check_workspace_position env w QRect.null (-2) QRect.null := by
      unfold set_quicktile_mode set_quicktile_mode_tile
      simp only [hres, Bool.not_true, Bool.false_eq_true, if_false, hm1, hm2, hm3, hmax, ne_eq,
        not_true_eq_false, hm4, not_false_eq_true, if_true, htiled, hn, set_electric]
      refine ⟨_, ?_, ?_, rfl⟩
      · unfold Win.setFrameGeometry
        split_ifs <;> rfl
      · unfold Win.setFrameGeometry
        split_ifs <;> rfl
    obtain ⟨w, hw1, hw2, hw3⟩ := hex
    obtain ⟨g, hg⟩ := check_workspace_position_restore env w QRect.null (-2) QRect.null hw1
    rw [hw3, hg]
    exact hw2
  · rintro ⟨i, hi⟩
    rcases hcases with ⟨_, h⟩ | ⟨hc, hall⟩
    · rw [h i] at hi; exact Bool.noConfusion hi
    · have hcn := (hop_candidate_iff _ _ _ _).1 hc
      have hn : ¬ (next_screen env.screens mode win.screen = win.screen) := hcn.2.1
      have hex : ∃ moved : Win,
          moved.frameGeometry
              = win.geometryRestore.translated
                  ((env.screens.getD (next_screen env.screens mode win.screen)
                      QRect.null).topLeft.sub
                    (env.screens.getD win.screen QRect.null).topLeft)
            ∧ moved.electric = ⟨mode.to_right, mode.to_left, mode.to_top, mode.to_bottom⟩
            ∧ moved.desktop = win.desktop
            ∧ set_quicktile_mode env win mode keyboard
              = { moved.setFrameGeometry
                    (env.electric_border_maximize_geometry moved
                      (env.screens.getD (next_screen env.screens mode win.screen)
                        QRect.null).center
                      win.desktop) with
                  quicktiling := ⟨mode.to_right, mode.to_left, mode.to_top, mode.to_bottom⟩ } := by
        unfold set_quicktile_mode set_quicktile_mode_tile
        simp only [hres, Bool.not_true, Bool.false_eq_true, if_false, hm1, hm2, hm3, hmax, ne_eq,
          not_true_eq_false, hm4, not_false_eq_true, if_true, htiled, hn, set_electric, hm5, hsw,
          hm6]
        refine ⟨{ win with
            frameGeometry := win.geometryRestore.translated
              ((env.screens.getD (next_screen env.screens mode win.screen) QRect.null).topLeft.sub
                (env.screens.getD win.screen QRect.null).topLeft)
            electric := ⟨mode.to_right, mode.to_left, mode.to_top, mode.to_bottom⟩
            quicktiling := quicktiles.none }, rfl, rfl, rfl, ?_⟩
        simp only [Win.setFrameGeometry, hres, hmax]
      obtain ⟨moved, hmv1, hmv2, hmv3, hmv4⟩ := hex
      refine ⟨hc, fun j hj => ?_, ?_, ?_⟩
      · have hjn := (hop_candidate_iff _ _ _ _).1 hj
        obtain ⟨h1, h2⟩ := hall j hj
        refine ⟨?_, h2⟩
        cases to_left
        · simp only [Bool.false_eq_true, if_false] at hcn hjn h1
          rw [abs_of_pos (by omega), abs_of_pos (by omega)]
          omega
        · simp only [if_true] at hcn hjn h1
          rw [abs_of_neg (by omega), abs_of_neg (by omega)]
          omega
      · rw [hmv4]
      · refine ⟨moved, hmv1, hmv2, hmv3, ?_⟩
        rw [hmv4]
        rfl

/-- C14, witness: with three screens in a row, the window tiled to the left of the middle
screen hops to the screen on the left and is tiled to its right. -/
theorem set_quicktile_mode_next_screen_witness :
    (∃ i, hop_candidate row_screens.screens true tiled_left.screen i = true)
      ∧ next_screen row_screens.screens quicktiles.left tiled_left.screen = 1
      ∧ (set_quicktile_mode row_screens tiled_left quicktiles.left true).quicktiling
          = quicktiles.right :=
  ⟨⟨1, by decide⟩, by decide,
    ((set_quicktile_mode_next_screen row_screens tiled_left quicktiles.left true true
      (by decide) (by decide) (by decide) (by decide) (by decide)).2 ⟨1, by decide⟩).2.2.1⟩

/-- C14, counterexample: the second screen lies to the lower left of the first one and shares
its top row (row 99) with the bottom row of the first one, so their vertical extents overlap
and its centre lies strictly to the left; yet the window tiled to the left of the first screen
does not hop to it, and the mode becomes none. -/
theorem set_quicktile_mode_row_overlap_counterexample :
    (1 ≠ tiled_left.screen
        ∧ (corner_screens.screens.getD 1 QRect.null).top
            ≤ (corner_screens.screens.getD 0 QRect.null).bottom
        ∧ (corner_screens.screens.getD 0 QRect.null).top
            ≤ (corner_screens.screens.getD 1 QRect.null).bottom
        ∧ (corner_screens.screens.getD 1 QRect.null).center.x
            < (corner_screens.screens.getD 0 QRect.null).center.x)
      ∧ (set_quicktile_mode corner_screens tiled_left quicktiles.left true).quicktiling
          = quicktiles.none := by
  decide


/-! ### Quick tiling: tiling twice to the same side -/

theorem keep_touching_edges_same (env : move_env) (win : Win) (g : QRect) (m : strut_maxima)
    (screenArea : QRect) :
    keep_touching_edges env win g
      (g.adjusted win.left_border win.top_border (-win.right_border) (-win.bottom_border)) m g m
      screenArea = g := by
  have hsl : (decide (g.x ≥ m.leftMax) && decide (g.x < m.leftMax)) = false := by
    rw [Bool.and_eq_false_iff, decide_eq_false_iff_not, decide_eq_false_iff_not]; omega
  have hst : (decide (g.y ≥ m.topMax) && decide (g.y < m.topMax)) = false := by
    rw [Bool.and_eq_false_iff, decide_eq_false_iff_not, decide_eq_false_iff_not]; omega
  have hsr : (decide (g.right ≤ m.rightMax - 1) && decide (g.right > m.rightMax - 1)) = false := by
    rw [Bool.and_eq_false_iff, decide_eq_false_iff_not, decide_eq_false_iff_not]; omega
  have hsb :
      (decide (g.bottom ≤ m.bottomMax - 1) && decide (g.bottom > m.bottomMax - 1)) = false := by
    rw [Bool.and_eq_false_iff, decide_eq_false_iff_not, decide_eq_false_iff_not]; omega
  have hkl : ∀ (a : Int) (b : Int),
      (if g.x = m.leftMax then (decide (g.x ≠ m.leftMax), (0 : Int))
        else if a = m.leftMax ∧ a ≠ m.leftMax then (true, b) else (false, 0)) = (false, 0) := by
    intro a b
    split_ifs with h1 h2
    · simp [h1]
    · exact absurd h2.1 h2.2
    · rfl
  have hkt : ∀ (a : Int) (b : Int),
      (if g.y = m.topMax then (decide (g.y ≠ m.topMax), (0 : Int))
        else if a = m.topMax ∧ a ≠ m.topMax then (true, b) else (false, 0)) = (false, 0) := by
    intro a b
    split_ifs with h1 h2
    · simp [h1]
    · exact absurd h2.1 h2.2
    · rfl
  have hkr : ∀ (a : Int) (b : Int),
      (if g.right = m.rightMax - 1 then (decide (g.right ≠ m.rightMax - 1), (0 : Int))
        else if a = m.rightMax - 1 ∧ a ≠ m.rightMax - 1 then (true, b) else (false, 0))
        = (false, 0) := by
    intro a b
    split_ifs with h1 h2
    · simp [h1]
    · exact absurd h2.1 h2.2
    · rfl
  have hkb : ∀ (a : Int) (b : Int),
      (if g.bottom = m.bottomMax - 1 then (decide (g.bottom ≠ m.bottomMax - 1), (0 : Int))
        else if a = m.bottomMax - 1 ∧ a ≠ m.bottomMax - 1 then (true, b) else (false, 0))
        = (false, 0) := by
    intro a b
    split_ifs with h1 h2
    · simp [h1]
    · exact absurd h2.1 h2.2
    · rfl
  have hl1 : ¬ (g.x ≥ m.leftMax ∧ g.x < m.leftMax) := by omega
  have hl2 : ¬ ((g.adjusted win.left_border win.top_border (-win.right_border)
      (-win.bottom_border)).x ≥ m.leftMax ∧ g.x + win.left_border < m.leftMax) := by
    simp only [QRect.adjusted, QRect.x]; omega
  have ht1 : ¬ (g.y ≥ m.topMax ∧ g.y < m.topMax) := by omega
  have ht2 : ¬ ((g.adjusted win.left_border win.top_border (-win.right_border)
      (-win.bottom_border)).y ≥ m.topMax ∧ g.y + win.top_border < m.topMax) := by
    simp only [QRect.adjusted, QRect.y]; omega
  unfold keep_touching_edges
  simp only [hsl, hst, hsr, hsb, hkl, hkt, hkr, hkb, hl1, ht1, hl2, ht2, Bool.and_self,
    Bool.false_eq_true, if_false, Bool.or_self, ne_eq, not_true_eq_false, false_and]

theorem QRect.setSize_size (g : QRect) : g.setSize g.size = g := by
  obtain ⟨x1, y1, x2, y2⟩ := g
  simp only [QRect.setSize, QRect.size, QRect.width, QRect.height, QRect.mk.injEq, true_and]
  constructor <;> omega

theorem workspace_position_geometry_same (env : move_env) (win : Win)
    (hupd : env.inUpdateClientArea = false)
    (hon : check_offscreen_position win.geometryRestore
        (env.clientArea_point clientAreaOption.ScreenArea win.geometryRestore.center win.desktop)
      = win.geometryRestore)
    (hsize : win.isShade = true
      ∨ env.adjusted_size win win.geometryRestore.size size_mode.any = win.geometryRestore.size) :
    workspace_position_geometry env win win.geometryRestore win.desktop
      (win.geometryRestore.adjusted win.left_border win.top_border (-win.right_border)
        (-win.bottom_border)) = win.geometryRestore := by
  unfold workspace_position_geometry old_screen_area
  simp only [hupd, Bool.false_eq_true, if_false, keep_touching_edges_same, hon]
  rcases hsize with h | h
  · simp [h]
  · rw [h, QRect.setSize_size]
    split_ifs <;> rfl

theorem check_workspace_position_same (env : move_env) (w : Win)
    (hfull : w.isFullScreen = false)
    (hmax : w.maximizeMode = maximize_mode.restore)
    (htile : w.quicktiling = quicktiles.none)
    (hframe : w.frameGeometry = w.geometryRestore)
    (hupd : env.inUpdateClientArea = false)
    (hon : check_offscreen_position w.geometryRestore
        (env.clientArea_point clientAreaOption.ScreenArea w.geometryRestore.center w.desktop)
      = w.geometryRestore)
    (hsize : w.isShade = true
      ∨ env.adjusted_size w w.geometryRestore.size size_mode.any = w.geometryRestore.size) :
    (check_workspace_position env w QRect.null (-2) QRect.null).quicktiling = quicktiles.none
      ∧ (check_workspace_position env w QRect.null (-2) QRect.null).frameGeometry
        = w.geometryRestore := by
  have hgeo := workspace_position_geometry_same env w hupd hon hsize
  have hnull : QRect.null.isValid = false := by decide
  unfold check_workspace_position
  simp only [hnull, Bool.not_false, if_true, beq_self_eq_true, hfull, Bool.false_eq_true,
    if_false, hmax, htile, bne_self_eq_false, hframe, hgeo, Win.setFrameGeometry]
  split_ifs <;> exact ⟨htile, hframe⟩

theorem next_screen_single (screens : List QRect) (mode : quicktiles)
    (hone : screens.length = 1) : next_screen screens mode 0 = 0 := by
  unfold next_screen
  rw [hone]
  rfl

/-- C13 (amended): for every resizable window that is neither maximized nor quick-tiled nor
fullscreen, on a single-screen setup, whose frame geometry is valid and is not entirely
outside of the screen area (`check_offscreen_position` leaves it where it is), when the
workspace is not updating its client areas and the size hints accept the size of the frame
geometry (or the window is shaded): the first call of `set_quicktile_mode(win, left, keyboard)`
stores the frame geometry as `geometry_restore` and sets the mode to left, and the second call
leaves `quicktiling()` equal to none and the frame geometry equal to the geometry the window
had before the first call. -/
theorem set_quicktile_mode_left_twice (env : move_env) (win : Win) (keyboard : Bool)
    (hres : win.isResizable = true)
    (hmax : win.maximizeMode = maximize_mode.restore)
    (htile : win.quicktiling = quicktiles.none)
    (hone : env.screens.length = 1)
    (hcur : win.screen = 0)
    (hfull : win.isFullScreen = false)
    (hvalid : win.frameGeometry.isValid = true)
    (hon : check_offscreen_position win.frameGeometry
        (env.clientArea_point clientAreaOption.ScreenArea win.frameGeometry.center win.desktop)
      = win.frameGeometry)
    (hupd : env.inUpdateClientArea = false)
    (hsize : win.isShade = true
      ∨ ∀ w, env.adjusted_size w win.frameGeometry.size size_mode.any
          = win.frameGeometry.size) :
    (set_quicktile_mode env win quicktiles.left keyboard).geometryRestore = win.frameGeometry
      ∧ (set_quicktile_mode env win quicktiles.left keyboard).quicktiling = quicktiles.left
      ∧ (set_quicktile_mode env (set_quicktile_mode env win quicktiles.left keyboard)
          quicktiles.left keyboard).quicktiling = quicktiles.none
      ∧ (set_quicktile_mode env (set_quicktile_mode env win quicktiles.left keyboard)
          quicktiles.left keyboard).frameGeometry = win.frameGeometry := by
  have hm1 : ¬ (quicktiles.left = quicktiles.maximize) := by decide
  have hm2 : ¬ (quicktiles.left.and quicktiles.horizontal = quicktiles.horizontal) := by decide
  have hm3 : ¬ (quicktiles.left.and quicktiles.vertical = quicktiles.vertical) := by decide
  have hm4 : ¬ (quicktiles.left = quicktiles.none) := by decide
  have hm5 : ¬ (quicktiles.none = quicktiles.left) := by decide
  have hnext : next_screen env.screens quicktiles.left 0 = 0 := next_screen_single _ _ hone
  have hfirst : set_quicktile_mode env win quicktiles.left keyboard
      = { win with
          geometryRestore := win.frameGeometry
          electric := quicktiles.left
          quicktiling := quicktiles.left
          frameGeometry := env.electric_border_maximize_geometry
            { win with
              geometryRestore := win.frameGeometry
              electric := quicktiles.left
              quicktiling := quicktiles.none }
            (if keyboard then win.frameGeometry.center else env.cursor_pos) win.desktop } := by
    unfold set_quicktile_mode set_quicktile_mode_tile
    simp only [hres, Bool.not_true, Bool.false_eq_true, if_false, hm1, hm2, hm3, hmax, ne_eq,
      not_true_eq_false, hm4, not_false_eq_true, if_true, htile, hm5, Win.setFrameGeometry]
  refine ⟨by rw [hfirst], by rw [hfirst], ?_⟩
  have hsecond : set_quicktile_mode env (set_quicktile_mode env win quicktiles.left keyboard)
        quicktiles.left keyboard
      = check_workspace_position env
          { win with
            geometryRestore := win.frameGeometry
            electric := quicktiles.none
            quicktiling := quicktiles.none }
          QRect.null (-2) QRect.null := by
    rw [hfirst]
    unfold set_quicktile_mode set_quicktile_mode_tile
    simp only [hres, Bool.not_true, Bool.false_eq_true, if_false, hm1, hm2, hm3, hmax, ne_eq,
      not_true_eq_false, hm4, not_false_eq_true, if_true, hcur, hnext, set_electric, hvalid,
      Win.setFrameGeometry]
  rw [hsecond]
  exact check_workspace_position_same env _ hfull hmax rfl rfl hupd hon (hsize.imp id fun h => h _)

/-- C13, witness: the example window on the single screen is tiled to the left half by the
first call and is back at (200, 200) with its size of 100 by 100 after the second call. -/
theorem set_quicktile_mode_left_twice_witness :
    (set_quicktile_mode single_screen example_window quicktiles.left true).frameGeometry
        = QRect.of_xywh 0 0 500 1000
      ∧ (set_quicktile_mode single_screen
          (set_quicktile_mode single_screen example_window quicktiles.left true)
          quicktiles.left true).frameGeometry = QRect.of_xywh 200 200 100 100 :=
  ⟨by decide,
    (set_quicktile_mode_left_twice single_screen example_window true (by decide) (by decide)
      (by decide) (by decide) (by decide) (by decide) (by decide) (by decide) (by decide)
      (Or.inr fun _ => rfl)).2.2.2⟩

/-- C13, counterexample: a resizable window, neither maximized nor quick-tiled, that lies to
the right of the single screen at (2000, 0) is not back at its geometry after two calls of
`set_quicktile_mode(win, left, keyboard)`: the second call restores the geometry and then
`check_workspace_position` moves the window to x = 749, onto the screen. -/
theorem set_quicktile_mode_left_twice_counterexample :
    offscreen_window.isResizable = true
      ∧ offscreen_window.maximizeMode = maximize_mode.restore
      ∧ offscreen_window.quicktiling = quicktiles.none
      ∧ single_screen.screens.length = 1
      ∧ offscreen_window.frameGeometry = QRect.of_xywh 2000 0 100 100
      ∧ (set_quicktile_mode single_screen offscreen_window quicktiles.left true).geometryRestore
          = QRect.of_xywh 2000 0 100 100
      ∧ (set_quicktile_mode single_screen
          (set_quicktile_mode single_screen offscreen_window quicktiles.left true)
          quicktiles.left true).frameGeometry = QRect.of_xywh 749 0 100 100 := by
  decide


/-! ### Cancelling a move or resize -/

theorem set_maximize_move_resize (env : move_env)
    (hframe : ∀ w a b c, (env.changeMaximize w a b c).move_resize = w.move_resize)
    (w : Win) (a b : Bool) : (set_maximize env w a b).move_resize = w.move_resize := by
  unfold set_maximize
  rw [hframe]

theorem check_workspace_position_move_resize (env : move_env)
    (hframe : ∀ w a b c, (env.changeMaximize w a b c).move_resize = w.move_resize)
    (w : Win) (oldGeometry : QRect) (oldDesktop : Int) (oldClientGeometry : QRect) :
    (check_workspace_position env w oldGeometry oldDesktop oldClientGeometry).move_resize
      = w.move_resize := by
  simp only [check_workspace_position, apply_ite Win.move_resize, Win.setFrameGeometry, hframe,
    ite_self]

theorem set_quicktile_mode_tile_move_resize (env : move_env) (w : Win) (mode : quicktiles)
    (keyboard : Bool) :
    (set_quicktile_mode_tile env w mode keyboard).1.move_resize = w.move_resize := by
  simp only [set_quicktile_mode_tile, apply_ite Prod.fst, apply_ite Prod.snd,
    apply_ite Win.move_resize, Win.setFrameGeometry, set_electric, ite_self]

theorem set_quicktile_mode_move_resize (env : move_env)
    (hframe : ∀ w a b c, (env.changeMaximize w a b c).move_resize = w.move_resize)
    (w : Win) (mode : quicktiles) (keyboard : Bool) :
    (set_quicktile_mode env w mode keyboard).move_resize = w.move_resize := by
  simp only [set_quicktile_mode, apply_ite Prod.fst, apply_ite Win.move_resize,
    Win.setFrameGeometry, set_maximize_move_resize env hframe,
    check_workspace_position_move_resize env hframe, set_quicktile_mode_tile_move_resize,
    ite_self]


theorem perform_move_resize_move_resize (w : Win) :
    (perform_move_resize w).move_resize = w.move_resize := by
  simp only [perform_move_resize, apply_ite Win.move_resize, Win.setFrameGeometry, ite_self]

theorem check_quicktile_maximization_zones_move_resize (env : move_env) (w : Win)
    (xroot yroot : Int) :
    (check_quicktile_maximization_zones env w xroot yroot).move_resize = w.move_resize := by
  simp only [check_quicktile_maximization_zones, apply_ite Win.move_resize, set_electric,
    set_electric_maximizing, delayed_electric_maximize, ite_self]

theorem move_resize_restricted_snapshot (env : move_env) (fuel : Nat) (w : Win)
    (topleft bottomright : QPoint) (previousMoveResizeGeom : QRect) (r : Win × size_mode)
    (h : move_resize_restricted env fuel w topleft bottomright previousMoveResizeGeom = some r) :
    r.1.move_resize.snapshot = w.move_resize.snapshot := by
  unfold move_resize_restricted at h
  dsimp only at h
  split at h
  · exact Option.noConfusion h
  · rw [Option.map_eq_some'] at h
    obtain ⟨g, _, hg⟩ := h
    subst hg
    rfl

theorem move_resize_resize_snapshot (env : move_env) (fuel : Nat) (w : Win)
    (topleft bottomright : QPoint) (previousMoveResizeGeom : QRect) (r : Win × Bool)
    (h : move_resize_resize env fuel w topleft bottomright previousMoveResizeGeom = some r) :
    r.1.move_resize.snapshot = w.move_resize.snapshot := by
  unfold move_resize_resize at h
  split at h
  · exact Option.noConfusion h
  · rename_i w3 sizeMode h3
    have hs := move_resize_restricted_snapshot _ _ _ _ _ _ _ h3
    split at h
    · exact Option.noConfusion h
    · cases h
      exact hs

theorem move_resize_move_snapshot (env : move_env) (fuel : Nat) (w : Win)
    (globalPos topleft : QPoint) (previousMoveResizeGeom : QRect) (r : Win × Bool)
    (h : move_resize_move env fuel w globalPos topleft previousMoveResizeGeom = some r) :
    r.1.move_resize.snapshot = w.move_resize.snapshot := by
  unfold move_resize_move at h
  simp only [Option.map_eq_some'] at h
  obtain ⟨w1, hw1, hr⟩ := h
  subst hr
  split_ifs at hw1
  all_goals
    first
    | (cases hw1; rfl)
    | (rw [Option.map_eq_some'] at hw1
       obtain ⟨g, _, hg⟩ := hw1
       subst hg
       rfl)

theorem move_resize_snapshot (env : move_env)
    (hsync : ∀ w, (env.doResizeSync w).move_resize = w.move_resize)
    (fuel : Nat) (w : Win) (x y x_root y_root : Int) (r : Win)
    (hactive : w.move_resize.enabled = true)
    (h : move_resize env fuel w x y x_root y_root = some r) :
    r.move_resize.snapshot = w.move_resize.snapshot := by
  unfold move_resize at h
  simp only [hactive, Bool.not_true, Bool.false_eq_true, if_false] at h
  split_ifs at h
  · cases h; rfl
  · cases h; rfl
  all_goals
    split at h
    · exact Option.noConfusion h
    · rename_i w3 update hb
      have hw3 : w3.move_resize.snapshot = w.move_resize.snapshot := by
        first
        | exact move_resize_resize_snapshot _ _ _ _ _ _ _ hb
        | exact move_resize_move_snapshot _ _ _ _ _ _ _ hb
      split_ifs at h
      · cases h; exact hw3
      · cases h
        simp only [hsync]
        exact hw3
      · cases h
        simp only [perform_move_resize_move_resize]
        exact hw3


theorem move_resize_point_snapshot (env : move_env)
    (hframe : ∀ w a b c, (env.changeMaximize w a b c).move_resize = w.move_resize)
    (hsync : ∀ w, (env.doResizeSync w).move_resize = w.move_resize)
    (fuel : Nat) (w : Win) (loc global : QPoint) (r : Win)
    (hactive : w.move_resize.enabled = true)
    (h : move_resize_point env fuel w loc global = some r) :
    r.move_resize.snapshot = w.move_resize.snapshot := by
  unfold move_resize_point at h
  dsimp only at h
  split at h
  · exact Option.noConfusion h
  · rename_i w1 h1
    have hw1 := move_resize_snapshot env hsync fuel w _ _ _ _ w1 hactive h1
    split_ifs at h
    · have hq := set_quicktile_mode_move_resize env hframe w1 quicktiles.none false
      have hen : (Win.set_move_resize_geometry
          { set_quicktile_mode env w1 quicktiles.none false with
            move_resize :=
              { (set_quicktile_mode env w1 quicktiles.none false).move_resize with
                offset := env.scaled_offset
                  (set_quicktile_mode env w1 quicktiles.none false).move_resize.offset
                  w.frameGeometry
                  (set_quicktile_mode env w1 quicktiles.none false).geometryRestore } }
          (set_quicktile_mode env w1 quicktiles.none false).geometryRestore).move_resize.snapshot
          = w.move_resize.snapshot := by
        rw [← hw1]
        simp only [Win.set_move_resize_geometry, move_resize_op.snapshot, hq]
      have hact : (Win.set_move_resize_geometry
          { set_quicktile_mode env w1 quicktiles.none false with
            move_resize :=
              { (set_quicktile_mode env w1 quicktiles.none false).move_resize with
                offset := env.scaled_offset
                  (set_quicktile_mode env w1 quicktiles.none false).move_resize.offset
                  w.frameGeometry
                  (set_quicktile_mode env w1 quicktiles.none false).geometryRestore } }
          (set_quicktile_mode env w1 quicktiles.none false).geometryRestore).move_resize.enabled
          = true := by
        have := congrArg Prod.fst hen
        simpa only [move_resize_op.snapshot, hactive] using this
      rw [move_resize_snapshot env hsync fuel _ _ _ _ _ r hact h]
      exact hen
    · have hq := set_quicktile_mode_move_resize env hframe w1 quicktiles.none false
      have hen : ({ set_quicktile_mode env w1 quicktiles.none false with
            move_resize :=
              { (set_quicktile_mode env w1 quicktiles.none false).move_resize with
                offset := env.scaled_offset
                  (set_quicktile_mode env w1 quicktiles.none false).move_resize.offset
                  w.frameGeometry
                  (set_quicktile_mode env w1 quicktiles.none false).geometryRestore } }
          : Win).move_resize.snapshot = w.move_resize.snapshot := by
        rw [← hw1]
        simp only [move_resize_op.snapshot, hq]
      have hact : ({ set_quicktile_mode env w1 quicktiles.none false with
            move_resize :=
              { (set_quicktile_mode env w1 quicktiles.none false).move_resize with
                offset := env.scaled_offset
                  (set_quicktile_mode env w1 quicktiles.none false).move_resize.offset
                  w.frameGeometry
                  (set_quicktile_mode env w1 quicktiles.none false).geometryRestore } }
          : Win).move_resize.enabled = true := by
        have := congrArg Prod.fst hen
        simpa only [move_resize_op.snapshot, hactive] using this
      rw [move_resize_snapshot env hsync fuel _ _ _ _ _ r hact h]
      exact hen
    · cases h
      rw [check_quicktile_maximization_zones_move_resize]
      exact hw1
    · cases h
      exact hw1
    · cases h
      exact hw1

theorem drag_snapshot (env : move_env)
    (hframe : ∀ w a b c, (env.changeMaximize w a b c).move_resize = w.move_resize)
    (hsync : ∀ w, (env.doResizeSync w).move_resize = w.move_resize)
    (fuel : Nat) (motions : List (QPoint × QPoint)) (w r : Win)
    (hactive : w.move_resize.enabled = true)
    (h : drag env fuel w motions = some r) :
    r.move_resize.snapshot = w.move_resize.snapshot := by
  induction motions generalizing w with
  | nil =>
    simp only [drag, List.foldlM_nil, pure, Option.some.injEq] at h
    rw [h]
  | cons m ms ih =>
    simp only [drag, List.foldlM_cons, bind, Option.bind_eq_some] at h
    obtain ⟨w1, h1, h2⟩ := h
    have hs := move_resize_point_snapshot env hframe hsync fuel w m.1 m.2 w1 hactive h1
    have hact : w1.move_resize.enabled = true := by
      have := congrArg Prod.fst hs
      simpa only [move_resize_op.snapshot, hactive] using this
    rw [ih w1 hact h2, hs]

theorem cancel_restores_initial_geometry (env : move_env) (w : Win)
    (hscreen : env.screen_number w.move_resize.initial_geometry = w.move_resize.start_screen)
    (helectric : w.electric_maximizing = false) :
    (finish_move_resize env w true).frameGeometry = w.move_resize.initial_geometry := by
  simp only [finish_move_resize, finish_move_resize_geometry, if_true, Win.leaveMoveResize,
    Win.setFrameGeometry,
    Win.checkScreen, hscreen, ne_eq, not_true_eq_false, if_false, helectric, Bool.false_eq_true,
    Bool.not_true]


theorem check_unrestricted_move_resize_fields (env : move_env) (w : Win) :
    (check_unrestricted_move_resize env w).frameGeometry = w.frameGeometry
      ∧ (check_unrestricted_move_resize env w).screen = w.screen
      ∧ (check_unrestricted_move_resize env w).move_resize.snapshot = w.move_resize.snapshot := by
  refine ⟨?_, ?_, ?_⟩
  · simp only [check_unrestricted_move_resize, apply_ite Win.frameGeometry, Win.set_unrestricted,
      ite_self]
  · simp only [check_unrestricted_move_resize, apply_ite Win.screen, Win.set_unrestricted,
      ite_self]
  · have key : ∀ c1 c2 : Bool,
        (if c1 = true then
            (if c2 = true then w.set_unrestricted true else w).set_unrestricted true
          else (if c2 = true then w.set_unrestricted true else w)).move_resize.snapshot
          = w.move_resize.snapshot := by
      intro c1 c2
      cases c1 <;> cases c2 <;> rfl
    unfold check_unrestricted_move_resize
    by_cases hu : w.move_resize.unrestricted = true
    · rw [if_pos hu]
    · rw [if_neg hu]
      exact key _ _

theorem start_move_resize_enable_enabled (env : move_env)
    (hframe : ∀ w a b c, (env.changeMaximize w a b c).move_resize = w.move_resize)
    (w : Win) : (start_move_resize_enable env w).move_resize.enabled = true := by
  simp only [start_move_resize_enable, apply_ite Win.move_resize,
    apply_ite move_resize_op.enabled, set_maximize_move_resize env hframe, ite_self]

theorem start_move_resize_snapshot (env : move_env)
    (hframe : ∀ w a b c, (env.changeMaximize w a b c).move_resize = w.move_resize)
    (w start : Win)
    (h : start_move_resize env w = (true, start)) :
    start.move_resize.snapshot = (true, start.frameGeometry, start.screen) := by
  have key : ∀ z : Win, z.move_resize.enabled = true →
      (check_unrestricted_move_resize env
          (update_initial_move_resize_geometry z)).move_resize.snapshot
        = (true,
          (check_unrestricted_move_resize env (update_initial_move_resize_geometry z)).frameGeometry,
          (check_unrestricted_move_resize env (update_initial_move_resize_geometry z)).screen) := by
    intro z hz
    obtain ⟨hf, hs, hm⟩ :=
      check_unrestricted_move_resize_fields env (update_initial_move_resize_geometry z)
    rw [hf, hs, hm]
    simp only [update_initial_move_resize_geometry, move_resize_op.snapshot, hz]
  unfold start_move_resize at h
  dsimp only at h
  split at h
  · cases h
  · split at h
    · cases h
    · split at h
      · cases h
      · have h2 := congrArg Prod.snd h
        simp only at h2
        subst h2
        exact key _ (start_move_resize_enable_enabled env hframe _)

/-- C12 (amended): for every window for which `start_move_resize` returned true, whatever
sequence of `move_resize` updates happened since, if the window is not about to be quick-tiled
at the end (`electric_maximizing` is not set) and its screen was the screen of its frame
geometry at the start, then after `finish_move_resize(win, true)` the frame geometry equals
`move_resize().initial_geometry` as captured at start, the frame geometry at that time. The
virtual methods `changeMaximize` and `doResizeSync` are taken to leave the move-resize state
alone. -/
theorem finish_move_resize_cancel (env : move_env) (fuel : Nat) (w start win : Win)
    (motions : List (QPoint × QPoint))
    (hframe : ∀ w a b c, (env.changeMaximize w a b c).move_resize = w.move_resize)
    (hsync : ∀ w, (env.doResizeSync w).move_resize = w.move_resize)
    (hstart : start_move_resize env w = (true, start))
    (hscreen : env.screen_number start.frameGeometry = start.screen)
    (hdrag : drag env fuel start motions = some win)
    (helectric : win.electric_maximizing = false) :
    start.move_resize.initial_geometry = start.frameGeometry
      ∧ win.move_resize.initial_geometry = start.frameGeometry
      ∧ (finish_move_resize env win true).frameGeometry = start.frameGeometry := by
  have hs := start_move_resize_snapshot env hframe w start hstart
  have hactive : start.move_resize.enabled = true := congrArg Prod.fst hs
  have hd := drag_snapshot env hframe hsync fuel motions start win hactive hdrag
  rw [hs] at hd
  have hg : win.move_resize.initial_geometry = start.frameGeometry :=
    congrArg (fun p => p.2.1) hd
  have hsc : win.move_resize.start_screen = start.screen := congrArg (fun p => p.2.2) hd
  refine ⟨congrArg (fun p => p.2.1) hs, hg, ?_⟩
  rw [cancel_restores_initial_geometry env win (by rw [hg, hsc, hscreen]) helectric, hg]

/-- C12, witness: the example window is moved from (200, 200) to (400, 400) by two motions of
the pointer and is back at (200, 200) after the move is cancelled. -/
theorem finish_move_resize_cancel_witness :
    (drag single_screen 10 drag_start drag_inside).map Win.frameGeometry
        = some (QRect.of_xywh 400 400 100 100)
      ∧ (finish_move_resize single_screen
          ((drag single_screen 10 drag_start drag_inside).getD drag_start) true).frameGeometry
        = QRect.of_xywh 200 200 100 100 :=
  ⟨by decide,
    (finish_move_resize_cancel single_screen 10 grabbed_window drag_start
      ((drag single_screen 10 drag_start drag_inside).getD drag_start) drag_inside
      (fun _ _ _ _ => rfl) (fun _ => rfl) rfl rfl rfl rfl).2.2⟩

/-- C12, counterexample: the example window is moved with the pointer to the left edge of the
screen, which sets `electric_maximizing`; cancelling the move then does not restore the initial
geometry of 100 by 100 pixels at (200, 200) but tiles the window to the left half of the
screen. -/
theorem finish_move_resize_cancel_counterexample :
    (start_move_resize single_screen grabbed_window).1 = true
      ∧ drag_start.move_resize.initial_geometry = QRect.of_xywh 200 200 100 100
      ∧ ((drag single_screen 10 drag_start drag_to_edge).map fun w =>
          (finish_move_resize single_screen w true).frameGeometry)
        = some (QRect.of_xywh 0 0 500 1000) := by
  decide


/-! ### The cache of `raise_or_lower_client` -/

/-- C21 (amended): `raise_or_lower_client` takes `most_recently_raised` as the topmost window
exactly when that cached window is non-null, is contained in the constrained stack and is shown
and the window passed to the function is on the current desktop; in every other case the
topmost window is recomputed with `top_client_on_desktop`. -/
theorem topmost_client_cache (sp : space) (window : Nat) :
    ((sp.most_recently_raised ≠ nullptr ∧ sp.most_recently_raised ∈ sp.stack
          ∧ (sp.win sp.most_recently_raised).isShown = true
          ∧ (sp.win window).on_current_desktop = true) →
        topmost_client sp window = sp.most_recently_raised)
      ∧ (¬ (sp.most_recently_raised ≠ nullptr ∧ sp.most_recently_raised ∈ sp.stack
          ∧ (sp.win sp.most_recently_raised).isShown = true
          ∧ (sp.win window).on_current_desktop = true) →
        topmost_client sp window
          = top_client_on_desktop sp (topmost_desktop sp window) (topmost_output sp window)
              false true) := by
  constructor
  · rintro ⟨h1, h2, h3, h4⟩
    unfold topmost_client
    simp [h1, h2, h3, h4, contains]
  · intro hc
    unfold topmost_client
    have hc2 : (sp.most_recently_raised != nullptr && contains sp.stack sp.most_recently_raised
        && (sp.win sp.most_recently_raised).isShown && (sp.win window).on_current_desktop)
        = false := by
      rw [Bool.eq_false_iff]
      intro h
      apply hc
      simpa [contains, and_assoc] using h
    simp only [hc2]
    rfl

/-- C21, witness: in the example the cached window `2` is in the stack and shown and the window
`1` is on the current desktop, so the cache is taken. -/
theorem topmost_client_cache_witness :
    topmost_client dock_example 1 = dock_example.most_recently_raised :=
  (topmost_client_cache dock_example 1).1 ⟨by decide, by decide, by decide, by decide⟩

/-- C21, counterexample: the cached window `2` is non-null, in the stack and shown but not on
the current desktop; the window `1` is on the current desktop and is what
`top_client_on_desktop` finds for its desktop. The function still takes the cache as the topmost
window and raises window `1` instead of lowering it. -/
theorem topmost_client_cache_counterexample :
    cache_example.most_recently_raised = 2
      ∧ (cache_example.win 2).on_current_desktop = false
      ∧ (cache_example.win 2).on_desktop cache_example.current_desktop = false
      ∧ top_client_on_desktop cache_example (topmost_desktop cache_example 1)
          (topmost_output cache_example 1) false true = 1
      ∧ topmost_client cache_example 1 = 2
      ∧ (lower_window cache_example 1).pre_stack = [1, 2]
      ∧ (raise_or_lower_client 5 cache_example 1).map (fun sp => sp.pre_stack)
          = some [2, 1] := by
  decide

/-! ### The layers `sort_windows_by_layer` puts the windows in -/

theorem mem_zip_buckets (heap : Nat → window) (l : List Nat) (w : Nat) (b : layer) :
    ∀ m : Nat × Nat → Option layer, (w, b) ∈ l.zip (buckets heap m l) →
      b = (heap w).get_layer
        ∨ (b = layer.active ∧ enum_index layer.below < enum_index (heap w).get_layer) := by
  induction l with
  | nil => intro m h; simp at h
  | cons a l ih =>
    intro m h
    simp only [buckets, List.zip_cons_cons, List.mem_cons, Prod.mk.injEq] at h
    rcases h with ⟨h1, h2⟩ | h
    · subst h1 h2
      exact bucket_layer_cases heap m w
    · exact ih _ h

/-- C29 (amended): for every input list, `sort_windows_by_layer` buckets a window either in
the window's own `get_layer` or, by the group special case, in `active` when its own layer is
above `below`. A window whose own layer is at most `active` is never bucketed in a lower layer
than its own; a window whose own layer is above `active` (critical notification, on-screen
display, unmanaged) is bucketed in its own layer or moved down to `active`, never lower. -/
theorem bucket_own_layer_or_active (heap : Nat → window) (list : List Nat) (w : Nat)
    (b : layer) (h : (w, b) ∈ bucketed heap list) :
    (b = (heap w).get_layer
        ∨ (b = layer.active ∧ enum_index layer.below < enum_index (heap w).get_layer))
      ∧ (enum_index (heap w).get_layer ≤ enum_index layer.active →
          enum_index (heap w).get_layer ≤ enum_index b)
      ∧ (enum_index layer.active < enum_index (heap w).get_layer →
          b = (heap w).get_layer ∨ b = layer.active) := by
  have hc := mem_zip_buckets heap list w b _ h
  refine ⟨hc, fun hle => ?_, fun _ => ?_⟩
  · rcases hc with hc | ⟨hc, _⟩
    · rw [hc]
    · rw [hc]; exact hle
  · rcases hc with hc | ⟨hc, _⟩
    · exact Or.inl hc
    · exact Or.inr hc

/-- C29, witness: the plain window `2` of the group of the fullscreen window `1` is lifted from
`normal` to `active`. -/
theorem bucket_own_layer_or_active_witness :
    (2, layer.active) ∈ bucketed group_example [1, 2, 3]
      ∧ enum_index (group_example 2).get_layer ≤ enum_index layer.active :=
  ⟨by decide,
    (bucket_own_layer_or_active group_example [1, 2, 3] 2 layer.active (by decide)).2.1
      (by decide)⟩

/-- C29, counterexample: the on-screen display `2` has the key of the fullscreen window `1`,
which comes before it; it is bucketed in `active`, a layer lower than its own layer
`on_screen_display`, and ends below the critical notification `3`. -/
theorem bucket_below_own_layer_counterexample :
    (osd_group_example 2).get_layer = layer.on_screen_display
      ∧ bucketed osd_group_example [1, 2, 3]
          = [(1, layer.active), (2, layer.active), (3, layer.critical_notification)]
      ∧ enum_index layer.active < enum_index (osd_group_example 2).get_layer
      ∧ sort_windows_by_layer osd_group_example [1, 2, 3] = [1, 2, 3]
      ∧ sort_windows_by_layer osd_group_example [1, 3, 2] = [1, 2, 3] := by
  decide

/-- C23: the windows `1`, `2` and `3` have the same (output, top lead) key; window `1` is in
layer `active`, window `3` comes after it in the input and its own layer `normal` is higher than
`below`. The keep-below window `2` between them resets the layer remembered for the key, so
window `3` is left in `normal` and ends below window `1`. -/
theorem sort_windows_by_layer_not_above_fullscreen :
    lead_key below_group_example 3 = lead_key below_group_example 1
      ∧ (below_group_example 1).get_layer = layer.active
      ∧ enum_index layer.below < enum_index (below_group_example 3).get_layer
      ∧ buckets below_group_example (fun _ => none) [1, 2, 3]
          = [layer.active, layer.below, layer.normal]
      ∧ sort_windows_by_layer below_group_example [1, 2, 3] = [2, 3, 1] := by
  decide


/-! ### `check_offscreen_position` -/

/-- C27: a rectangle of 100 by 10 pixels above a screen area of 4000 by 100 pixels is moved by
`check_offscreen_position` to y = 991, below the screen area, which it does not intersect: the
branch for a rectangle above the screen adds a quarter of the width of the screen area, not of
its height. -/
theorem check_offscreen_position_leaves_offscreen :
    check_offscreen_position (QRect.of_xywh 10 (-50) 100 10) (QRect.of_xywh 0 0 4000 100)
        = QRect.of_xywh 10 991 100 10
      ∧ (QRect.of_xywh 0 0 4000 100).bottom = 99
      ∧ (QRect.of_xywh 0 0 4000 100).intersects
          (check_offscreen_position (QRect.of_xywh 10 (-50) 100 10)
            (QRect.of_xywh 0 0 4000 100)) = false
      ∧ (check_offscreen_position (QRect.of_xywh 10 (-50) 100 10)
          (QRect.of_xywh 0 0 100 4000)) = QRect.of_xywh 10 16 100 10 := by
  decide

/-! ### The size-hint pass of a resize -/

theorem set_move_resize_geometry_self (w : Win) :
    w.set_move_resize_geometry w.move_resize.geometry = w := rfl

theorem size_hint_pass_of_same_size (env : move_env) (win : Win) (mode : position)
    (geometry : QRect) (sizeMode : size_mode) (hmode : mode ≠ position.center)
    (hs : env.adjusted_size win geometry.size sizeMode = geometry.size) :
    size_hint_pass env win mode geometry sizeMode = some geometry := by
  unfold size_hint_pass
  rw [hs]
  obtain ⟨x1, y1, x2, y2⟩ := geometry
  simp only [QRect.size, QRect.width, QRect.height, QRect.right, QRect.bottom, QRect.left,
    QRect.top, QRect.setRight, QRect.setBottom]
  have e1 : x2 - (x2 - x1 + 1) + 1 = x1 := by omega
  have e2 : y2 - (y2 - y1 + 1) + 1 = y1 := by omega
  have e3 : x1 + (x2 - x1 + 1) - 1 = x2 := by omega
  have e4 : y1 + (y2 - y1 + 1) - 1 = y2 := by omega
  simp only [e1, e2, e3, e4, ite_self]
  cases mode <;>
    first
    | exact absurd rfl hmode
    | rfl

/-- C30: in the resize branch of `move_resize`, when `adjusted_size` returns the requested
size unchanged, the second geometry computation done after the size-hint pass is the identity:
for each of the eight contacts and each size mode the final `move_resize().geometry` equals the
geometry that entered the size-hint pass, so the branch ends with the window as it was before
the pass. -/
theorem size_hint_pass_identity (env : move_env) (win : Win) (mode : position)
    (geometry : QRect) (sizeMode : size_mode)
    (hmode : mode ≠ position.center)
    (hsize : ∀ w, env.adjusted_size w geometry.size sizeMode = geometry.size) :
    size_hint_pass env win mode geometry sizeMode = some geometry
      ∧ ∀ (fuel : Nat) (w3 : Win) (topleft bottomright : QPoint)
          (previousMoveResizeGeom : QRect),
          win.move_resize.contact = mode →
          move_resize_restricted env fuel win topleft bottomright previousMoveResizeGeom
            = some (w3, sizeMode) →
          w3.move_resize.geometry = geometry →
          move_resize_resize env fuel win topleft bottomright previousMoveResizeGeom
            = some (w3, geometry.size != previousMoveResizeGeom.size) := by
  refine ⟨size_hint_pass_of_same_size env win mode geometry sizeMode hmode (hsize win), ?_⟩
  intro fuel w3 topleft bottomright prev hcontact hrestricted hgeo
  have h3 := size_hint_pass_of_same_size env w3 mode geometry sizeMode hmode (hsize w3)
  unfold move_resize_resize
  rw [hrestricted]
  simp only [hcontact, hgeo, h3]
  rw [← hgeo, set_move_resize_geometry_self]

/-- C30, witness: the drag of the top-left corner to (13, 14) gives the geometry from (10, 10)
to (99, 99), and the size-hint pass leaves it as it is. -/
theorem size_hint_pass_identity_witness :
    size_hint_pass single_screen example_window position.top_left (QRect.of_xywh 10 10 90 90)
        size_mode.any = some (QRect.of_xywh 10 10 90 90) :=
  (size_hint_pass_identity single_screen example_window position.top_left
    (QRect.of_xywh 10 10 90 90) size_mode.any (by decide) (fun _ => rfl)).1


/-! ### `start_move_resize` -/

theorem start_move_resize_enable_move (env : move_env) (w : Win)
    (hmove : w.move_resize.contact = position.center) :
    (start_move_resize_enable env w).quicktiling = w.quicktiling
      ∧ (start_move_resize_enable env w).maximizeMode = w.maximizeMode := by
  have hm : (w.move_resize.contact != position.center) = false := by
    rw [hmove]; decide
  unfold start_move_resize_enable
  simp only [hm, Bool.false_and, Bool.and_false, Bool.false_eq_true, if_false]
  refine ⟨?_, ?_⟩ <;> trivial

theorem start_move_resize_enable_resize (env : move_env) (w : Win)
    (hresize : w.move_resize.contact ≠ position.center) :
    (start_move_resize_enable env w).quicktiling = quicktiles.none
      ∧ (w.maximizeMode = maximize_mode.full →
          (∀ x h v a, (env.changeMaximize x h v a).maximizeMode
            = ⟨x.maximizeMode.vertically != v, x.maximizeMode.horizontally != h⟩) →
          (start_move_resize_enable env w).maximizeMode = maximize_mode.restore) := by
  have hm : (w.move_resize.contact != position.center) = true := by
    simpa using hresize
  have hq : ∀ z : Win,
      (if (z.quicktiling != quicktiles.none) = true then
        ({ z with quicktiling := quicktiles.none, geometryRestore := z.frameGeometry } : Win)
      else z).quicktiling = quicktiles.none := by
    intro z
    by_cases h : z.quicktiling = quicktiles.none
    · simp [h]
    · simp [h]
  unfold start_move_resize_enable
  simp only [hm, Bool.true_and, Bool.and_true]
  constructor
  · exact hq _
  · intro hfull htoggle
    simp only [hfull, beq_self_eq_true, if_true, apply_ite Win.maximizeMode, ite_self,
      set_maximize, htoggle]
    rfl

/-- C24 (amended): whenever `start_move_resize` returns true, the initial geometry snapshot is
the frame geometry the window has afterwards; for a resize (a contact other than `center`) an
active quick tile mode has been exited (`quicktiling()` is none) before the snapshot is taken,
and a resize started on a fully maximized window leaves it no longer maximized, `changeMaximize`
flipping the axes it is called with; for a move (contact `center`) the quick tile mode and the
maximize mode are left as they are. Whenever it returns false, the move-resize state is
unchanged: `enabled` is still what it was (false, by the assertion of the function) and
`initial_geometry`, `geometry` and `start_screen` are unchanged. -/
theorem start_move_resize_exits (env : move_env) (win after : Win) :
    (start_move_resize env win = (true, after) →
        after.move_resize.initial_geometry = after.frameGeometry
          ∧ (win.move_resize.contact ≠ position.center →
              after.quicktiling = quicktiles.none
                ∧ (win.maximizeMode = maximize_mode.full →
                    (∀ x h v a, (env.changeMaximize x h v a).maximizeMode
                      = ⟨x.maximizeMode.vertically != v, x.maximizeMode.horizontally != h⟩) →
                    after.maximizeMode = maximize_mode.restore))
          ∧ (win.move_resize.contact = position.center →
              after.quicktiling = win.quicktiling ∧ after.maximizeMode = win.maximizeMode))
      ∧ (start_move_resize env win = (false, after) →
          after.move_resize = win.move_resize
            ∧ (win.move_resize.enabled = false → after.move_resize.enabled = false)) := by
  have hq : ∀ z : Win, (check_unrestricted_move_resize env z).quicktiling = z.quicktiling := by
    intro z
    simp only [check_unrestricted_move_resize, apply_ite Win.quicktiling, Win.set_unrestricted,
      ite_self]
  have hmm : ∀ z : Win,
      (check_unrestricted_move_resize env z).maximizeMode = z.maximizeMode := by
    intro z
    simp only [check_unrestricted_move_resize, apply_ite Win.maximizeMode, Win.set_unrestricted,
      ite_self]
  constructor
  · intro h
    unfold start_move_resize at h
    dsimp only at h
    split at h
    · cases h
    · split at h
      · cases h
      · split at h
        · cases h
        · have h2 := congrArg Prod.snd h
          simp only at h2
          subst h2
          obtain ⟨hf, _, hm⟩ := check_unrestricted_move_resize_fields env
            (update_initial_move_resize_geometry
              (start_move_resize_enable env (stop_delayed_move_resize win)))
          refine ⟨?_, ?_, ?_⟩
          · rw [hf]
            have := congrArg (fun p => p.2.1) hm
            simp only [move_resize_op.snapshot] at this
            rw [this]
            rfl
          · intro hresize
            rw [hq, hmm]
            exact start_move_resize_enable_resize env (stop_delayed_move_resize win) hresize
          · intro hmove
            rw [hq, hmm]
            exact start_move_resize_enable_move env (stop_delayed_move_resize win) hmove
  · intro h
    have key : after.move_resize = win.move_resize := by
      unfold start_move_resize at h
      dsimp only at h
      split at h
      · cases h; rfl
      · split at h
        · cases h; rfl
        · split at h
          · cases h; rfl
          · cases h
    exact ⟨key, fun he => by rw [key]; exact he⟩

/-- C24, witness: the window tiled to the left is resized by its right edge; the start of the
resize exits the quick tile mode, and the snapshot is the tile geometry. -/
theorem start_move_resize_exits_witness :
    (start_move_resize single_screen grabbed_edge).1 = true
      ∧ grabbed_edge.quicktiling = quicktiles.left
      ∧ (start_move_resize single_screen grabbed_edge).2.quicktiling = quicktiles.none
      ∧ (start_move_resize single_screen grabbed_edge).2.move_resize.initial_geometry
          = QRect.of_xywh 0 0 50 100 :=
  ⟨by decide, by decide,
    (((start_move_resize_exits single_screen grabbed_edge
      (start_move_resize single_screen grabbed_edge).2).1 rfl).2.1 (by decide)).1,
    by decide⟩

/-- C24, counterexample: the window tiled to the left is moved (contact `center`);
`start_move_resize` returns true and the window is still tiled to the left when the snapshot of
the tile geometry is taken. -/
theorem start_move_resize_move_counterexample :
    tiled_left.move_resize.contact = position.center
      ∧ tiled_left.quicktiling = quicktiles.left
      ∧ (start_move_resize single_screen tiled_left).1 = true
      ∧ (start_move_resize single_screen tiled_left).2.quicktiling = quicktiles.left
      ∧ (start_move_resize single_screen tiled_left).2.move_resize.initial_geometry
          = QRect.of_xywh 0 0 50 100 := by
  decide

/-! ### The end of a resize of a maximized window -/

/-- C25 (amended): on `finish_move_resize(win, false)` after a resize, in the step that
applies the final geometry: if the maximize mode is exactly horizontal and the final width
differs from the width of `initial_geometry`, `changeMaximize` is called for the horizontal
axis, which drops the horizontal maximization, and likewise for a maximize mode that is exactly
vertical when the height differs; in every other case, also for a fully maximized window whose
size changed, `changeMaximize` is not called and the maximize mode is unchanged. After a move
(contact `center`) the maximize mode is never changed by this step. -/
theorem finish_move_resize_maximize (env : move_env) (win : Win)
    (htoggle : ∀ x h v a, (env.changeMaximize x h v a).maximizeMode
      = ⟨x.maximizeMode.vertically != v, x.maximizeMode.horizontally != h⟩) :
    (is_resize win = true → win.maximizeMode = maximize_mode.horizontal →
        win.move_resize.geometry.width ≠ win.move_resize.initial_geometry.width →
        finish_move_resize_geometry env win false
            = (env.changeMaximize win.leaveMoveResize true false false).setFrameGeometry
                (env.changeMaximize win.leaveMoveResize true false false).move_resize.geometry
          ∧ (finish_move_resize_geometry env win false).maximizeMode = maximize_mode.restore)
      ∧ (is_resize win = true → win.maximizeMode = maximize_mode.vertical →
        win.move_resize.geometry.height ≠ win.move_resize.initial_geometry.height →
        finish_move_resize_geometry env win false
            = (env.changeMaximize win.leaveMoveResize false true false).setFrameGeometry
                (env.changeMaximize win.leaveMoveResize false true false).move_resize.geometry
          ∧ (finish_move_resize_geometry env win false).maximizeMode = maximize_mode.restore)
      ∧ (is_resize win = true →
        ¬ (win.maximizeMode = maximize_mode.horizontal
          ∧ win.move_resize.geometry.width ≠ win.move_resize.initial_geometry.width) →
        ¬ (win.maximizeMode = maximize_mode.vertical
          ∧ win.move_resize.geometry.height ≠ win.move_resize.initial_geometry.height) →
        finish_move_resize_geometry env win false
            = win.leaveMoveResize.setFrameGeometry win.move_resize.geometry
          ∧ (finish_move_resize_geometry env win false).maximizeMode = win.maximizeMode)
      ∧ (is_resize win = false →
        finish_move_resize_geometry env win false
            = win.leaveMoveResize.setFrameGeometry win.move_resize.geometry
          ∧ (finish_move_resize_geometry env win false).maximizeMode = win.maximizeMode) := by
  have hhv : (maximize_mode.horizontal == maximize_mode.vertical) = false := by decide
  have hvh : (maximize_mode.vertical == maximize_mode.horizontal) = false := by decide
  refine ⟨?_, ?_, ?_, ?_⟩
  · intro hr hm hw
    have heq : finish_move_resize_geometry env win false
        = (env.changeMaximize win.leaveMoveResize true false false).setFrameGeometry
            (env.changeMaximize win.leaveMoveResize true false false).move_resize.geometry := by
      have hb : (win.move_resize.geometry.width != win.move_resize.initial_geometry.width)
          = true := by
        simpa using hw
      unfold finish_move_resize_geometry
      simp only [hr, Win.leaveMoveResize, hm, hb, hhv, beq_self_eq_true, Bool.and_self,
        Bool.true_or, if_true, Bool.false_eq_true, if_false, Bool.false_and, Bool.and_true,
        Bool.or_false, Bool.true_and]
    refine ⟨heq, ?_⟩
    rw [heq]
    simp only [Win.setFrameGeometry, htoggle, Win.leaveMoveResize, hm]
    rfl
  · intro hr hm hw
    have heq : finish_move_resize_geometry env win false
        = (env.changeMaximize win.leaveMoveResize false true false).setFrameGeometry
            (env.changeMaximize win.leaveMoveResize false true false).move_resize.geometry := by
      have hb : (win.move_resize.geometry.height != win.move_resize.initial_geometry.height)
          = true := by
        simpa using hw
      unfold finish_move_resize_geometry
      simp only [hr, Win.leaveMoveResize, hm, hb, hvh, beq_self_eq_true, Bool.and_self,
        Bool.or_true, if_true, Bool.false_eq_true, if_false, Bool.false_and, Bool.and_true,
        Bool.false_or, Bool.true_and]
    refine ⟨heq, ?_⟩
    rw [heq]
    simp only [Win.setFrameGeometry, htoggle, Win.leaveMoveResize, hm]
    rfl
  · intro hr hh hv
    have heq : finish_move_resize_geometry env win false
        = win.leaveMoveResize.setFrameGeometry win.move_resize.geometry := by
      have h1 : (win.maximizeMode == maximize_mode.horizontal
          && win.move_resize.geometry.width != win.move_resize.initial_geometry.width)
          = false := by
        rw [Bool.eq_false_iff]
        intro h
        simp only [Bool.and_eq_true, beq_iff_eq, bne_iff_ne, ne_eq] at h
        exact hh h
      have h2 : (win.maximizeMode == maximize_mode.vertical
          && win.move_resize.geometry.height != win.move_resize.initial_geometry.height)
          = false := by
        rw [Bool.eq_false_iff]
        intro h
        simp only [Bool.and_eq_true, beq_iff_eq, bne_iff_ne, ne_eq] at h
        exact hv h
      unfold finish_move_resize_geometry
      simp only [hr, Win.leaveMoveResize, h1, h2, Bool.or_self, Bool.false_eq_true, if_false,
        if_true]
    exact ⟨heq, by rw [heq]; rfl⟩
  · intro hr
    have heq : finish_move_resize_geometry env win false
        = win.leaveMoveResize.setFrameGeometry win.move_resize.geometry := by
      unfold finish_move_resize_geometry
      simp only [hr, Bool.false_eq_true, if_false]
      rfl
    exact ⟨heq, by rw [heq]; rfl⟩

/-- C25, witness: the horizontally maximized window that was made narrower is no longer
maximized after the step. -/
theorem finish_move_resize_maximize_witness :
    resized_horizontal.maximizeMode = maximize_mode.horizontal
      ∧ (finish_move_resize_geometry flip_maximize resized_horizontal false).maximizeMode
          = maximize_mode.restore :=
  ⟨by decide,
    ((finish_move_resize_maximize flip_maximize resized_horizontal (fun _ _ _ _ => rfl)).1
      (by decide) (by decide) (by decide)).2⟩

/-- C25, counterexample: a fully maximized window is maximized horizontally and its final
width of 900 differs from the initial width of 1000, yet `finish_move_resize(win, false)` does
not drop the horizontal maximization: the window is still fully maximized. -/
theorem finish_move_resize_full_counterexample :
    is_resize resized_maximized = true
      ∧ resized_maximized.maximizeMode.horizontally = true
      ∧ resized_maximized.move_resize.geometry.width = 900
      ∧ resized_maximized.move_resize.initial_geometry.width = 1000
      ∧ (finish_move_resize_geometry flip_maximize resized_maximized false).maximizeMode
          = maximize_mode.full
      ∧ (finish_move_resize flip_maximize resized_maximized false).maximizeMode
          = maximize_mode.full
      ∧ (finish_move_resize flip_maximize resized_maximized false).frameGeometry
          = QRect.of_xywh 0 0 900 1000 := by
  decide


/-! ### Termination of the strut-avoidance loops -/

theorem natAbs_sign_step (a b : Int) (h : a ≠ b) :
    (a - (b + sign (a - b))).natAbs + 1 = (a - b).natAbs := by
  unfold sign
  rcases lt_or_gt_of_ne h with h1 | h1
  · have e1 : ¬ (a - b > 0) := by omega
    have e2 : a - b < 0 := by omega
    rw [if_neg e1, if_pos e2]
    omega
  · have e1 : a - b > 0 := by omega
    have e2 : ¬ (a - b < 0) := by omega
    rw [if_pos e1, if_neg e2]
    omega

theorem sign_self_sub (a : Int) : sign (a - a) = 0 := by
  unfold sign
  simp

theorem changed_edges_sound (tp : position) (tf top left btm right : Bool) :
    ((changed_edges tp tf top left btm right).1 = true → top = true)
      ∧ ((changed_edges tp tf top left btm right).2.1 = true → left = true)
      ∧ ((changed_edges tp tf top left btm right).2.2.1 = true → btm = true)
      ∧ ((changed_edges tp tf top left btm right).2.2.2 = true → right = true) := by
  cases tp <;> cases tf <;> cases top <;> cases left <;> cases btm <;> cases right <;> decide

theorem resize_strut_loop_terminates (availableArea : List QRect) (bTitleRect : QRect)
    (transposed : Bool) (requiredPixels : Int) (titlebarPosition : position)
    (previous : QRect) :
    ∀ (fuel : Nat) (geometry : QRect) (lastVisiblePixels : Int) (lastTry : QRect)
      (titleFailed : Bool),
      edge_distance previous lastTry ≤ edge_distance previous geometry + 1 →
      edge_distance previous geometry + (if titleFailed = true then 0 else 1) + 1 ≤ fuel →
      ∃ g, resize_strut_loop availableArea bTitleRect transposed requiredPixels titlebarPosition
        previous fuel geometry lastVisiblePixels lastTry titleFailed = some g := by
  intro fuel
  induction fuel with
  | zero =>
    intro geometry lastVisiblePixels lastTry titleFailed _ h
    omega
  | succ fuel ih =>
    intro geometry lastVisiblePixels lastTry titleFailed hinv hfuel
    rw [resize_strut_loop]
    dsimp only
    generalize real_visible_pixels availableArea (bTitleRect.translated geometry.topLeft) = real
    generalize hg1 : (if real ≤ lastVisiblePixels ∧ titleFailed = false then lastTry
      else geometry) = g1
    generalize htf1 : (if real ≤ lastVisiblePixels then true else titleFailed) = tf1
    have hphi : edge_distance previous g1 + (if tf1 = true then 0 else 1)
        ≤ edge_distance previous geometry + (if titleFailed = true then 0 else 1) := by
      subst hg1 htf1
      by_cases hr : real ≤ lastVisiblePixels
      · cases titleFailed
        · simp only [hr, and_self, if_true]
          simpa using hinv
        · simp [hr]
      · simp [hr]
    obtain ⟨s1, s2, s3, s4⟩ := changed_edges_sound titlebarPosition tf1
      (previous.top != g1.top) (previous.left != g1.left) (previous.bottom != g1.bottom)
      (previous.right != g1.right)
    generalize changed_edges titlebarPosition tf1 (previous.top != g1.top)
      (previous.left != g1.left) (previous.bottom != g1.bottom) (previous.right != g1.right)
      = ch at s1 s2 s3 s4
    have step : ∀ g2 : QRect, edge_distance previous g2 + 1 = edge_distance previous g1 →
        ∃ g, resize_strut_loop availableArea bTitleRect transposed requiredPixels
          titlebarPosition previous fuel g2 real g1 tf1 = some g := by
      intro g2 h2
      apply ih
      · omega
      · omega
    split_ifs with c1 c2 c3 c4 c5 c6
    · exact ⟨_, rfl⟩
    · exact ⟨_, rfl⟩
    · apply step
      have hne : previous.y1 ≠ g1.y1 := by simpa [QRect.top] using s1 c3
      have := natAbs_sign_step previous.y1 g1.y1 hne
      simp only [edge_distance, QRect.setTop, QRect.left, QRect.top, QRect.right, QRect.bottom,
        QRect.y]
      omega
    · apply step
      have hne : previous.x1 ≠ g1.x1 := by simpa [QRect.left] using s2 c4
      have := natAbs_sign_step previous.x1 g1.x1 hne
      simp only [edge_distance, QRect.setLeft, QRect.left, QRect.top, QRect.right, QRect.bottom,
        QRect.x]
      omega
    · apply step
      have hne : previous.y2 ≠ g1.y2 := by simpa [QRect.bottom] using s3 c5
      have := natAbs_sign_step previous.y2 g1.y2 hne
      simp only [edge_distance, QRect.setBottom, QRect.left, QRect.top, QRect.right,
        QRect.bottom]
      omega
    · apply step
      have hne : previous.x2 ≠ g1.x2 := by simpa [QRect.right] using s4 c6
      have := natAbs_sign_step previous.x2 g1.x2 hne
      simp only [edge_distance, QRect.setRight, QRect.left, QRect.top, QRect.right,
        QRect.bottom]
      omega
    · exact ⟨_, rfl⟩

theorem sign_eq_zero_iff (v : Int) : sign v = 0 ↔ v = 0 := by
  unfold sign
  constructor
  · intro h
    by_contra hv
    rcases lt_or_gt_of_ne hv with h1 | h1
    · have e1 : ¬ (v > 0) := by omega
      rw [if_neg e1, if_pos h1] at h
      omega
    · have e2 : ¬ (v < 0) := by omega
      rw [if_pos h1, if_neg e2] at h
      omega
  · intro h
    subst h
    simp

theorem move_back_step (px py x y : Int) (fav : Prop) [Decidable fav]
    (hfav : fav → sign (px - x) ≠ 0) :
    (px = x ∧ py = y
        ∧ (if fav then sign (px - x) else if sign (py - y) ≠ 0 then 0 else sign (px - x)) = 0
        ∧ (if fav then 0 else sign (py - y)) = 0)
      ∨ (px - (x + (if fav then sign (px - x)
              else if sign (py - y) ≠ 0 then 0 else sign (px - x)))).natAbs
          + (py - (y + (if fav then 0 else sign (py - y)))).natAbs + 1
          = (px - x).natAbs + (py - y).natAbs := by
  by_cases hf : fav
  · right
    have hx : px ≠ x := by
      intro h
      apply hfav hf
      rw [sign_eq_zero_iff]
      omega
    have := natAbs_sign_step px x hx
    simp only [hf, if_true]
    omega
  · simp only [hf, if_false]
    by_cases hy : py = y
    · have sy : sign (py - y) = 0 := by
        rw [sign_eq_zero_iff]
        omega
      simp only [sy, ne_eq, not_true_eq_false, if_false]
      by_cases hx : px = x
      · left
        refine ⟨hx, hy, ?_, trivial⟩
        rw [sign_eq_zero_iff]
        omega
      · right
        have := natAbs_sign_step px x hx
        omega
    · right
      have sy : sign (py - y) ≠ 0 := by
        rw [ne_eq, sign_eq_zero_iff]
        omega
      have := natAbs_sign_step py y hy
      simp only [sy, ne_eq, not_false_eq_true, if_true]
      omega

theorem move_strut_loop_terminates (availableArea strut : List QRect) (numScreens : Nat)
    (bTitleRect : QRect) (transposed : Bool) (requiredPixels : Int) (previous : QRect) :
    ∀ (fuel : Nat) (geometry : QRect),
      geometry.x2 - geometry.x1 = previous.x2 - previous.x1 →
      geometry.y2 - geometry.y1 = previous.y2 - previous.y1 →
      corner_distance previous geometry + 1 ≤ fuel →
      ∃ g, move_strut_loop availableArea strut numScreens bTitleRect transposed requiredPixels
        previous fuel geometry = some g := by
  intro fuel
  induction fuel with
  | zero =>
    intro geometry _ _ h
    omega
  | succ fuel ih =>
    intro geometry hw hh hfuel
    rw [move_strut_loop]
    dsimp only
    generalize visible_pixels availableArea (bTitleRect.translated geometry.topLeft) transposed
      = visible
    have hk := move_back_step previous.x previous.y geometry.x geometry.y
      (visible ≠ 0 ∧ sign (previous.x - geometry.x) ≠ 0) And.right
    generalize (if visible ≠ 0 ∧ sign (previous.x - geometry.x) ≠ 0 then
        sign (previous.x - geometry.x)
      else if sign (previous.y - geometry.y) ≠ 0 then 0 else sign (previous.x - geometry.x))
      = dx1 at hk ⊢
    generalize (if visible ≠ 0 ∧ sign (previous.x - geometry.x) ≠ 0 then 0
      else sign (previous.y - geometry.y)) = dy1 at hk ⊢
    have back : ¬ geometry.translated ⟨dx1, dy1⟩ = previous →
        ∃ g, move_strut_loop availableArea strut numScreens bTitleRect transposed
          requiredPixels previous fuel (geometry.translated ⟨dx1, dy1⟩) = some g := by
      -- the window is moved back by one pixel
      intro c4
      obtain ⟨px1, py1, px2, py2⟩ := previous
      obtain ⟨x1, y1, x2, y2⟩ := geometry
      simp only [QRect.x, QRect.y, QRect.translated, corner_distance] at *
      rcases hk with ⟨hx, hy, hdx, hdy⟩ | hk
      · exfalso
        apply c4
        subst hx hy hdx hdy
        simp only [add_zero, QRect.mk.injEq, true_and]
        constructor <;> omega
      · apply ih
        · simp only
          omega
        · simp only
          omega
        · simp only
          omega
    split_ifs with c1 c2 c3 c4 <;> first | exact ⟨_, rfl⟩ | exact back ‹_›

/-- C26: both strut-avoidance loops of `move_resize` give a geometry, for every previous
geometry, every position of the candidate, every title bar and every set of rectangles of the
available area and of the struts. The move loop, whose candidate is the previous geometry moved
to a point `p`, is left within `|dx| + |dy| + 1` iterations, where `(dx, dy)` is the offset of
the top-left corners; the resize loop is left within the sum of the four edge distances between
candidate and previous geometry plus two iterations. -/
theorem strut_loops_terminate (availableArea strut : List QRect) (numScreens : Nat)
    (bTitleRect : QRect) (transposed : Bool) (requiredPixels : Int)
    (titlebarPosition : position) (previous candidate : QRect) (p : QPoint) (fuel : Nat) :
    (corner_distance previous (previous.moveTopLeft p) + 1 ≤ fuel →
        ∃ g, move_strut_loop availableArea strut numScreens bTitleRect transposed
          requiredPixels previous fuel (previous.moveTopLeft p) = some g)
      ∧ (edge_distance previous candidate + 2 ≤ fuel →
        ∃ g, resize_strut_loop availableArea bTitleRect transposed requiredPixels
          titlebarPosition previous fuel candidate (-1) candidate false = some g) := by
  constructor
  · intro h
    apply move_strut_loop_terminates
    · simp only [QRect.moveTopLeft, QRect.moveLeft, QRect.moveTop]
      omega
    · simp only [QRect.moveTopLeft, QRect.moveLeft, QRect.moveTop]
      omega
    · exact h
  · intro h
    apply resize_strut_loop_terminates
    · omega
    · simp only [Bool.false_eq_true, if_false]
      omega

/-- C26, witness: a window dragged to the left of the work area, with 20 pixels of its title
inside; both loops bring it back by single pixels until 100 by 20 pixels of the title are inside
again or the previous geometry is reached. -/
theorem strut_loops_terminate_witness :
    corner_distance strut_example_previous (strut_example_previous.moveTopLeft ⟨-83, 10⟩) = 3
      ∧ (∃ g, move_strut_loop strut_example_area [] 1 strut_example_title false 2000
          strut_example_previous 4 (strut_example_previous.moveTopLeft ⟨-83, 10⟩) = some g)
      ∧ move_strut_loop strut_example_area [] 1 strut_example_title false 2000
          strut_example_previous 4 (strut_example_previous.moveTopLeft ⟨-83, 10⟩)
          = some strut_example_previous
      ∧ move_strut_loop strut_example_area [] 1 strut_example_title false 2000
          strut_example_previous 2 (strut_example_previous.moveTopLeft ⟨-83, 10⟩) = none
      ∧ (∃ g, resize_strut_loop strut_example_area strut_example_title false 2000 position.top
          strut_example_previous 5 (QRect.of_xywh (-83) 10 103 50) (-1)
          (QRect.of_xywh (-83) 10 103 50) false = some g) :=
  ⟨by decide,
    (strut_loops_terminate strut_example_area [] 1 strut_example_title false 2000 position.top
      strut_example_previous (QRect.of_xywh (-83) 10 103 50) ⟨-83, 10⟩ 4).1 (by decide),
    by decide, by decide,
    (strut_loops_terminate strut_example_area [] 1 strut_example_title false 2000 position.top
      strut_example_previous (QRect.of_xywh (-83) 10 103 50) ⟨-83, 10⟩ 5).2 (by decide)⟩


/-! ### `lower_window` on a window of a group -/

/-- The windows that `lower_window` walks over for a family inside the constrained order: the
members of the family in their constrained stacking order. -/
theorem ensure_stacking_order_in_list_family (cast : Nat → Bool) (stack fam : List Nat)
    (hs : stack.Nodup) (hfam : ∀ x ∈ fam, cast x = true ∧ x ∈ stack) :
    ensure_stacking_order_in_list cast stack fam = stack.filter (fun x => decide (x ∈ fam)) := by
  have hcast : fam.filter cast = fam := by
    rw [List.filter_eq_self]
    intro x hx
    exact (hfam x hx).1
  have hcond : stack.filter (fun x => cast x && decide (x ∈ fam))
      = stack.filter (fun x => decide (x ∈ fam)) := by
    apply List.filter_congr
    intro x _
    by_cases hx : x ∈ fam
    · simp [hx, (hfam x hx).1]
    · simp [hx]
  unfold ensure_stacking_order_in_list
  by_cases h0 : fam.length = 0
  · have : fam = [] := List.length_eq_zero.1 h0
    subst this
    simp
  · by_cases h1 : fam.length < 2
    · cases fam with
      | nil => simp at h0
      | cons a t =>
        cases t with
        | nil =>
          have ha := hfam a (List.mem_singleton.2 rfl)
          simp only [List.length_singleton, one_ne_zero, if_false, Nat.one_lt_ofNat, if_true,
            List.headD_cons, ha.1]
          symm
          apply filter_eq_singleton_of_nodup stack a hs ha.2
          intro x
          simp
        | cons b t =>
          simp only [List.length_cons] at h1
          omega
    · rw [if_neg h0, if_neg h1, foldl_move_to_back cast stack (fam.filter cast) hs, hcast, hcond]
      have hnil : fam.filter (fun y => decide (y ∉ stack.filter (fun x => decide (x ∈ fam))))
          = [] := by
        rw [List.filter_eq_nil_iff]
        intro x hx
        have : x ∈ stack.filter (fun x => decide (x ∈ fam)) := by
          rw [List.mem_filter]
          exact ⟨(hfam x hx).2, by simpa using hx⟩
        simpa using this
      rw [hnil, List.nil_append]

/-- The loop of `lower_window` over the windows of the group, on windows without repetition:
the windows other than `window` end up below everything else, the one processed last at the
very bottom. -/
theorem lower_group_fold (window : Nat) :
    ∀ (l : List Nat) (s : space), l.Nodup →
      (l.foldl (fun s gwin => if gwin = window then s else cleanup (do_lower s gwin) gwin)
          s).pre_stack
        = (l.filter (fun x => x != window)).reverse
          ++ s.pre_stack.filter (fun x => decide (x ∉ l.filter (fun x => x != window)))
      ∧ (l.foldl (fun s gwin => if gwin = window then s else cleanup (do_lower s gwin) gwin)
          s).most_recently_raised
        = if s.most_recently_raised ∈ l.filter (fun x => x != window) then nullptr
          else s.most_recently_raised := by
  intro l
  induction l with
  | nil =>
    intro s _
    simp
  | cons g l ih =>
    intro s hnd
    have hnd2 := List.nodup_cons.1 hnd
    rw [List.foldl_cons]
    by_cases hg : g = window
    · have hfil : (g :: l).filter (fun x => x != window) = l.filter (fun x => x != window) := by
        rw [List.filter_cons]
        simp [hg]
      rw [if_pos hg, hfil]
      exact ih s hnd2.2
    · have hfil : (g :: l).filter (fun x => x != window)
          = g :: l.filter (fun x => x != window) := by
        rw [List.filter_cons]
        simp [hg]
      have hgl : g ∉ l.filter (fun x => x != window) := fun h => hnd2.1 (List.mem_filter.1 h).1
      rw [if_neg hg, hfil]
      obtain ⟨ih1, ih2⟩ := ih (cleanup (do_lower s g) g) hnd2.2
      constructor
      · rw [ih1, cleanup_pre_stack, do_lower_pre_stack, List.reverse_cons, List.append_assoc,
          List.singleton_append, List.filter_cons]
        have hdec : decide (g ∉ l.filter (fun x => x != window)) = true :=
          decide_eq_true hgl
        rw [if_pos hdec, List.filter_filter]
        congr 2
        apply List.filter_congr
        intro x _
        by_cases hx : x = g
        · subst hx
          simp
        · simp [hx]
      · rw [ih2, cleanup_most_recently_raised, do_lower_most_recently_raised]
        by_cases hm : s.most_recently_raised = g
        · simp [hm]
        · have hiff : s.most_recently_raised ∈ g :: l.filter (fun x => x != window)
              ↔ s.most_recently_raised ∈ l.filter (fun x => x != window) := by
            rw [List.mem_cons]
            constructor
            · rintro (h | h)
              · exact absurd h hm
              · exact h
            · exact Or.inr
          rw [if_neg hm]
          by_cases hin : s.most_recently_raised ∈ l.filter (fun x => x != window)
          · rw [if_pos hin, if_pos (hiff.2 hin)]
          · rw [if_neg hin, if_neg (fun h => hin (hiff.1 h))]

/-- C22: for an x11 window with a lead and a group, whose transient family consists of x11
windows of the constrained order (which has no repetition): after `lower_window` the other
members of the family are at the bottom of `pre_stack` in their constrained stacking order,
`window` is directly above them, the windows outside the family are above and keep their
relative order, and `most_recently_raised` is null if it pointed to a lowered window and is
unchanged otherwise. -/
theorem lower_window_group (sp : space) (window : Nat)
    (hx11 : (sp.win window).is_x11 = true) (hlead : lead (sp.win window) ≠ nullptr)
    (hgroup : (sp.win window).group = true) (hstack : sp.stack.Nodup)
    (hfam : ∀ x ∈ (sp.win window).get_transient_family,
      x ≠ nullptr ∧ (sp.win x).is_x11 = true ∧ x ∈ sp.stack) :
    (lower_window sp window).pre_stack
        = sp.stack.filter
            (fun x => decide (x ∈ (sp.win window).get_transient_family) && x != window)
          ++ window :: sp.pre_stack.filter
            (fun x => x != window && decide (x ∉ (sp.win window).get_transient_family))
      ∧ (lower_window sp window).most_recently_raised
        = if sp.most_recently_raised = window
            ∨ (sp.most_recently_raised ∈ (sp.win window).get_transient_family) then nullptr
          else sp.most_recently_raised := by
  have hcondition : ((sp.win window).is_x11 && lead (sp.win window) != nullptr
      && (sp.win window).group) = true := by
    simp [hx11, hgroup, hlead]
  have hstack1 : (do_lower sp window).stack = sp.stack := by
    unfold do_lower
    split_ifs <;> rfl
  have hwins : ensure_stacking_order_in_list (x11_cast sp.win) (do_lower sp window).stack
      (sp.win window).get_transient_family
      = sp.stack.filter (fun x => decide (x ∈ (sp.win window).get_transient_family)) := by
    rw [hstack1]
    apply ensure_stacking_order_in_list_family _ _ _ hstack
    intro x hx
    obtain ⟨h1, h2, h3⟩ := hfam x hx
    exact ⟨by simp [x11_cast, h1, h2], h3⟩
  have hnd : (sp.stack.filter
      (fun x => decide (x ∈ (sp.win window).get_transient_family))).reverse.Nodup :=
    List.nodup_reverse.2 (hstack.filter _)
  obtain ⟨f1, f2⟩ := lower_group_fold window _ (do_lower sp window) hnd
  have hothers : ((sp.stack.filter
      (fun x => decide (x ∈ (sp.win window).get_transient_family))).reverse.filter
        (fun x => x != window)).reverse
      = sp.stack.filter
          (fun x => decide (x ∈ (sp.win window).get_transient_family) && x != window) := by
    rw [List.filter_reverse, List.reverse_reverse, List.filter_filter]
    apply List.filter_congr
    intro x _
    rw [Bool.and_comm]
  have hmem : ∀ x, x ∈ (sp.stack.filter
      (fun x => decide (x ∈ (sp.win window).get_transient_family))).reverse.filter
        (fun x => x != window)
      ↔ x ∈ (sp.win window).get_transient_family ∧ x ≠ window := by
    intro x
    simp only [List.mem_filter, List.mem_reverse, decide_eq_true_eq, bne_iff_ne, ne_eq]
    constructor
    · rintro ⟨⟨_, h2⟩, h3⟩
      exact ⟨h2, h3⟩
    · rintro ⟨h2, h3⟩
      exact ⟨⟨(hfam x h2).2.2, h2⟩, h3⟩
  unfold lower_window
  simp only [hcondition, if_true, update_order_pre_stack, update_order_most_recently_raised,
    cleanup_pre_stack, cleanup_most_recently_raised, hwins]
  constructor
  · rw [f1, hothers, do_lower_pre_stack, List.filter_cons]
    have hw : decide (window ∉ (sp.stack.filter
        (fun x => decide (x ∈ (sp.win window).get_transient_family))).reverse.filter
          (fun x => x != window)) = true := by
      rw [decide_eq_true_eq, hmem]
      exact fun h => h.2 rfl
    rw [if_pos hw, List.filter_filter]
    congr 2
    apply List.filter_congr
    intro x _
    by_cases hxw : x = window
    · subst hxw
      simp
    · by_cases hxf : x ∈ (sp.win window).get_transient_family
      · have : decide (x ∉ (sp.stack.filter
            (fun x => decide (x ∈ (sp.win window).get_transient_family))).reverse.filter
              (fun x => x != window)) = false := by
          rw [decide_eq_false_iff_not, not_not, hmem]
          exact ⟨hxf, hxw⟩
        rw [this]
        simp [hxf]
      · have : decide (x ∉ (sp.stack.filter
            (fun x => decide (x ∈ (sp.win window).get_transient_family))).reverse.filter
              (fun x => x != window)) = true := by
          rw [decide_eq_true_eq, hmem]
          exact fun h => hxf h.1
        rw [this]
        simp [hxf, hxw]
  · rw [f2, do_lower_most_recently_raised]
    by_cases hin : sp.most_recently_raised ∈ (sp.stack.filter
        (fun x => decide (x ∈ (sp.win window).get_transient_family))).reverse.filter
          (fun x => x != window)
    · have h2 := (hmem _).1 hin
      rw [if_pos hin, if_pos (Or.inr h2.1)]
      simp
    · rw [if_neg hin]
      by_cases hmw : sp.most_recently_raised = window
      · rw [if_pos hmw, if_pos (Or.inl hmw)]
      · have hnf : sp.most_recently_raised ∉ (sp.win window).get_transient_family :=
          fun h => hin ((hmem _).2 ⟨h, hmw⟩)
        rw [if_neg hmw, if_neg (fun h => h.elim hmw hnf)]

/-- C22, witness: window `2` of the group of the windows `1`, `2` and `3` is lowered; the
windows `1` and `3` are at the bottom in their stacking order, window `2` is above them and the
plain window `4` above all; `most_recently_raised`, which was window `3`, is null. -/
theorem lower_window_group_witness :
    family_example.pre_stack = [1, 4, 2, 3]
      ∧ (lower_window family_example 2).pre_stack
        = family_example.stack.filter
            (fun x => decide (x ∈ (family_example.win 2).get_transient_family) && x != 2)
          ++ 2 :: family_example.pre_stack.filter
            (fun x => x != 2 && decide (x ∉ (family_example.win 2).get_transient_family))
      ∧ (lower_window family_example 2).pre_stack = [1, 3, 2, 4]
      ∧ (lower_window family_example 2).most_recently_raised = nullptr :=
  ⟨by decide,
    (lower_window_group family_example 2 (by decide) (by decide) (by decide) (by decide)
      (by decide)).1,
    by decide, by decide⟩


/-! ### Sorting a sorted list again -/

theorem bucket_layer_of_not_active (heap : Nat → window) (m : Nat × Nat → Option layer)
    (w : Nat) (h : m (lead_key heap w) ≠ some layer.active) :
    bucket_layer heap m w = (heap w).get_layer := by
  unfold lead_key at h
  unfold bucket_layer
  cases hm : m ((heap w).central_output, (heap w).get_top_lead) with
  | none => rfl
  | some found =>
    have hf : found ≠ layer.active := by
      intro hf
      apply h
      rw [hm, hf]
    simp only [hf, false_and, if_false]

theorem bucket_layer_of_own_active (heap : Nat → window) (m : Nat × Nat → Option layer)
    (w : Nat) (h : (heap w).get_layer = layer.active) :
    bucket_layer heap m w = layer.active := by
  unfold bucket_layer
  cases hm : m ((heap w).central_output, (heap w).get_top_lead) with
  | none => exact h
  | some found =>
    simp only [h, ite_self]

theorem bucket_layer_of_lead_active (heap : Nat → window) (m : Nat × Nat → Option layer)
    (w : Nat) (h : m (lead_key heap w) = some layer.active)
    (hlay : enum_index layer.below < enum_index (heap w).get_layer) :
    bucket_layer heap m w = layer.active := by
  unfold lead_key at h
  unfold bucket_layer
  simp only [h, true_and, gt_iff_lt, hlay, if_true]

theorem bucket_layer_active_origin (heap : Nat → window) (m : Nat × Nat → Option layer)
    (w : Nat) (h : bucket_layer heap m w = layer.active) :
    (heap w).get_layer = layer.active ∨ m (lead_key heap w) = some layer.active := by
  by_cases hm : m (lead_key heap w) = some layer.active
  · exact Or.inr hm
  · left
    rw [← bucket_layer_of_not_active heap m w hm]
    exact h

theorem lead_layers_after_append (heap : Nat → window) (l1 l2 : List Nat) :
    ∀ m : Nat × Nat → Option layer,
      lead_layers_after heap m (l1 ++ l2)
        = lead_layers_after heap (lead_layers_after heap m l1) l2 := by
  induction l1 with
  | nil => intro m; rfl
  | cons a l1 ih =>
    intro m
    simp only [List.cons_append, lead_layers_after]
    exact ih _

/-- Windows that enter the loop with their own layer as tag, none of them `active` and none
with an entry `active` for its key: the loop puts each of them in its own layer and makes no
entry `active`. -/
theorem buckets_of_own_tags (heap : Nat → window) :
    ∀ (tagged : List (Nat × layer)) (m : Nat × Nat → Option layer),
      (∀ e ∈ tagged, e.2 = (heap e.1).get_layer ∧ e.2 ≠ layer.active) →
      (∀ e ∈ tagged, m (lead_key heap e.1) ≠ some layer.active) →
      buckets heap m (tagged.map Prod.fst) = tagged.map Prod.snd
        ∧ ∀ k, lead_layers_after heap m (tagged.map Prod.fst) k = some layer.active →
            m k = some layer.active := by
  intro tagged
  induction tagged with
  | nil =>
    intro m _ _
    exact ⟨rfl, fun k h => h⟩
  | cons e tagged ih =>
    intro m h1 h2
    have he := h1 e (List.mem_cons_self _ _)
    have hb : bucket_layer heap m e.1 = e.2 := by
      rw [bucket_layer_of_not_active heap m e.1 (h2 e (List.mem_cons_self _ _)), he.1]
    have hrest : ∀ x ∈ tagged,
        Function.update m ((heap e.1).central_output, (heap e.1).get_top_lead) (some e.2)
          (lead_key heap x.1) ≠ some layer.active := by
      intro x hx
      by_cases hk : lead_key heap x.1 = ((heap e.1).central_output, (heap e.1).get_top_lead)
      · rw [hk, Function.update_same]
        intro hh
        exact he.2 (Option.some.inj hh)
      · rw [Function.update_noteq hk]
        exact h2 x (List.mem_cons_of_mem _ hx)
    obtain ⟨i1, i2⟩ := ih
      (Function.update m ((heap e.1).central_output, (heap e.1).get_top_lead) (some e.2))
      (fun x hx => h1 x (List.mem_cons_of_mem _ hx)) hrest
    simp only [List.map_cons, buckets, lead_layers_after, hb]
    refine ⟨by rw [i1], ?_⟩
    intro k hk
    have h3 := i2 k hk
    by_cases hkk : k = ((heap e.1).central_output, (heap e.1).get_top_lead)
    · rw [hkk, Function.update_same] at h3
      exact absurd (Option.some.inj h3) he.2
    · rw [Function.update_noteq hkk] at h3
      exact h3

/-- The windows the loop puts in the layer `active`, processed again in their order: the loop
puts each of them in the layer `active` again, from every map that has the entries `active` of
the map of the first pass. -/
theorem buckets_of_active_tags (heap : Nat → window) :
    ∀ (l : List Nat) (m m2 : Nat × Nat → Option layer),
      (∀ k, m k = some layer.active → m2 k = some layer.active) →
      buckets heap m2
          (((l.zip (buckets heap m l)).filter (fun e => e.2 = layer.active)).map Prod.fst)
        = ((l.zip (buckets heap m l)).filter (fun e => e.2 = layer.active)).map Prod.snd := by
  intro l
  induction l with
  | nil =>
    intro m m2 _
    rfl
  | cons w l ih =>
    intro m m2 hr
    simp only [buckets, List.zip_cons_cons, List.filter_cons]
    by_cases hb : bucket_layer heap m w = layer.active
    · have hb2 : bucket_layer heap m2 w = layer.active := by
        rcases bucket_layer_active_origin heap m w hb with h | h
        · exact bucket_layer_of_own_active heap m2 w h
        · rcases bucket_layer_cases heap m w with h3 | h3
          · exact bucket_layer_of_own_active heap m2 w (h3.symm.trans hb)
          · exact bucket_layer_of_lead_active heap m2 w (hr _ h) h3.2
      simp only [hb, decide_True, if_true, List.map_cons, buckets, hb2]
      congr 1
      apply ih
      intro k hk
      by_cases hkk : k = ((heap w).central_output, (heap w).get_top_lead)
      · rw [hkk, Function.update_same]
      · rw [Function.update_noteq hkk] at hk
        rw [Function.update_noteq hkk]
        exact hr k hk
    · simp only [hb, decide_False, Bool.false_eq_true, if_false]
      apply ih
      intro k hk
      by_cases hkk : k = ((heap w).central_output, (heap w).get_top_lead)
      · rw [hkk, Function.update_same] at hk
        exact absurd (Option.some.inj hk) hb
      · rw [Function.update_noteq hkk] at hk
        exact hr k hk

/-- An entry `active` of the map after the loop was there before, or a window of the list
with this key has the own layer `active`. -/
theorem lead_layers_after_active (heap : Nat → window) (k : Nat × Nat) :
    ∀ (l : List Nat) (m : Nat × Nat → Option layer),
      lead_layers_after heap m l k = some layer.active →
      m k = some layer.active
        ∨ ∃ w ∈ l, lead_key heap w = k ∧ (heap w).get_layer = layer.active := by
  intro l
  induction l with
  | nil =>
    intro m h
    exact Or.inl h
  | cons a l ih =>
    intro m h
    simp only [lead_layers_after] at h
    rcases ih _ h with h1 | ⟨w, hw, hk, hl⟩
    · by_cases hkk : k = ((heap a).central_output, (heap a).get_top_lead)
      · rw [hkk, Function.update_same] at h1
        rcases bucket_layer_active_origin heap m a (Option.some.inj h1) with h2 | h2
        · exact Or.inr ⟨a, List.mem_cons_self _ _, hkk.symm, h2⟩
        · left
          rw [hkk]
          exact h2
      · rw [Function.update_noteq hkk] at h1
        exact Or.inl h1
    · exact Or.inr ⟨w, List.mem_cons_of_mem _ hw, hk, hl⟩

theorem zip_map_fst_snd (tagged : List (Nat × layer)) :
    (tagged.map Prod.fst).zip (tagged.map Prod.snd) = tagged := by
  induction tagged with
  | nil => rfl
  | cons e tagged ih =>
    simp only [List.map_cons, List.zip_cons_cons, ih]

theorem mem_of_mem_group_by (ks : List layer) (tagged : List (Nat × layer)) (e : Nat × layer)
    (he : e ∈ group_by ks tagged) : e ∈ tagged ∧ e.2 ∈ ks := by
  unfold group_by at he
  rw [List.mem_flatMap] at he
  obtain ⟨k, hk, hek⟩ := he
  rw [List.mem_filter] at hek
  have : e.2 = k := by simpa using hek.2
  exact ⟨hek.1, this ▸ hk⟩

theorem group_by_group_by (ks : List layer) (tagged : List (Nat × layer)) (hnd : ks.Nodup) :
    group_by ks (group_by ks tagged) = group_by ks tagged := by
  have key : ∀ ks2 : List layer, (∀ k ∈ ks2, k ∈ ks) →
      group_by ks2 (group_by ks tagged) = group_by ks2 tagged := by
    intro ks2
    induction ks2 with
    | nil => intro _; rfl
    | cons k ks2 ih =>
      intro hsub
      have h1 : ∀ t : List (Nat × layer),
          group_by (k :: ks2) t = t.filter (fun e => e.2 = k) ++ group_by ks2 t := by
        intro t
        simp [group_by]
      rw [h1, h1, filter_group_by k ks tagged hnd (hsub k (List.mem_cons_self _ _)),
        ih (fun x hx => hsub x (List.mem_cons_of_mem _ hx))]
  exact key ks (fun _ h => h)

/-- The loop of `sort_windows_by_layer` on the sorted list puts every window in the layer of
the first pass, when no window above the layer `active` shares its key with a window whose own
layer is `active`. -/
theorem buckets_of_grouped (heap : Nat → window) (l : List Nat)
    (habove : ∀ w ∈ l, enum_index layer.active < enum_index (heap w).get_layer →
      ∀ v ∈ l, (heap v).get_layer = layer.active → lead_key heap v ≠ lead_key heap w) :
    buckets heap (fun _ => none) ((grouped heap l).map Prod.fst)
      = (grouped heap l).map Prod.snd := by
  have hsplit : all_layers
      = [layer.desktop, layer.below, layer.normal, layer.dock, layer.above, layer.notification]
        ++ ([layer.active]
          ++ [layer.critical_notification, layer.on_screen_display, layer.unmanaged]) := rfl
  have hact : ∀ t : List (Nat × layer),
      group_by [layer.active] t = t.filter (fun e => e.2 = layer.active) := by
    intro t
    simp [group_by]
  have hmem : ∀ e ∈ bucketed heap l, e.1 ∈ l
      ∧ (e.2 = (heap e.1).get_layer
        ∨ (e.2 = layer.active ∧ enum_index layer.below < enum_index (heap e.1).get_layer)) := by
    intro e he
    exact ⟨(List.of_mem_zip he).1, mem_zip_buckets heap l e.1 e.2 _ he⟩
  -- the layers below `active`
  have hlow : ∀ e ∈ group_by
      [layer.desktop, layer.below, layer.normal, layer.dock, layer.above, layer.notification]
      (bucketed heap l), e.2 = (heap e.1).get_layer ∧ e.2 ≠ layer.active := by
    intro e he
    obtain ⟨h1, h2⟩ := mem_of_mem_group_by _ _ e he
    have hne : e.2 ≠ layer.active := by
      intro h
      rw [h] at h2
      revert h2
      decide
    rcases (hmem e h1).2 with h3 | h3
    · exact ⟨h3, hne⟩
    · exact absurd h3.1 hne
  obtain ⟨p1, p2⟩ := buckets_of_own_tags heap _ (fun _ => none) hlow
    (fun _ _ h => Option.noConfusion h)
  -- the layers above `active`
  have hhigh : ∀ e ∈ group_by
      [layer.critical_notification, layer.on_screen_display, layer.unmanaged]
      (bucketed heap l),
      e.1 ∈ l ∧ e.2 = (heap e.1).get_layer ∧ e.2 ≠ layer.active
        ∧ enum_index layer.active < enum_index e.2 := by
    intro e he
    obtain ⟨h1, h2⟩ := mem_of_mem_group_by _ _ e he
    have hne : e.2 ≠ layer.active ∧ enum_index layer.active < enum_index e.2 := by
      revert h2
      generalize e.2 = k
      cases k <;> decide
    rcases (hmem e h1).2 with h3 | h3
    · exact ⟨(hmem e h1).1, h3, hne.1, hne.2⟩
    · exact absurd h3.1 hne.1
  have hq := buckets_of_own_tags heap
    (group_by [layer.critical_notification, layer.on_screen_display, layer.unmanaged]
      (bucketed heap l))
    (lead_layers_after heap
      (lead_layers_after heap (fun _ => none)
        ((group_by
          [layer.desktop, layer.below, layer.normal, layer.dock, layer.above,
            layer.notification] (bucketed heap l)).map Prod.fst))
      (((bucketed heap l).filter (fun e => e.2 = layer.active)).map Prod.fst))
    (fun e he => ⟨(hhigh e he).2.1, (hhigh e he).2.2.1⟩)
    (by
      intro e he hk
      obtain ⟨hl, hown, _, hidx⟩ := hhigh e he
      rcases lead_layers_after_active heap _ _ _ hk with h1 | ⟨v, hv, hvk, hvl⟩
      · exact Option.noConfusion (p2 _ h1)
      · rw [List.mem_map] at hv
        obtain ⟨x, hx, hxv⟩ := hv
        have hvmem : v ∈ l := hxv ▸ (hmem x (List.mem_filter.1 hx).1).1
        exact habove e.1 hl (hown ▸ hidx) v hvmem hvl hvk)
  unfold grouped
  rw [hsplit, group_by_append, group_by_append, hact, List.map_append, List.map_append,
    List.map_append, List.map_append, buckets_append, buckets_append, p1, hq.1]
  congr 2
  exact buckets_of_active_tags heap l (fun _ => none) _ (fun _ h => Option.noConfusion h)

/-- C28 (amended): `sort_windows_by_layer` is a fixed point on its own output for every input
list in which no window whose own layer is above `active` shares its (output, top lead) key
with a window whose own layer is `active`: sorting the sorted list gives the sorted list. -/
theorem sort_windows_by_layer_fixed_point (heap : Nat → window) (l : List Nat)
    (habove : ∀ w ∈ l, enum_index layer.active < enum_index (heap w).get_layer →
      ∀ v ∈ l, (heap v).get_layer = layer.active → lead_key heap v ≠ lead_key heap w) :
    sort_windows_by_layer heap (sort_windows_by_layer heap l)
      = sort_windows_by_layer heap l := by
  have hnd : all_layers.Nodup := by decide
  rw [sort_windows_by_layer_eq_grouped heap l,
    sort_windows_by_layer_eq_grouped heap ((grouped heap l).map Prod.fst)]
  congr 1
  have hb : bucketed heap ((grouped heap l).map Prod.fst) = grouped heap l := by
    unfold bucketed
    rw [buckets_of_grouped heap l habove, zip_map_fst_snd]
  show group_by all_layers (bucketed heap ((grouped heap l).map Prod.fst)) = grouped heap l
  rw [hb]
  exact group_by_group_by all_layers (bucketed heap l) hnd

/-- C28, witness: the group of the fullscreen window `1` and its transients `2` and `3`, with
window `2` below window `1` and window `3` raised above it; the list `[2, 1, 3]` is sorted to
itself, and sorting the result again gives it again. -/
theorem sort_windows_by_layer_fixed_point_witness :
    sort_windows_by_layer group_example [2, 1, 3] = [2, 1, 3]
      ∧ sort_windows_by_layer group_example (sort_windows_by_layer group_example [2, 1, 3])
        = sort_windows_by_layer group_example [2, 1, 3] :=
  ⟨by decide, sort_windows_by_layer_fixed_point group_example [2, 1, 3] (by decide)⟩

/-- C28, counterexample: the on-screen display `2` is a transient of the fullscreen window `1`
and was stacked before it, the critical notification `3` is of another group. The list
`[2, 1, 3]` is sorted to `[1, 3, 2]`, and sorting that list again gives `[1, 2, 3]`. -/
theorem sort_windows_by_layer_twice_counterexample :
    sort_windows_by_layer osd_group_example [2, 1, 3] = [1, 3, 2]
      ∧ sort_windows_by_layer osd_group_example
          (sort_windows_by_layer osd_group_example [2, 1, 3]) = [1, 2, 3]
      ∧ sort_windows_by_layer osd_group_example
          (sort_windows_by_layer osd_group_example [2, 1, 3])
        ≠ sort_windows_by_layer osd_group_example [2, 1, 3] := by
  decide

end KWin.win
